import Mathlib

/-!
# go-box2d-lite: a shallow embedding of the engine and its specification

The Go package `box2dlite` is a port of Box2D Lite: oriented boxes, a box-box collider with
feature-tagged clipping, a per-pair arbiter with a sequential-impulse solver, point joints, and a
world that orchestrates one time step.

Modelling conventions.

* `float64` is idealised as an arbitrary linearly ordered field `α` (exact arithmetic, no NaN, no
  rounding).  `math.Abs`, `math.Max`, `math.Min` are `|·|`, `max`, `min`.  The functions of Go's
  `math` package that are not field operations (`Cos`, `Sin`, `Sqrt`) and the constant
  `MaxFloat64` are taken as a parameter `MathLib α`.
* Pointers to bodies and joints are addresses (`Nat`) into an explicit memory; every read and write
  of the source through a pointer is a read or write of that memory, so aliasing (`Body1 = Body2`,
  a body listed twice) behaves as in Go.
* Contacts and arbiters are freshly allocated by `Collide` and `BroadPhase` and never shared, so
  they are modelled as values.
* A Go run-time panic (index out of range, `Mat22.Invert` with zero determinant) is `none`.
-/

namespace Box2dLite

/-! ## math_utils.go -/

/-- Functions and constants of Go's `math` package used by the engine that are not field
operations.  They are parameters of the model. -/
structure MathLib (α : Type) where
  Cos : α → α
  Sin : α → α
  Sqrt : α → α
  MaxFloat64 : α

structure Vec2 (α : Type) where
  X : α
  Y : α
deriving DecidableEq, Repr

structure Mat22 (α : Type) where
  Col1 : Vec2 α
  Col2 : Vec2 α
deriving DecidableEq, Repr

section MathUtils

variable {α : Type} [LinearOrderedField α]

def Vec2.Negative (v : Vec2 α) : Vec2 α := ⟨-v.X, -v.Y⟩

def Vec2.Add (v o : Vec2 α) : Vec2 α := ⟨v.X + o.X, v.Y + o.Y⟩

def Vec2.Sub (v o : Vec2 α) : Vec2 α := ⟨v.X - o.X, v.Y - o.Y⟩

def Vec2.Mul (v : Vec2 α) (a : α) : Vec2 α := ⟨v.X * a, v.Y * a⟩

def Vec2.Abs (v : Vec2 α) : Vec2 α := ⟨|v.X|, |v.Y|⟩

def Vec2.Dot (v o : Vec2 α) : α := v.X * o.X + v.Y * o.Y

def Mat22ByAngle (m : MathLib α) (angle : α) : Mat22 α :=
  let c := m.Cos angle
  let s := m.Sin angle
  ⟨⟨c, s⟩, ⟨-s, c⟩⟩

def Mat22.Transpose (m : Mat22 α) : Mat22 α :=
  ⟨⟨m.Col1.X, m.Col2.X⟩, ⟨m.Col1.Y, m.Col2.Y⟩⟩

/-- The method `Mat22.Invert` panics when the determinant is zero: `none`. -/
def Mat22.Invert (m : Mat22 α) : Option (Mat22 α) :=
  let det := m.Col1.X * m.Col2.Y - m.Col1.Y * m.Col2.X
  if det = 0 then none
  else
    let det := 1 / det
    some ⟨⟨det * m.Col2.Y, -det * m.Col2.X⟩, ⟨-det * m.Col1.Y, det * m.Col1.X⟩⟩

def Mat22.Add (m o : Mat22 α) : Mat22 α := ⟨m.Col1.Add o.Col1, m.Col2.Add o.Col2⟩

def Mat22.MulV (m : Mat22 α) (v : Vec2 α) : Vec2 α :=
  ⟨m.Col1.X * v.X + m.Col2.X * v.Y, m.Col1.Y * v.X + m.Col2.Y * v.Y⟩

def Mat22.MulM (m o : Mat22 α) : Mat22 α := ⟨m.MulV o.Col1, m.MulV o.Col2⟩

def Mat22.Abs (m : Mat22 α) : Mat22 α := ⟨m.Col1.Abs, m.Col2.Abs⟩

def Dot (a b : Vec2 α) : α := a.X * b.X + a.Y * b.Y

def CrossVV (a b : Vec2 α) : α := a.X * b.Y - a.Y * b.X

def CrossVS (a : Vec2 α) (s : α) : Vec2 α := ⟨s * a.Y, -s * a.X⟩

def CrossSV (s : α) (a : Vec2 α) : Vec2 α := ⟨-s * a.Y, s * a.X⟩

def MulSV (s : α) (v : Vec2 α) : Vec2 α := ⟨s * v.X, s * v.Y⟩

def Clamp (a l h : α) : α := max l (min a h)

end MathUtils

/-! ## body.go -/

structure Body (α : Type) where
  Position : Vec2 α
  Rotation : α
  Velocity : Vec2 α
  AngularVelocity : α
  Force : Vec2 α
  Torque : α
  Width : Vec2 α
  Friction : α
  Mass : α
  invMass : α
  I : α
  invI : α

/-- The method `Body.Set(w, m)` on the body `b`. -/
def Body.Set {α : Type} [LinearOrderedField α] (ml : MathLib α) (b : Body α) (w : Vec2 α)
    (m : α) : Body α :=
  let b := { b with Position := ⟨0, 0⟩ }
  let b := { b with Rotation := 0 }
  let b := { b with Velocity := ⟨0, 0⟩ }
  let b := { b with AngularVelocity := 0 }
  let b := { b with Force := ⟨0, 0⟩ }
  let b := { b with Torque := 0 }
  let b := { b with Friction := 2 / 10 }
  let b := { b with Width := w }
  let b := { b with Mass := m }
  if m < ml.MaxFloat64 then
    let b := { b with invMass := 1 / m }
    let b := { b with I := m * (w.X * w.X + w.Y * w.Y) / 12 }
    { b with invI := 1 / b.I }
  else
    let b := { b with invMass := 0 }
    let b := { b with I := ml.MaxFloat64 }
    { b with invI := 0 }

/-! ## arbiter.go: features and contacts -/

/-- The type `EdgeNumbers` is a `uint8`; the engine only ever stores the five constants below. -/
abbrev EdgeNumbers := Nat

def NO_EDGE : EdgeNumbers := 0
def EDGE1 : EdgeNumbers := 1
def EDGE2 : EdgeNumbers := 2
def EDGE3 : EdgeNumbers := 3
def EDGE4 : EdgeNumbers := 4

structure FeaturePair where
  InEdge1 : EdgeNumbers
  OutEdge1 : EdgeNumbers
  InEdge2 : EdgeNumbers
  OutEdge2 : EdgeNumbers
deriving DecidableEq, Repr

def FeaturePair.Value (fp : FeaturePair) : Nat :=
  (fp.InEdge1 <<< 0) ||| (fp.OutEdge1 <<< 8) ||| (fp.InEdge2 <<< 16) ||| (fp.OutEdge2 <<< 24)

def FeaturePair.Flip (fp : FeaturePair) : FeaturePair :=
  { InEdge1 := fp.InEdge2, OutEdge1 := fp.OutEdge2, InEdge2 := fp.InEdge1, OutEdge2 := fp.OutEdge1 }

structure Contact (α : Type) where
  Position : Vec2 α
  Normal : Vec2 α
  R1 : Vec2 α
  R2 : Vec2 α
  Separation : α
  Pn : α
  Pt : α
  Pnb : α
  MassNormal : α
  MassTangent : α
  Bias : α
  Feature : FeaturePair

/-! ## collide.go -/

abbrev Axis := Nat

def FACE_A_X : Axis := 0
def FACE_A_Y : Axis := 1
def FACE_B_X : Axis := 2
def FACE_B_Y : Axis := 3

structure ClipVertex (α : Type) where
  v : Vec2 α
  fp : FeaturePair

section Collide

variable {α : Type} [LinearOrderedField α]

/-- The zero value of `FeaturePair` (a Go variable declared without initialiser). -/
def FeaturePair.zero : FeaturePair := ⟨0, 0, 0, 0⟩

/-- The zero value of `ClipVertex`. -/
def ClipVertex.zero : ClipVertex α := ⟨⟨0, 0⟩, FeaturePair.zero⟩

/-- The zero value of `Contact`. -/
def Contact.zero : Contact α :=
  ⟨⟨0, 0⟩, ⟨0, 0⟩, ⟨0, 0⟩, ⟨0, 0⟩, 0, 0, 0, 0, 0, 0, 0, FeaturePair.zero⟩

/-- A Go array `[2]ClipVertex`. -/
abbrev ClipPair (α : Type) := ClipVertex α × ClipVertex α

/-- The assignment `vOut[i] = x` on a two-slot array; an index past the end panics. -/
def ClipPair.set (a : ClipPair α) (i : Nat) (x : ClipVertex α) : Option (ClipPair α) :=
  match i with
  | 0 => some (x, a.2)
  | 1 => some (a.1, x)
  | _ => none

/-- The function `ClipSegmentToLine`: the result is the output array `vOut` (zero-initialised by the caller)
after the writes, together with `numOut`; `none` is an index-out-of-range panic. -/
def ClipSegmentToLine (vOut : ClipPair α) (vIn : ClipPair α) (normal : Vec2 α) (offset : α)
    (clipEdge : EdgeNumbers) : Option (ClipPair α × Nat) :=
  let numOut : Nat := 0
  let distance0 := Dot normal vIn.1.v - offset
  let distance1 := Dot normal vIn.2.v - offset
  -- if distance0 <= 0.0 { vOut[numOut] = vIn[0]; numOut++ }
  (if distance0 ≤ 0 then (vOut.set numOut vIn.1).map (fun o => (o, numOut + 1))
   else some (vOut, numOut)).bind fun s1 =>
  -- if distance1 <= 0.0 { vOut[numOut] = vIn[1]; numOut++ }
  (if distance1 ≤ 0 then (s1.1.set s1.2 vIn.2).map (fun o => (o, s1.2 + 1))
   else some s1).bind fun s2 =>
  -- if distance0*distance1 < 0.0 { ... }
  if distance0 * distance1 < 0 then
    let interp := distance0 / (distance0 - distance1)
    let p := vIn.1.v.Add (MulSV interp (vIn.2.v.Sub vIn.1.v))
    let fp : FeaturePair :=
      if distance0 > 0 then { vIn.1.fp with InEdge1 := clipEdge, InEdge2 := NO_EDGE }
      else { vIn.2.fp with OutEdge1 := clipEdge, OutEdge2 := NO_EDGE }
    (s2.1.set s2.2 ⟨p, fp⟩).map (fun o => (o, s2.2 + 1))
  else some s2

/-- One slot written by `ComputeIncidentEdge`: position and the two edge tags of box 2. -/
def ClipVertex.incident (c : ClipVertex α) (v : Vec2 α) (i o : EdgeNumbers) : ClipVertex α :=
  { v := v, fp := { c.fp with InEdge2 := i, OutEdge2 := o } }

/-- The function `ComputeIncidentEdge` mutates the two-slot array `c`; the model returns the array after. -/
def ComputeIncidentEdge (c : ClipPair α) (h pos : Vec2 α) (rot : Mat22 α) (normal : Vec2 α) :
    ClipPair α :=
  let rotT := rot.Transpose
  let n := rotT.MulV normal
  let n := n.Negative
  let nAbs := n.Abs
  let c : ClipPair α :=
    if nAbs.X > nAbs.Y then
      if n.X > 0 then
        (c.1.incident ⟨h.X, -h.Y⟩ EDGE3 EDGE4, c.2.incident ⟨h.X, h.Y⟩ EDGE4 EDGE1)
      else
        (c.1.incident ⟨-h.X, h.Y⟩ EDGE1 EDGE2, c.2.incident ⟨-h.X, -h.Y⟩ EDGE2 EDGE3)
    else
      if n.Y > 0 then
        (c.1.incident ⟨h.X, h.Y⟩ EDGE4 EDGE1, c.2.incident ⟨-h.X, h.Y⟩ EDGE1 EDGE2)
      else
        (c.1.incident ⟨-h.X, -h.Y⟩ EDGE2 EDGE3, c.2.incident ⟨h.X, -h.Y⟩ EDGE3 EDGE4)
  ({ c.1 with v := pos.Add (rot.MulV c.1.v) }, { c.2 with v := pos.Add (rot.MulV c.2.v) })

/-- The variables `axis`, `separation`, `normal` of `Collide` (lines 168-170). -/
structure BestAxis (α : Type) where
  axis : Axis
  separation : α
  normal : Vec2 α

/-- Part of `Collide`, lines 167-213: selection of the reference axis.  `relativeTol = 0.95`,
`absoluteTol = 0.01`. -/
def Collide.bestAxis (RotA RotB : Mat22 α) (hA hB dA dB faceA faceB : Vec2 α) : BestAxis α :=
  let relativeTol : α := 95 / 100
  let absoluteTol : α := 1 / 100
  -- Box A faces
  let s : BestAxis α :=
    ⟨FACE_A_X, faceA.X, if dA.X > 0 then RotA.Col1 else RotA.Col1.Negative⟩
  let s : BestAxis α :=
    if faceA.Y > relativeTol * s.separation + absoluteTol * hA.Y then
      ⟨FACE_A_Y, faceA.Y, if dA.Y > 0 then RotA.Col2 else RotA.Col2.Negative⟩
    else s
  -- Box B faces
  let s : BestAxis α :=
    if faceB.X > relativeTol * s.separation + absoluteTol * hB.X then
      ⟨FACE_B_X, faceB.X, if dB.X > 0 then RotB.Col1 else RotB.Col1.Negative⟩
    else s
  let s : BestAxis α :=
    if faceB.Y > relativeTol * s.separation + absoluteTol * hB.Y then
      ⟨FACE_B_Y, faceB.Y, if dB.Y > 0 then RotB.Col2 else RotB.Col2.Negative⟩
    else s
  s

/-- The clipping data set up by the `switch axis` of `Collide` (lines 216-278). -/
structure ClipSetup (α : Type) where
  frontNormal : Vec2 α
  sideNormal : Vec2 α
  incidentEdge : ClipPair α
  front : α
  negSide : α
  posSide : α
  negEdge : EdgeNumbers
  posEdge : EdgeNumbers

/-- Part of `Collide`, lines 215-278.  All variables start at their zero value; a value of `axis` that
matches no case leaves them so. -/
def Collide.clipSetup (axis : Axis) (normal : Vec2 α) (RotA RotB : Mat22 α)
    (hA hB posA posB : Vec2 α) : ClipSetup α :=
  let incidentEdge : ClipPair α := (ClipVertex.zero, ClipVertex.zero)
  match axis with
  | 0 => -- case FACE_A_X
    let frontNormal := normal
    let front := Dot posA frontNormal + hA.X
    let sideNormal := RotA.Col2
    let side := Dot posA sideNormal
    { frontNormal := frontNormal, sideNormal := sideNormal,
      incidentEdge := ComputeIncidentEdge incidentEdge hB posB RotB frontNormal,
      front := front, negSide := -side + hA.Y, posSide := side + hA.Y,
      negEdge := EDGE3, posEdge := EDGE1 }
  | 1 => -- case FACE_A_Y
    let frontNormal := normal
    let front := Dot posA frontNormal + hA.Y
    let sideNormal := RotA.Col1
    let side := Dot posA sideNormal
    { frontNormal := frontNormal, sideNormal := sideNormal,
      incidentEdge := ComputeIncidentEdge incidentEdge hB posB RotB frontNormal,
      front := front, negSide := -side + hA.X, posSide := side + hA.X,
      negEdge := EDGE2, posEdge := EDGE4 }
  | 2 => -- case FACE_B_X
    let frontNormal := normal.Negative
    let front := Dot posB frontNormal + hB.X
    let sideNormal := RotB.Col2
    let side := Dot posB sideNormal
    { frontNormal := frontNormal, sideNormal := sideNormal,
      incidentEdge := ComputeIncidentEdge incidentEdge hA posA RotA frontNormal,
      front := front, negSide := -side + hB.Y, posSide := side + hB.Y,
      negEdge := EDGE3, posEdge := EDGE1 }
  | 3 => -- case FACE_B_Y
    let frontNormal := normal.Negative
    let front := Dot posB frontNormal + hB.Y
    let sideNormal := RotB.Col1
    let side := Dot posB sideNormal
    { frontNormal := frontNormal, sideNormal := sideNormal,
      incidentEdge := ComputeIncidentEdge incidentEdge hA posA RotA frontNormal,
      front := front, negSide := -side + hB.X, posSide := side + hB.X,
      negEdge := EDGE2, posEdge := EDGE4 }
  | _ =>
    { frontNormal := ⟨0, 0⟩, sideNormal := ⟨0, 0⟩, incidentEdge := incidentEdge,
      front := 0, negSide := 0, posSide := 0, negEdge := 0, posEdge := 0 }

/-- Part of `Collide`, lines 304-319: the body of the loop over the two clipped points, appending to
`contacts`. -/
def Collide.emit (axis : Axis) (normal frontNormal : Vec2 α) (front : α)
    (contacts : List (Contact α)) (cv : ClipVertex α) : List (Contact α) :=
  let separation := Dot frontNormal cv.v - front
  if separation ≤ 0 then
    let c : Contact α := Contact.zero
    let c := { c with Separation := separation }
    let c := { c with Normal := normal }
    let c := { c with Position := cv.v.Sub (MulSV separation frontNormal) }
    let c := { c with Feature := cv.fp }
    let c := if axis = FACE_B_X ∨ axis = FACE_B_Y then { c with Feature := c.Feature.Flip } else c
    contacts ++ [c]
  else contacts

/-- The function `Collide(bodyA, bodyB)`.  `some []` is the `nil` slice; `none` is a run-time panic. -/
def Collide (m : MathLib α) (bodyA bodyB : Body α) : Option (List (Contact α)) :=
  -- Setup
  let hA := MulSV (1 / 2) bodyA.Width
  let hB := MulSV (1 / 2) bodyB.Width
  let posA := bodyA.Position
  let posB := bodyB.Position
  let RotA := Mat22ByAngle m bodyA.Rotation
  let RotB := Mat22ByAngle m bodyB.Rotation
  let RotAT := RotA.Transpose
  let RotBT := RotB.Transpose
  let dp := posB.Sub posA
  let dA := RotAT.MulV dp
  let dB := RotBT.MulV dp
  let C := RotAT.MulM RotB
  let absC := C.Abs
  let absCT := absC.Transpose
  -- Box A faces
  let faceA := dA.Abs
  let faceA := faceA.Sub hA
  let faceA := faceA.Sub (absC.MulV hB)
  if faceA.X > 0 ∨ faceA.Y > 0 then some []
  else
    -- Box B faces
    let faceB := dB.Abs
    let faceB := faceB.Sub (absCT.MulV hA)
    let faceB := faceB.Sub hB
    if faceB.X > 0 ∨ faceB.Y > 0 then some []
    else
      let best := Collide.bestAxis RotA RotB hA hB dA dB faceA faceB
      let cs := Collide.clipSetup best.axis best.normal RotA RotB hA hB posA posB
      let clipPoints1 : ClipPair α := (ClipVertex.zero, ClipVertex.zero)
      let clipPoints2 : ClipPair α := (ClipVertex.zero, ClipVertex.zero)
      -- Clip to box side 1
      (ClipSegmentToLine clipPoints1 cs.incidentEdge cs.sideNormal.Negative cs.negSide
        cs.negEdge).bind fun r1 =>
      if r1.2 < 2 then some []
      else
        -- Clip to negative box side 1
        (ClipSegmentToLine clipPoints2 r1.1 cs.sideNormal cs.posSide cs.posEdge).bind fun r2 =>
        if r2.2 < 2 then some []
        else
          some ([r2.1.1, r2.1.2].foldl
            (Collide.emit best.axis best.normal cs.frontNormal cs.front) [])

end Collide

/-! ## Memory -/

/-- The memory that `*Body` pointers point into. -/
abbrev BodyMem (α : Type) := Nat → Body α

/-- A statement `p.field = e` where `e` reads fields of `*p`: the body at address `p` is replaced
by `f` of its current value. -/
def BodyMem.modify {α : Type} (mem : BodyMem α) (p : Nat) (f : Body α → Body α) : BodyMem α :=
  fun q => if q = p then f (mem p) else mem q

/-- The package-level variables of world.go (all three are initialised to `true`). -/
structure Globals where
  accumulateImpulses : Bool
  warmStarting : Bool
  positionCorrection : Bool

/-- The values the package-level variables are initialised with. -/
def Globals.default : Globals := ⟨true, true, true⟩

/-! ## arbiter.go: keys and arbiters -/

structure ArbiterKey where
  Body1 : Nat
  Body2 : Nat
deriving DecidableEq, Repr

/-- The method `ArbiterKey.Set` orders the two pointers by address. -/
def ArbiterKey.Set (k : ArbiterKey) (b1 b2 : Nat) : ArbiterKey :=
  if b1 < b2 then { k with Body1 := b1, Body2 := b2 }
  else { k with Body1 := b2, Body2 := b1 }

def MAX_POINTS : Nat := 2

structure Arbiter (α : Type) where
  Contacts : List (Contact α)
  Body1 : Nat
  Body2 : Nat
  Friction : α

section Arbiter

variable {α : Type} [LinearOrderedField α]

/-- The zero value of `Arbiter` (`var a Arbiter`). -/
def Arbiter.zero : Arbiter α := ⟨[], 0, 0, 0⟩

def Arbiter.Set (m : MathLib α) (mem : BodyMem α) (a : Arbiter α) (b1 b2 : Nat)
    (contacts : List (Contact α)) : Arbiter α :=
  let a : Arbiter α :=
    if b1 < b2 then { a with Body1 := b1, Body2 := b2 }
    else { a with Body1 := b2, Body2 := b1 }
  let a := { a with Contacts := contacts }
  { a with Friction := m.Sqrt ((mem b1).Friction * (mem b2).Friction) }

/-- The body of the outer loop of `Arbiter.Update` up to the `append`: the contact `c` that is
appended for `cNew`.  The inner loop with its `break` is the search for the first old contact
with the same feature value. -/
def Arbiter.Update.carry (g : Globals) (old : List (Contact α)) (cNew : Contact α) :
    Contact α :=
  let cMatch := old.find? (fun cOld => decide (cOld.Feature.Value = cNew.Feature.Value))
  let c := cNew
  match cMatch with
  | some cMatch =>
    if g.warmStarting then { c with Pn := cMatch.Pn, Pt := cMatch.Pt, Pnb := cMatch.Pnb }
    else { c with Pn := 0, Pt := 0, Pnb := 0 }
  | none => c

/-- The body of the outer loop of `Arbiter.Update`. -/
def Arbiter.Update.merge (g : Globals) (old : List (Contact α))
    (mergedContacts : List (Contact α)) (cNew : Contact α) : List (Contact α) :=
  mergedContacts ++ [Arbiter.Update.carry g old cNew]

def Arbiter.Update (g : Globals) (a : Arbiter α) (newContacts : List (Contact α)) : Arbiter α :=
  let mergedContacts := newContacts.foldl (Arbiter.Update.merge g a.Contacts) []
  { a with Contacts := mergedContacts }

/-- A `range` loop over a list of contact pointers whose body mutates the contact in place and
the bodies in memory. -/
def forContacts (f : BodyMem α → Contact α → Contact α × BodyMem α) :
    List (Contact α) → BodyMem α → List (Contact α) × BodyMem α
  | [], mem => ([], mem)
  | c :: cs, mem =>
    let r := f mem c
    let rest := forContacts f cs r.2
    (r.1 :: rest.1, rest.2)

/-- The impulse application to the two bodies (four statements of the source, in order):
`b1.Velocity -= invMass1 * P`, `b1.AngularVelocity -= invI1 * (r1 x P)`,
`b2.Velocity += invMass2 * P`, `b2.AngularVelocity += invI2 * (r2 x P)`. -/
def applyToBodies (mem : BodyMem α) (b1 b2 : Nat) (r1 r2 P : Vec2 α) : BodyMem α :=
  let mem := mem.modify b1 fun b => { b with Velocity := b.Velocity.Sub (MulSV b.invMass P) }
  let mem := mem.modify b1 fun b =>
    { b with AngularVelocity := b.AngularVelocity - b.invI * CrossVV r1 P }
  let mem := mem.modify b2 fun b => { b with Velocity := b.Velocity.Add (MulSV b.invMass P) }
  let mem := mem.modify b2 fun b =>
    { b with AngularVelocity := b.AngularVelocity + b.invI * CrossVV r2 P }
  mem

/-- The loop body of `Arbiter.PreStep`. -/
def Arbiter.PreStep.contact (g : Globals) (a : Arbiter α) (inv_dt k_allowedPenetration
    k_biasFactor : α) (mem : BodyMem α) (c : Contact α) : Contact α × BodyMem α :=
  let r1 := c.Position.Sub (mem a.Body1).Position
  let r2 := c.Position.Sub (mem a.Body2).Position
  -- Precompute normal mass, tangent mass, and bias.
  let rn1 := Dot r1 c.Normal
  let rn2 := Dot r2 c.Normal
  let kNormal := (mem a.Body1).invMass + (mem a.Body2).invMass
  let kNormal := kNormal + ((mem a.Body1).invI * (Dot r1 r1 - rn1 * rn1)
    + (mem a.Body2).invI * (Dot r2 r2 - rn2 * rn2))
  let c := { c with MassNormal := 1 / kNormal }
  let tangent := CrossVS c.Normal 1
  let rt1 := Dot r1 tangent
  let rt2 := Dot r2 tangent
  let kTangent := (mem a.Body1).invMass + (mem a.Body2).invMass
  let kTangent := kTangent + ((mem a.Body1).invI * (Dot r1 r1 - rt1 * rt1)
    + (mem a.Body2).invI * (Dot r2 r2 - rt2 * rt2))
  let c := { c with MassTangent := 1 / kTangent }
  let c := { c with Bias := -k_biasFactor * inv_dt * min 0 (c.Separation + k_allowedPenetration) }
  if g.accumulateImpulses then
    -- Apply normal + friction impulse
    let P := MulSV c.Pn c.Normal
    let P := P.Add (MulSV c.Pt tangent)
    (c, applyToBodies mem a.Body1 a.Body2 r1 r2 P)
  else (c, mem)

def Arbiter.PreStep (g : Globals) (a : Arbiter α) (inv_dt : α) (mem : BodyMem α) :
    Arbiter α × BodyMem α :=
  let k_allowedPenetration : α := 1 / 100
  let k_biasFactor : α := if g.positionCorrection then 2 / 10 else 0
  let r := forContacts (Arbiter.PreStep.contact g a inv_dt k_allowedPenetration k_biasFactor)
    a.Contacts mem
  ({ a with Contacts := r.1 }, r.2)

/-- The relative velocity at a contact:
`b2.Velocity + Cross(b2.AngularVelocity, r2) - b1.Velocity - Cross(b1.AngularVelocity, r1)`. -/
def relVelocity (mem : BodyMem α) (b1 b2 : Nat) (r1 r2 : Vec2 α) : Vec2 α :=
  let dv := (mem b2).Velocity.Add (CrossSV (mem b2).AngularVelocity r2)
  let dv := dv.Sub (mem b1).Velocity
  dv.Sub (CrossSV (mem b1).AngularVelocity r1)

/-- The loop body of `Arbiter.ApplyImpulse`. -/
def Arbiter.ApplyImpulse.contact (g : Globals) (a : Arbiter α) (mem : BodyMem α)
    (c : Contact α) : Contact α × BodyMem α :=
  let b1 := a.Body1
  let b2 := a.Body2
  let c := { c with R1 := c.Position.Sub (mem b1).Position }
  let c := { c with R2 := c.Position.Sub (mem b2).Position }
  -- Relative velocity at contact
  let dv := relVelocity mem b1 b2 c.R1 c.R2
  -- Compute normal impulse
  let vn := Dot dv c.Normal
  let dPn := c.MassNormal * (-vn + c.Bias)
  let r : Contact α × α :=
    if g.accumulateImpulses then
      let Pn0 := c.Pn
      let c := { c with Pn := max (Pn0 + dPn) 0 }
      (c, c.Pn - Pn0)
    else (c, max dPn 0)
  let c := r.1
  let dPn := r.2
  -- Apply contact impulse
  let Pn := MulSV dPn c.Normal
  let mem := applyToBodies mem b1 b2 c.R1 c.R2 Pn
  -- Relative velocity at contact
  let dv := relVelocity mem b1 b2 c.R1 c.R2
  let tangent := CrossVS c.Normal 1
  let vt := Dot dv tangent
  let dPt := c.MassTangent * (-vt)
  let r : Contact α × α :=
    if g.accumulateImpulses then
      -- Compute friction impulse
      let maxPt := a.Friction * c.Pn
      -- Clamp friction
      let oldTangentImpulse := c.Pt
      let c := { c with Pt := Clamp (oldTangentImpulse + dPt) (-maxPt) maxPt }
      (c, c.Pt - oldTangentImpulse)
    else (c, dPt)
  let c := r.1
  let dPt := r.2
  -- Apply contact impulse
  let Pt := MulSV dPt tangent
  (c, applyToBodies mem b1 b2 c.R1 c.R2 Pt)

def Arbiter.ApplyImpulse (g : Globals) (a : Arbiter α) (mem : BodyMem α) :
    Arbiter α × BodyMem α :=
  let r := forContacts (Arbiter.ApplyImpulse.contact g a) a.Contacts mem
  ({ a with Contacts := r.1 }, r.2)

end Arbiter

/-! ## joint.go -/

structure Joint (α : Type) where
  M : Mat22 α
  LocalAnchor1 : Vec2 α
  LocalAnchor2 : Vec2 α
  R1 : Vec2 α
  R2 : Vec2 α
  Bias : Vec2 α
  P : Vec2 α
  Body1 : Nat
  Body2 : Nat
  BiasFactor : α
  Softness : α

section Joint

variable {α : Type} [LinearOrderedField α]

def Joint.Set (m : MathLib α) (mem : BodyMem α) (j : Joint α) (b1 b2 : Nat) (anchor : Vec2 α) :
    Joint α :=
  let j := { j with Body1 := b1 }
  let j := { j with Body2 := b2 }
  let rot1 := Mat22ByAngle m (mem b1).Rotation
  let rot2 := Mat22ByAngle m (mem b2).Rotation
  let rot1T := rot1.Transpose
  let rot2T := rot2.Transpose
  let j := { j with LocalAnchor1 := rot1T.MulV (anchor.Sub (mem b1).Position) }
  let j := { j with LocalAnchor2 := rot2T.MulV (anchor.Sub (mem b2).Position) }
  let j := { j with P := ⟨0, 0⟩ }
  let j := { j with Softness := 0 }
  { j with BiasFactor := 2 / 10 }

/-- The matrix `k` that `Joint.PreStep` inverts (lines 43-61), from the rotated anchors. -/
def Joint.PreStep.K (j : Joint α) (mem : BodyMem α) : Mat22 α :=
  let invMass1 := (mem j.Body1).invMass
  let invMass2 := (mem j.Body2).invMass
  let invI1 := (mem j.Body1).invI
  let invI2 := (mem j.Body2).invI
  let k1 : Mat22 α := ⟨⟨invMass1 + invMass2, 0⟩, ⟨0, invMass1 + invMass2⟩⟩
  let k2 : Mat22 α :=
    ⟨⟨invI1 * j.R1.Y * j.R1.Y, -invI1 * j.R1.X * j.R1.Y⟩,
     ⟨-invI1 * j.R1.X * j.R1.Y, invI1 * j.R1.X * j.R1.X⟩⟩
  let k3 : Mat22 α :=
    ⟨⟨invI2 * j.R2.Y * j.R2.Y, -invI2 * j.R2.X * j.R2.Y⟩,
     ⟨-invI2 * j.R2.X * j.R2.Y, invI2 * j.R2.X * j.R2.X⟩⟩
  let k := k1.Add (k2.Add k3)
  let k := { k with Col1 := { k.Col1 with X := k.Col1.X + j.Softness } }
  { k with Col2 := { k.Col2 with Y := k.Col2.Y + j.Softness } }

/-- The method `Joint.PreStep`; `none` when `Mat22.Invert` panics. -/
def Joint.PreStep (m : MathLib α) (g : Globals) (j : Joint α) (inv_dt : α) (mem : BodyMem α) :
    Option (Joint α × BodyMem α) :=
  let rot1 := Mat22ByAngle m (mem j.Body1).Rotation
  let rot2 := Mat22ByAngle m (mem j.Body2).Rotation
  let j := { j with R1 := rot1.MulV j.LocalAnchor1 }
  let j := { j with R2 := rot2.MulV j.LocalAnchor2 }
  let k := Joint.PreStep.K j mem
  k.Invert.map fun M =>
    let j := { j with M := M }
    let p1 := (mem j.Body1).Position.Add j.R1
    let p2 := (mem j.Body2).Position.Add j.R2
    let dp := p2.Sub p1
    let j :=
      if g.positionCorrection then { j with Bias := MulSV (-j.BiasFactor * inv_dt) dp }
      else { j with Bias := ⟨0, 0⟩ }
    if g.warmStarting then
      -- Apply accumulated impulse.
      (j, applyToBodies mem j.Body1 j.Body2 j.R1 j.R2 j.P)
    else ({ j with P := ⟨0, 0⟩ }, mem)

def Joint.ApplyImpulse (j : Joint α) (mem : BodyMem α) : Joint α × BodyMem α :=
  let dv := (mem j.Body2).Velocity
  let dv := dv.Add (CrossSV (mem j.Body2).AngularVelocity j.R2)
  let dv := dv.Sub (mem j.Body1).Velocity
  let dv := dv.Sub (CrossSV (mem j.Body1).AngularVelocity j.R1)
  -- impulse = M * (bias - dv - softness * P)
  let i := j.Bias.Sub dv
  let i := i.Sub (MulSV j.Softness j.P)
  let impulse := j.M.MulV i
  let mem := applyToBodies mem j.Body1 j.Body2 j.R1 j.R2 impulse
  ({ j with P := j.P.Add impulse }, mem)

end Joint

/-! ## world.go -/

/-- The Go map `map[ArbiterKey]*Arbiter` as an association list with at most one entry per key. -/
abbrev ArbiterMap (α : Type) := List (ArbiterKey × Arbiter α)

/-- The lookup `w.Arbiters[key]`. -/
def ArbiterMap.get {α : Type} : ArbiterMap α → ArbiterKey → Option (Arbiter α)
  | [], _ => none
  | (k, a) :: rest, key => if k = key then some a else ArbiterMap.get rest key

/-- The statement `delete(w.Arbiters, key)`. -/
def ArbiterMap.delete {α : Type} : ArbiterMap α → ArbiterKey → ArbiterMap α
  | [], _ => []
  | (k, a) :: rest, key =>
    if k = key then ArbiterMap.delete rest key else (k, a) :: ArbiterMap.delete rest key

/-- The statement `w.Arbiters[key] = a`, and the in-place mutation of the arbiter stored under an
existing key. -/
def ArbiterMap.put {α : Type} : ArbiterMap α → ArbiterKey → Arbiter α → ArbiterMap α
  | [], key, v => [(key, v)]
  | (k, a) :: rest, key, v =>
    if k = key then (k, v) :: rest else (k, a) :: ArbiterMap.put rest key v

/-- The memory `*Joint` pointers point into. -/
abbrev JointMem (α : Type) := Nat → Joint α

/-- The memory outside the `World` value: the bodies and joints its pointers refer to. -/
structure Heap (α : Type) where
  body : BodyMem α
  joint : JointMem α

structure World (α : Type) where
  Bodies : List Nat
  Joints : List Nat
  Arbiters : ArbiterMap α
  Gravity : Vec2 α
  Iterations : Int

/-- Go leaves the order of a `range` over a map unspecified.  A schedule gives, for the `r`-th
`range` over the arbiter map within one `Step` (`0` for the pre-steps, `i + 1` for iteration
`i`) and the keys present, the order in which the keys are visited. -/
abbrev Schedule := Nat → List ArbiterKey → List ArbiterKey

/-- A schedule a Go run can follow: every `range` visits each key exactly once. -/
def Schedule.Valid (s : Schedule) : Prop := ∀ r ks, (s r ks).Perm ks

/-- The schedule that ranges in the order of the association list. -/
def Schedule.inOrder : Schedule := fun _ ks => ks

section World

variable {α : Type} [LinearOrderedField α]

def NewWorld (g : Vec2 α) (i : Int) : World α :=
  { Bodies := [], Joints := [], Arbiters := [], Gravity := g, Iterations := i }

def World.AddBody (w : World α) (b : Nat) : World α := { w with Bodies := w.Bodies ++ [b] }

def World.AddJoint (w : World α) (j : Nat) : World α := { w with Joints := w.Joints ++ [j] }

def World.Clear (w : World α) : World α :=
  { w with Bodies := [], Joints := [], Arbiters := [] }

/-- The pairs `(bi, bj)` visited by the two nested loops of `BroadPhase`, in order:
`for i, bi := range w.Bodies { for _, bj := range w.Bodies[i+1:] { ... } }`. -/
def World.BroadPhase.pairs : List Nat → List (Nat × Nat)
  | [] => []
  | bi :: rest => rest.map (fun bj => (bi, bj)) ++ World.BroadPhase.pairs rest

/-- The body of the inner loop of `BroadPhase` on the arbiter map. -/
def World.BroadPhase.pair (m : MathLib α) (g : Globals) (mem : BodyMem α)
    (arbs : ArbiterMap α) (p : Nat × Nat) : Option (ArbiterMap α) :=
  let bi := p.1
  let bj := p.2
  if (mem bi).invMass = 0 ∧ (mem bj).invMass = 0 then some arbs
  else
    let key : ArbiterKey := ⟨0, 0⟩
    let key := key.Set bi bj
    (Collide m (mem key.Body1) (mem key.Body2)).map fun contacts =>
      if contacts.length > 0 then
        match arbs.get key with
        | none =>
          let a : Arbiter α := Arbiter.zero
          let a := a.Set m mem bi bj contacts
          arbs.put key a
        | some it => arbs.put key (it.Update g contacts)
      else arbs.delete key

/-- A loop whose body may panic. -/
def forM? {σ β : Type} (f : σ → β → Option σ) : List β → σ → Option σ
  | [], s => some s
  | x :: xs, s => (f s x).bind (forM? f xs)

def World.BroadPhase (m : MathLib α) (g : Globals) (w : World α) (mem : BodyMem α) :
    Option (World α) :=
  (forM? (World.BroadPhase.pair m g mem) (World.BroadPhase.pairs w.Bodies) w.Arbiters).map
    fun arbs => { w with Arbiters := arbs }

/-- One visit of a `range` over the arbiter map: the arbiter stored under `key` is mutated in
place by `f`, which also updates the bodies. -/
def visitArbiter (f : Arbiter α → BodyMem α → Arbiter α × BodyMem α)
    (s : ArbiterMap α × BodyMem α) (key : ArbiterKey) : ArbiterMap α × BodyMem α :=
  match s.1.get key with
  | none => s
  | some arb =>
    let r := f arb s.2
    (s.1.put key r.1, r.2)

/-- The `r`-th `range` over the arbiter map, in the order the schedule gives. -/
def forArbiters (sched : Schedule) (r : Nat)
    (f : Arbiter α → BodyMem α → Arbiter α × BodyMem α)
    (arbs : ArbiterMap α) (mem : BodyMem α) : ArbiterMap α × BodyMem α :=
  (sched r (arbs.map Prod.fst)).foldl (visitArbiter f) (arbs, mem)

/-- One visit of a `range` over `w.Joints`: the joint at address `jp` is mutated in place. -/
def visitJoint (f : Joint α → BodyMem α → Option (Joint α × BodyMem α))
    (h : Heap α) (jp : Nat) : Option (Heap α) :=
  (f (h.joint jp) h.body).map fun r =>
    { body := r.2, joint := fun q => if q = jp then r.1 else h.joint q }

/-- Part of `Step`, lines 80-88: integrate forces. -/
def World.Step.integrateForces (w : World α) (dt : α) (mem : BodyMem α) (b : Nat) : BodyMem α :=
  if (mem b).invMass = 0 then mem
  else
    let mem := mem.modify b fun x =>
      { x with Velocity := x.Velocity.Add (MulSV dt (w.Gravity.Add (MulSV x.invMass x.Force))) }
    mem.modify b fun x => { x with AngularVelocity := x.AngularVelocity + dt * x.invI * x.Torque }

/-- Part of `Step`, lines 110-117: integrate velocities. -/
def World.Step.integrateVelocities (dt : α) (mem : BodyMem α) (b : Nat) : BodyMem α :=
  let mem := mem.modify b fun x => { x with Position := x.Position.Add (MulSV dt x.Velocity) }
  let mem := mem.modify b fun x => { x with Rotation := x.Rotation + dt * x.AngularVelocity }
  let mem := mem.modify b fun x => { x with Force := ⟨0, 0⟩ }
  mem.modify b fun x => { x with Torque := 0 }

/-- Part of `Step`, lines 100-108: iteration `i` of the solver loop and those after it (`n` remain). -/
def World.Step.iterate (sched : Schedule) (g : Globals) (joints : List Nat) :
    Nat → Nat → ArbiterMap α × Heap α → ArbiterMap α × Heap α
  | 0, _, s => s
  | n + 1, i, s =>
    let r := forArbiters sched (i + 1) (Arbiter.ApplyImpulse g) s.1 s.2.body
    let h : Heap α := { s.2 with body := r.2 }
    let h := joints.foldl
      (fun (h : Heap α) jp =>
        let x := Joint.ApplyImpulse (h.joint jp) h.body
        { body := x.2, joint := fun q => if q = jp then x.1 else h.joint q }) h
    World.Step.iterate sched g joints n (i + 1) (r.1, h)

/-- The method `World.Step(dt)`; `none` when the step panics. -/
def World.Step (m : MathLib α) (g : Globals) (sched : Schedule) (w : World α) (h : Heap α)
    (dt : α) : Option (World α × Heap α) :=
  let inv_dt : α := if dt > 0 then 1 / dt else 0
  -- Determine overlapping bodies and update contact points.
  (w.BroadPhase m g h.body).bind fun w =>
  -- Integrate forces.
  let mem := w.Bodies.foldl (World.Step.integrateForces w dt) h.body
  -- Perform pre-steps.
  let r := forArbiters sched 0 (fun a mem => a.PreStep g inv_dt mem) w.Arbiters mem
  let h : Heap α := { h with body := r.2 }
  (forM? (visitJoint fun j mem => j.PreStep m g inv_dt mem) w.Joints h).map fun h =>
  -- Perform iterations
  let s := World.Step.iterate sched g w.Joints w.Iterations.toNat 0 (r.1, h)
  -- Integrate Velocities
  let mem := w.Bodies.foldl (World.Step.integrateVelocities dt) s.2.body
  ({ w with Arbiters := s.1 }, { s.2 with body := mem })

/-- A run of `n` consecutive calls of `Step(dt)`; the `k`-th call ranges over the map as `scheds k`
says. -/
def World.Steps (m : MathLib α) (g : Globals) (scheds : Nat → Schedule) (dt : α) :
    Nat → World α × Heap α → Option (World α × Heap α)
  | 0, s => some s
  | n + 1, s =>
    (World.Steps m g scheds dt n s).bind fun s => World.Step m g (scheds n) s.1 s.2 dt

end World

/-! ## Quantities named in the statements -/

section Named

variable {α : Type} [LinearOrderedField α]

/-- The vector `faceA` of `Collide` (lines 129-153) for two bodies. -/
def Collide.faceA (m : MathLib α) (bodyA bodyB : Body α) : Vec2 α :=
  let hA := MulSV (1 / 2) bodyA.Width
  let hB := MulSV (1 / 2) bodyB.Width
  let RotA := Mat22ByAngle m bodyA.Rotation
  let RotB := Mat22ByAngle m bodyB.Rotation
  let dp := bodyB.Position.Sub bodyA.Position
  let dA := RotA.Transpose.MulV dp
  let absC := (RotA.Transpose.MulM RotB).Abs
  (dA.Abs.Sub hA).Sub (absC.MulV hB)

/-- The vector `faceB` of `Collide` (lines 129-162) for two bodies. -/
def Collide.faceB (m : MathLib α) (bodyA bodyB : Body α) : Vec2 α :=
  let hA := MulSV (1 / 2) bodyA.Width
  let hB := MulSV (1 / 2) bodyB.Width
  let RotA := Mat22ByAngle m bodyA.Rotation
  let RotB := Mat22ByAngle m bodyB.Rotation
  let dp := bodyB.Position.Sub bodyA.Position
  let dB := RotB.Transpose.MulV dp
  let absC := (RotA.Transpose.MulM RotB).Abs
  (dB.Abs.Sub (absC.Transpose.MulV hA)).Sub hB

/-- The reference axis, separation and normal `Collide` selects for two bodies
(lines 129-213). -/
def Collide.best (m : MathLib α) (bodyA bodyB : Body α) : BestAxis α :=
  let RotA := Mat22ByAngle m bodyA.Rotation
  let RotB := Mat22ByAngle m bodyB.Rotation
  let dp := bodyB.Position.Sub bodyA.Position
  Collide.bestAxis RotA RotB (MulSV (1 / 2) bodyA.Width) (MulSV (1 / 2) bodyB.Width)
    (RotA.Transpose.MulV dp) (RotB.Transpose.MulV dp)
    (Collide.faceA m bodyA bodyB) (Collide.faceB m bodyA bodyB)

/-- The clipping data `Collide` sets up for two bodies (lines 215-278). -/
def Collide.setup (m : MathLib α) (bodyA bodyB : Body α) : ClipSetup α :=
  let best := Collide.best m bodyA bodyB
  Collide.clipSetup best.axis best.normal (Mat22ByAngle m bodyA.Rotation)
    (Mat22ByAngle m bodyB.Rotation) (MulSV (1 / 2) bodyA.Width) (MulSV (1 / 2) bodyB.Width)
    bodyA.Position bodyB.Position

/-- The contact `o` is the first contact of `old` whose feature value is `v`. -/
def FirstMatch (old : List (Contact α)) (v : Nat) (o : Contact α) : Prop :=
  ∃ pre post, old = pre ++ o :: post ∧ o.Feature.Value = v ∧ ∀ x ∈ pre, x.Feature.Value ≠ v

/-- No contact of `old` has feature value `v`. -/
def NoMatch (old : List (Contact α)) (v : Nat) : Prop := ∀ x ∈ old, x.Feature.Value ≠ v

/-- The state of a static body at rest at pose `(pos, rot)`: zero inverse mass and inertia,
zero velocity and angular velocity. -/
def Body.Still (pos : Vec2 α) (rot : α) (b : Body α) : Prop :=
  b.invMass = 0 ∧ b.invI = 0 ∧ b.Velocity = ⟨0, 0⟩ ∧ b.AngularVelocity = 0 ∧
    b.Position = pos ∧ b.Rotation = rot

/-- What the force integration of `Step` (lines 81-88) does to one listed body. -/
def World.Step.forceStep (w : World α) (dt : α) (x : Body α) : Body α :=
  if x.invMass = 0 then x
  else
    let x := { x with
      Velocity := x.Velocity.Add (MulSV dt (w.Gravity.Add (MulSV x.invMass x.Force))) }
    { x with AngularVelocity := x.AngularVelocity + dt * x.invI * x.Torque }

/-- What the velocity integration of `Step` (lines 111-117) does to one listed body. -/
def World.Step.velocityStep (dt : α) (x : Body α) : Body α :=
  let x := { x with Position := x.Position.Add (MulSV dt x.Velocity) }
  let x := { x with Rotation := x.Rotation + dt * x.AngularVelocity }
  let x := { x with Force := ⟨0, 0⟩ }
  { x with Torque := 0 }

/-- The worlds reached from `NewWorld` by `AddBody`, `AddJoint`, `Clear` and completed `Step`s,
with any bodies and joints in memory, any setting of the package variables and any order of the
ranges over the arbiter map at each step. -/
inductive Reachable (m : MathLib α) : World α → Prop
  | new (g : Vec2 α) (i : Int) : Reachable m (NewWorld g i)
  | addBody (w : World α) (b : Nat) : Reachable m w → Reachable m (w.AddBody b)
  | addJoint (w : World α) (j : Nat) : Reachable m w → Reachable m (w.AddJoint j)
  | clear (w : World α) : Reachable m w → Reachable m w.Clear
  | step (w : World α) (g : Globals) (sched : Schedule) (h : Heap α) (dt : α)
      (r : World α × Heap α) : Reachable m w → w.Step m g sched h dt = some r → Reachable m r.1

/-- The arbiter map agrees with the collider at key `K`. -/
def InStep (m : MathLib α) (mem : BodyMem α) (K : ArbiterKey) (arbs : ArbiterMap α) : Prop :=
  (arbs.get K).isSome ↔ ∃ cs, Collide m (mem K.Body1) (mem K.Body2) = some cs ∧ 0 < cs.length

/-- Every arbiter of the map holds at least one and at most `MAX_POINTS` contacts. -/
def CountOK (arbs : ArbiterMap α) : Prop :=
  ∀ x ∈ arbs, 1 ≤ x.2.Contacts.length ∧ x.2.Contacts.length ≤ MAX_POINTS

/-- Every arbiter of the map names its two bodies in the order of the key it is stored under. -/
def KeyOrder (arbs : ArbiterMap α) : Prop :=
  ∀ x ∈ arbs, x.2.Body1 = x.1.Body1 ∧ x.2.Body2 = x.1.Body2

/-- A body up to its two velocities, the only fields the solver writes. -/
def Body.rest (b : Body α) : Body α := { b with Velocity := ⟨0, 0⟩, AngularVelocity := 0 }

/-- A joint up to the fields `Joint.PreStep` and `Joint.ApplyImpulse` write. -/
def Joint.rest (j : Joint α) : Joint α :=
  { j with M := ⟨⟨0, 0⟩, ⟨0, 0⟩⟩, R1 := ⟨0, 0⟩, R2 := ⟨0, 0⟩, Bias := ⟨0, 0⟩, P := ⟨0, 0⟩ }

/-- The determinant that `Mat22.Invert` tests. -/
def Mat22.det (m : Mat22 α) : α := m.Col1.X * m.Col2.Y - m.Col1.Y * m.Col2.X

/-- The joint after lines 33-37 of `Joint.PreStep`: the anchors rotated into the world frame. -/
def Joint.PreStep.anchored (m : MathLib α) (j : Joint α) (mem : BodyMem α) : Joint α :=
  let rot1 := Mat22ByAngle m (mem j.Body1).Rotation
  let rot2 := Mat22ByAngle m (mem j.Body2).Rotation
  let j := { j with R1 := rot1.MulV j.LocalAnchor1 }
  { j with R2 := rot2.MulV j.LocalAnchor2 }

/-- The matrix `k` that `Joint.PreStep` builds and inverts for a joint and the bodies in
memory. -/
def Joint.K (m : MathLib α) (j : Joint α) (mem : BodyMem α) : Mat22 α :=
  Joint.PreStep.K (Joint.PreStep.anchored m j mem) mem

/-- The memory `mem` differs from `mem0` at most in the velocities of the bodies. -/
def SameRest (mem0 mem : BodyMem α) : Prop := ∀ p, (mem p).rest = (mem0 p).rest

/-- The identity `cos^2 + sin^2 = 1` of the `math` package (in exact arithmetic). -/
def MathLib.Pythagorean (m : MathLib α) : Prop :=
  ∀ x, m.Cos x * m.Cos x + m.Sin x * m.Sin x = 1

/-- The contact the final loop of `Collide` (lines 304-319) builds from a clipped point. -/
def Collide.contactAt (axis : Axis) (normal frontNormal : Vec2 α) (front : α)
    (cv : ClipVertex α) : Contact α :=
  { (Contact.zero : Contact α) with
    Separation := Dot frontNormal cv.v - front
    Normal := normal
    Position := cv.v.Sub (MulSV (Dot frontNormal cv.v - front) frontNormal)
    Feature := if axis = FACE_B_X ∨ axis = FACE_B_Y then cv.fp.Flip else cv.fp }

/-- The value `kNormal` of `Arbiter.PreStep` (lines 148-155) for a contact. -/
def Arbiter.PreStep.kNormal (a : Arbiter α) (mem : BodyMem α) (c : Contact α) : α :=
  let r1 := c.Position.Sub (mem a.Body1).Position
  let r2 := c.Position.Sub (mem a.Body2).Position
  let rn1 := Dot r1 c.Normal
  let rn2 := Dot r2 c.Normal
  let kNormal := (mem a.Body1).invMass + (mem a.Body2).invMass
  kNormal + ((mem a.Body1).invI * (Dot r1 r1 - rn1 * rn1)
    + (mem a.Body2).invI * (Dot r2 r2 - rn2 * rn2))

/-- The value `kTangent` of `Arbiter.PreStep` (lines 148-149, 158-162) for a contact. -/
def Arbiter.PreStep.kTangent (a : Arbiter α) (mem : BodyMem α) (c : Contact α) : α :=
  let r1 := c.Position.Sub (mem a.Body1).Position
  let r2 := c.Position.Sub (mem a.Body2).Position
  let tangent := CrossVS c.Normal 1
  let rt1 := Dot r1 tangent
  let rt2 := Dot r2 tangent
  let kTangent := (mem a.Body1).invMass + (mem a.Body2).invMass
  kTangent + ((mem a.Body1).invI * (Dot r1 r1 - rt1 * rt1)
    + (mem a.Body2).invI * (Dot r2 r2 - rt2 * rt2))

/-- The tangent effective mass as the specification words it: with the normal-squared terms
`(r_i . n)^2` of `kNormal`. -/
def Arbiter.PreStep.kTangentAsSpecified (a : Arbiter α) (mem : BodyMem α) (c : Contact α) : α :=
  let r1 := c.Position.Sub (mem a.Body1).Position
  let r2 := c.Position.Sub (mem a.Body2).Position
  (mem a.Body1).invMass + (mem a.Body2).invMass
    + (mem a.Body1).invI * (Dot r1 r1 - (Dot r1 c.Normal) ^ 2)
    + (mem a.Body2).invI * (Dot r2 r2 - (Dot r2 c.Normal) ^ 2)

/-- The four edge identifiers of a feature pair are values of the Go type `uint8`. -/
def FeaturePair.InRange (fp : FeaturePair) : Prop :=
  fp.InEdge1 < 256 ∧ fp.OutEdge1 < 256 ∧ fp.InEdge2 < 256 ∧ fp.OutEdge2 < 256

/-- The variable `cMatch` of `Arbiter.Update` after the inner loop for `cNew` (lines 111-118):
the first old contact with the feature value of `cNew`, `none` for `nil`. -/
def Arbiter.Update.cMatch (old : List (Contact α)) (cNew : Contact α) : Option (Contact α) :=
  old.find? (fun cOld => decide (cOld.Feature.Value = cNew.Feature.Value))

/-- The total linear momentum `Mass1*Velocity1 + Mass2*Velocity2` of the bodies at `b1` and
`b2`. -/
def momentum (mem : BodyMem α) (b1 b2 : Nat) : Vec2 α :=
  (MulSV (mem b1).Mass (mem b1).Velocity).Add (MulSV (mem b2).Mass (mem b2).Velocity)

end Named

/-! ## Concrete data over the rationals -/

namespace Sample

/-- A `math` package over `ℚ`: the rational parametrisation of the unit circle
(`Cos x ^ 2 + Sin x ^ 2 = 1` for every `x`, `Cos 0 = 1`, `Sin 0 = 0`); `Sqrt` is exact at `0`
and `1`. -/
def math : MathLib ℚ :=
  { Cos := fun x => (1 - x ^ 2) / (1 + x ^ 2)
    Sin := fun x => 2 * x / (1 + x ^ 2)
    Sqrt := fun x => if x = 0 then 0 else 1
    MaxFloat64 := 2 ^ 1024 - 2 ^ 971 }

/-- A box at `(px, py)`, unrotated and at rest, of the given width and inverse mass and
inertia. -/
def box (px py wx wy invMass invI : ℚ) : Body ℚ :=
  { Position := ⟨px, py⟩, Rotation := 0, Velocity := ⟨0, 0⟩, AngularVelocity := 0,
    Force := ⟨0, 0⟩, Torque := 0, Width := ⟨wx, wy⟩, Friction := 1 / 5,
    Mass := 1, invMass := invMass, I := 1, invI := invI }

/-- Two unrotated boxes of width `(2, 2)`, the second one unit to the right of the first. -/
def boxA : Body ℚ := box 0 0 2 2 1 1

def boxB : Body ℚ := box 1 0 2 2 1 1

/-- A box of width `(2, 2)` three units to the right of `boxA`. -/
def boxFar : Body ℚ := box 3 0 2 2 1 1

/-- The two contacts of `boxA` and `boxB`. -/
def contact1 : Contact ℚ :=
  { Contact.zero with
    Position := ⟨1, 1⟩, Normal := ⟨1, 0⟩, Separation := -1, Feature := ⟨0, 0, 1, 2⟩ }

def contact2 : Contact ℚ :=
  { Contact.zero with
    Position := ⟨1, -1⟩, Normal := ⟨1, 0⟩, Separation := -1, Feature := ⟨0, 0, 2, 3⟩ }

/-- An old contact with accumulated impulses, with the feature of `contact1`. -/
def oldContact : Contact ℚ := { contact1 with Pn := 5, Pt := 1, Pnb := 2 }

/-- A contact with a non-zero normal impulse. -/
def loaded : Contact ℚ := { contact2 with Pn := 1 }

/-- A memory holding `boxA` at address `0` and `boxB` at every other address. -/
def mem : BodyMem ℚ := fun p => if p = 0 then boxA else boxB

/-- An arbiter for the bodies at addresses `0` and `1` with the two sample contacts. -/
def arbiter : Arbiter ℚ := ⟨[contact1, contact2], 0, 1, 1 / 5⟩

/-- A static ground box of width `(100, 20)` at `(0, -10)`. -/
def groundBox : Body ℚ := box 0 (-10) 100 20 0 0

/-- A heap with the static ground at address `0`, `boxB` at every other address, and a joint
between the two. -/
def ground : Heap ℚ :=
  { body := fun p => if p = 0 then groundBox else boxB
    joint := fun _ => ⟨⟨⟨0, 0⟩, ⟨0, 0⟩⟩, ⟨0, 0⟩, ⟨0, 0⟩, ⟨0, 0⟩, ⟨0, 0⟩, ⟨0, 0⟩, ⟨0, 0⟩, 0, 1,
      1 / 5, 0⟩ }

/-- The world of the first demo: gravity `(0, -10)`, ten iterations, the bodies at addresses
`0` and `1` added in this order. -/
def world : World ℚ := ((NewWorld ⟨0, -10⟩ 10).AddBody 0).AddBody 1

/-- The body `Body.Set` yields for the (negative) width `(-1, -1)` and mass `1`: dynamic, at
rest at the origin. -/
def inverted : Body ℚ := Body.Set math boxA ⟨-1, -1⟩ 1

/-- A heap holding `inverted` at every address. -/
def invertedHeap : Heap ℚ := { ground with body := fun _ => inverted }

/-- A world in which the body at address `1` was added twice. -/
def twice : World ℚ := ((NewWorld ⟨0, -10⟩ 10).AddBody 1).AddBody 1

/-- A heap with `boxA` at address `0` and `boxFar`, which does not touch it, elsewhere. -/
def apart : Heap ℚ := { ground with body := fun p => if p = 0 then boxA else boxFar }

/-- A memory in which every body is the static ground box. -/
def statics : BodyMem ℚ := fun _ => groundBox

/-- An arbiter with combined friction `0` and the two sample contacts, whose `Pt` is zero. -/
def slippery : Arbiter ℚ := ⟨[contact1, contact2], 0, 1, 0⟩

/-- A segment from `(1, 0)` to `(-1, 0)` with the edge tags `ComputeIncidentEdge` gives the left
face of a box; it crosses the line `x = 0`, the first end in front of it. -/
def segment : ClipPair ℚ :=
  (⟨⟨1, 0⟩, ⟨NO_EDGE, NO_EDGE, EDGE1, EDGE2⟩⟩, ⟨⟨-1, 0⟩, ⟨NO_EDGE, NO_EDGE, EDGE2, EDGE3⟩⟩)

/-- The static ground box given a velocity `(1, 0)` and an angular velocity `1` by its owner. -/
def drifting : Body ℚ := { groundBox with Velocity := ⟨1, 0⟩, AngularVelocity := 1 }

/-- A heap with the drifting static box at address `0` and `boxB` at every other address. -/
def driftingHeap : Heap ℚ := { ground with body := fun p => if p = 0 then drifting else boxB }

/-- A joint from the body at address `1` to itself (`Body1 = Body2`), with local anchors
`(0, 0)` and `(1, 0)`, bias factor `0.2` and no softness. -/
def selfJoint : Joint ℚ :=
  ⟨⟨⟨0, 0⟩, ⟨0, 0⟩⟩, ⟨0, 0⟩, ⟨1, 0⟩, ⟨0, 0⟩, ⟨0, 0⟩, ⟨0, 0⟩, ⟨0, 0⟩, 1, 1, 1 / 5, 0⟩

/-- A frictionless arbiter for the bodies at addresses `0` and `1` with the single contact
`contact1`. -/
def single : Arbiter ℚ := ⟨[contact1], 0, 1, 0⟩

/-- A frictionless arbiter of the body at address `0` with itself (`Body1 = Body2`), with the
single contact `contact1`. -/
def selfArbiter : Arbiter ℚ := ⟨[contact1], 0, 0, 0⟩

/-- A unit box resting on the ground box with penetration `1/4`, half a unit left of the
centre. -/
def resting : Body ℚ := box (-1 / 2) (1 / 4) 1 1 (1 / 200) (3 / 100)

end Sample

/-! # Theorems -/

section CollideTheorems

variable {α : Type} [LinearOrderedField α]

theorem ClipSegmentToLine_some (vOut vIn : ClipPair α) (normal : Vec2 α) (offset : α)
    (clipEdge : EdgeNumbers) :
    ∃ r, ClipSegmentToLine vOut vIn normal offset clipEdge = some r ∧ r.2 ≤ 2 := by
  unfold ClipSegmentToLine
  simp only []
  by_cases h0 : Dot normal vIn.1.v - offset ≤ 0 <;>
  by_cases h1 : Dot normal vIn.2.v - offset ≤ 0
  · have hp : ¬ ((Dot normal vIn.1.v - offset) * (Dot normal vIn.2.v - offset) < 0) :=
      not_lt.mpr (mul_nonneg_of_nonpos_of_nonpos h0 h1)
    simp [h0, h1, hp, ClipPair.set]
  · by_cases hp : (Dot normal vIn.1.v - offset) * (Dot normal vIn.2.v - offset) < 0 <;>
      simp [h0, h1, hp, ClipPair.set]
  · by_cases hp : (Dot normal vIn.1.v - offset) * (Dot normal vIn.2.v - offset) < 0 <;>
      simp [h0, h1, hp, ClipPair.set]
  · by_cases hp : (Dot normal vIn.1.v - offset) * (Dot normal vIn.2.v - offset) < 0 <;>
      simp [h0, h1, hp, ClipPair.set]

theorem ClipSegmentToLine_bind {β : Type} (P : Option β → Prop) (vOut vIn : ClipPair α)
    (normal : Vec2 α) (offset : α) (clipEdge : EdgeNumbers) (f : ClipPair α × Nat → Option β)
    (h : ∀ r, P (f r)) :
    P ((ClipSegmentToLine vOut vIn normal offset clipEdge).bind f) := by
  obtain ⟨r, hr, -⟩ := ClipSegmentToLine_some vOut vIn normal offset clipEdge
  rw [hr]
  exact h r

/-- Case principle for `Collide`: it never panics, and its result is either empty or what the
final loop emits from two clipped points, with the axis, normal and front plane selected for the
two bodies. -/
theorem Collide_cases (m : MathLib α) (A B : Body α) (P : Option (List (Contact α)) → Prop)
    (h0 : P (some []))
    (h2 : ∀ p q : ClipVertex α, P (some ([p, q].foldl
      (Collide.emit (Collide.best m A B).axis (Collide.best m A B).normal
        (Collide.setup m A B).frontNormal (Collide.setup m A B).front) []))) :
    P (Collide m A B) := by
  unfold Collide.setup Collide.best Collide.faceA Collide.faceB at h2
  unfold Collide
  simp only [] at h2 ⊢
  split_ifs with hA hB
  · exact h0
  · exact h0
  · apply ClipSegmentToLine_bind
    intro r1
    split_ifs with h1
    · exact h0
    · apply ClipSegmentToLine_bind
      intro r2
      split_ifs with h3
      · exact h0
      · exact h2 _ _

theorem emit_length (axis : Axis) (normal frontNormal : Vec2 α) (front : α)
    (cs : List (Contact α)) (cv : ClipVertex α) :
    (Collide.emit axis normal frontNormal front cs cv).length ≤ cs.length + 1 := by
  unfold Collide.emit
  simp only []
  split_ifs <;> simp

/-- Every contact the loop body appends satisfies `Q` when `Q` holds of every contact with
non-positive separation, the given normal and zero accumulated impulses. -/
theorem emit_forall (axis : Axis) (normal frontNormal : Vec2 α) (front : α)
    (Q : Contact α → Prop) (cs : List (Contact α)) (cv : ClipVertex α)
    (hQ : ∀ c : Contact α, c.Separation ≤ 0 → c.Normal = normal →
      (c.Pn = 0 ∧ c.Pt = 0 ∧ c.Pnb = 0) → Q c)
    (h : ∀ c ∈ cs, Q c) :
    ∀ c ∈ Collide.emit axis normal frontNormal front cs cv, Q c := by
  unfold Collide.emit
  simp only []
  split_ifs with h1 h2
  · intro c hc
    rcases List.mem_append.mp hc with hc | hc
    · exact h c hc
    · rw [List.mem_singleton] at hc; subst hc; exact hQ _ h1 rfl ⟨rfl, rfl, rfl⟩
  · intro c hc
    rcases List.mem_append.mp hc with hc | hc
    · exact h c hc
    · rw [List.mem_singleton] at hc; subst hc; exact hQ _ h1 rfl ⟨rfl, rfl, rfl⟩
  · exact h

/-- Every contact `Collide` returns satisfies `Q` when `Q` holds of every contact with
non-positive separation, the selected normal and zero accumulated impulses; and there are at
most two. -/
theorem Collide_forall (m : MathLib α) (A B : Body α) (Q : Contact α → Prop)
    (hQ : ∀ c : Contact α, c.Separation ≤ 0 → c.Normal = (Collide.best m A B).normal →
      (c.Pn = 0 ∧ c.Pt = 0 ∧ c.Pnb = 0) → Q c) :
    ∃ cs, Collide m A B = some cs ∧ cs.length ≤ 2 ∧ ∀ c ∈ cs, Q c := by
  apply Collide_cases m A B (fun o => ∃ cs, o = some cs ∧ cs.length ≤ 2 ∧ ∀ c ∈ cs, Q c)
  · exact ⟨[], rfl, by simp, by simp⟩
  · intro p q
    refine ⟨_, rfl, ?_, ?_⟩
    · simp only [List.foldl]
      have h1 := emit_length (Collide.best m A B).axis (Collide.best m A B).normal
        (Collide.setup m A B).frontNormal (Collide.setup m A B).front [] p
      have h2 := emit_length (Collide.best m A B).axis (Collide.best m A B).normal
        (Collide.setup m A B).frontNormal (Collide.setup m A B).front
        (Collide.emit (Collide.best m A B).axis (Collide.best m A B).normal
          (Collide.setup m A B).frontNormal (Collide.setup m A B).front [] p) q
      simp only [List.length_nil] at h1
      omega
    · simp only [List.foldl]
      apply emit_forall _ _ _ _ Q _ _ hQ
      apply emit_forall _ _ _ _ Q _ _ hQ
      simp

theorem bestAxis_normal_dot (RotA RotB : Mat22 α) (hA hB dA dB faceA faceB dp : Vec2 α)
    (h1 : dA.X = Dot RotA.Col1 dp) (h2 : dA.Y = Dot RotA.Col2 dp)
    (h3 : dB.X = Dot RotB.Col1 dp) (h4 : dB.Y = Dot RotB.Col2 dp) :
    0 ≤ Dot (Collide.bestAxis RotA RotB hA hB dA dB faceA faceB).normal dp := by
  have neg : ∀ v : Vec2 α, Dot v.Negative dp = -Dot v dp := by
    intro v; simp only [Dot, Vec2.Negative]; ring
  have key : ∀ (d : α) (v : Vec2 α), d = Dot v dp →
      0 ≤ Dot (if d > 0 then v else v.Negative) dp := by
    intro d v hd
    split_ifs with h
    · linarith
    · rw [neg]; linarith
  have step : ∀ (c : Prop) [Decidable c] (a : Axis) (sep : α) (n : Vec2 α) (s : BestAxis α),
      0 ≤ Dot n dp → 0 ≤ Dot s.normal dp →
      0 ≤ Dot (if c then (⟨a, sep, n⟩ : BestAxis α) else s).normal dp := by
    intro c _ a sep n s hn hs
    split_ifs
    · exact hn
    · exact hs
  unfold Collide.bestAxis
  simp only []
  apply step _ _ _ _ _ (key _ _ h4)
  apply step _ _ _ _ _ (key _ _ h3)
  apply step _ _ _ _ _ (key _ _ h2)
  exact key _ _ h1

/-- The selected normal has a non-negative component along `posB - posA`. -/
theorem best_normal_dot (m : MathLib α) (A B : Body α) :
    0 ≤ Dot (Collide.best m A B).normal (B.Position.Sub A.Position) := by
  unfold Collide.best
  apply bestAxis_normal_dot <;> simp only [Mat22.Transpose, Mat22.MulV, Dot]
theorem Sample.collide_boxA_boxB :
    Collide Sample.math Sample.boxA Sample.boxB = some [Sample.contact1, Sample.contact2] := by
  simp [Collide, Sample.math, Sample.boxA, Sample.boxB, Sample.box, Sample.contact1,
    Sample.contact2, Mat22ByAngle, MulSV, Mat22.Transpose, Mat22.MulV,
    Mat22.MulM, Mat22.Abs, Vec2.Abs, Vec2.Sub, Vec2.Add, Vec2.Negative, Dot,
    Collide.bestAxis, Collide.clipSetup, ComputeIncidentEdge, ClipSegmentToLine, ClipPair.set,
    Collide.emit, ClipVertex.incident, ClipVertex.zero, FeaturePair.zero, Contact.zero,
    FACE_A_X, FACE_A_Y, FACE_B_X, FACE_B_Y, EDGE1, EDGE2, EDGE3, EDGE4, NO_EDGE,
    FeaturePair.Flip]
  norm_num

/-- C1: for every pair of bodies `Collide` returns (it does not panic) at most two contacts,
and every returned contact has `Separation ≤ 0`. -/
theorem Collide_at_most_two_nonpositive (m : MathLib α) (A B : Body α) :
    ∃ cs, Collide m A B = some cs ∧ cs.length ≤ 2 ∧ ∀ c ∈ cs, c.Separation ≤ 0 :=
  Collide_forall m A B (fun c => c.Separation ≤ 0) (fun _ h _ _ => h)

/-- C2: the normal of every contact returned by `Collide(A, B)` points from A toward B,
`Dot(c.Normal, B.Position - A.Position) ≥ 0`, whichever reference axis was selected. -/
theorem Collide_normal_points_A_to_B (m : MathLib α) (A B : Body α) (cs : List (Contact α))
    (h : Collide m A B = some cs) (c : Contact α) (hc : c ∈ cs) :
    0 ≤ Dot c.Normal (B.Position.Sub A.Position) := by
  obtain ⟨cs1, h1, -, hall⟩ := Collide_forall m A B
    (fun c => 0 ≤ Dot c.Normal (B.Position.Sub A.Position))
    (fun c _ hn _ => by show 0 ≤ Dot c.Normal _; rw [hn]; exact best_normal_dot m A B)
  rw [h] at h1
  cases h1
  exact hall c hc

theorem Collide_normal_points_A_to_B_witness :
    Collide Sample.math Sample.boxA Sample.boxB = some [Sample.contact1, Sample.contact2] ∧
    Sample.contact1 ∈ [Sample.contact1, Sample.contact2] ∧
    0 ≤ Dot Sample.contact1.Normal (Sample.boxB.Position.Sub Sample.boxA.Position) :=
  ⟨Sample.collide_boxA_boxB, List.mem_cons_self _ _,
    Collide_normal_points_A_to_B Sample.math Sample.boxA Sample.boxB _
      Sample.collide_boxA_boxB Sample.contact1 (List.mem_cons_self _ _)⟩

/-- C3: separating-axis rejection.  `Collide` returns no contact whenever a component of
`faceA = |dA| - hA - |C| hB` or of `faceB = |dB| - |C|ᵀ hA - hB` is strictly positive; in
particular, for two unrotated boxes, when `|dx| > hA.x + hB.x` or `|dy| > hA.y + hB.y`. -/
theorem Collide_separating_axis (m : MathLib α) (A B : Body α) :
    ((0 < (Collide.faceA m A B).X ∨ 0 < (Collide.faceA m A B).Y ∨
        0 < (Collide.faceB m A B).X ∨ 0 < (Collide.faceB m A B).Y) →
      Collide m A B = some []) ∧
    (m.Cos 0 = 1 → m.Sin 0 = 0 → A.Rotation = 0 → B.Rotation = 0 →
      ((MulSV (1 / 2) A.Width).X + (MulSV (1 / 2) B.Width).X < |B.Position.X - A.Position.X| ∨
        (MulSV (1 / 2) A.Width).Y + (MulSV (1 / 2) B.Width).Y < |B.Position.Y - A.Position.Y|) →
      Collide m A B = some []) := by
  have gen : (0 < (Collide.faceA m A B).X ∨ 0 < (Collide.faceA m A B).Y ∨
        0 < (Collide.faceB m A B).X ∨ 0 < (Collide.faceB m A B).Y) →
      Collide m A B = some [] := by
    unfold Collide.faceA Collide.faceB Collide
    simp only [gt_iff_lt]
    intro h
    split_ifs with hA hB
    · rfl
    · rfl
    · exfalso
      rcases h with h | h | h | h
      · exact hA (Or.inl h)
      · exact hA (Or.inr h)
      · exact hB (Or.inl h)
      · exact hB (Or.inr h)
  refine ⟨gen, ?_⟩
  intro hc hs hrA hrB h
  apply gen
  have fx : (Collide.faceA m A B).X
      = |B.Position.X - A.Position.X| - (MulSV (1 / 2) A.Width).X - (MulSV (1 / 2) B.Width).X := by
    simp [Collide.faceA, hrA, hrB, hc, hs, Mat22ByAngle, Mat22.Transpose, Mat22.MulV,
      Mat22.MulM, Mat22.Abs, Vec2.Abs, Vec2.Sub]
  have fy : (Collide.faceA m A B).Y
      = |B.Position.Y - A.Position.Y| - (MulSV (1 / 2) A.Width).Y - (MulSV (1 / 2) B.Width).Y := by
    simp [Collide.faceA, hrA, hrB, hc, hs, Mat22ByAngle, Mat22.Transpose, Mat22.MulV,
      Mat22.MulM, Mat22.Abs, Vec2.Abs, Vec2.Sub]
  rcases h with h | h
  · left; rw [fx]; linarith
  · right; left; rw [fy]; linarith

theorem Collide_separating_axis_witness :
    (0 < (Collide.faceA Sample.math Sample.boxA Sample.boxFar).X ∧
      Collide Sample.math Sample.boxA Sample.boxFar = some []) ∧
    (Sample.math.Cos 0 = 1 ∧ Sample.math.Sin 0 = 0 ∧
      (MulSV (1 / 2) Sample.boxA.Width).X + (MulSV (1 / 2) Sample.boxFar.Width).X
        < |Sample.boxFar.Position.X - Sample.boxA.Position.X| ∧
      Collide Sample.math Sample.boxA Sample.boxFar = some []) := by
  have hface : 0 < (Collide.faceA Sample.math Sample.boxA Sample.boxFar).X := by
    norm_num [Collide.faceA, Sample.math, Sample.boxA, Sample.boxFar, Sample.box, Mat22ByAngle,
      Mat22.Transpose, Mat22.MulV, Mat22.MulM, Mat22.Abs, Vec2.Abs, Vec2.Sub, MulSV]
  have hc : Sample.math.Cos 0 = 1 := by norm_num [Sample.math]
  have hs : Sample.math.Sin 0 = 0 := by norm_num [Sample.math]
  have hd : (MulSV (1 / 2) Sample.boxA.Width).X + (MulSV (1 / 2) Sample.boxFar.Width).X
        < |Sample.boxFar.Position.X - Sample.boxA.Position.X| := by
    norm_num [Sample.boxA, Sample.boxFar, Sample.box, MulSV]
  exact ⟨⟨hface, (Collide_separating_axis Sample.math Sample.boxA Sample.boxFar).1
      (Or.inl hface)⟩,
    hc, hs, hd, (Collide_separating_axis Sample.math Sample.boxA Sample.boxFar).2 hc hs rfl rfl
      (Or.inl hd)⟩

end CollideTheorems

section ArbiterTheorems
variable {α : Type} [LinearOrderedField α]

theorem Update_foldl (g : Globals) (old news acc : List (Contact α)) :
    news.foldl (Arbiter.Update.merge g old) acc = acc ++ news.map (Arbiter.Update.carry g old) := by
  induction news generalizing acc with
  | nil => simp
  | cons c cs ih => rw [List.foldl_cons, ih]; simp [Arbiter.Update.merge]

theorem Update_contacts (g : Globals) (a : Arbiter α) (news : List (Contact α)) :
    (a.Update g news).Contacts = news.map (Arbiter.Update.carry g a.Contacts) := by
  simp [Arbiter.Update, Update_foldl]

omit [LinearOrderedField α] in
theorem find_of_FirstMatch (old : List (Contact α)) (v : Nat) (o : Contact α)
    (h : FirstMatch old v o) :
    old.find? (fun cOld => decide (cOld.Feature.Value = v)) = some o := by
  obtain ⟨pre, post, rfl, hv, hpre⟩ := h
  induction pre with
  | nil => simp [List.find?, hv]
  | cons x xs ih =>
    have hx : x.Feature.Value ≠ v := hpre x (List.mem_cons_self _ _)
    simp only [List.cons_append, List.find?, hx, decide_False]
    exact ih (fun y hy => hpre y (List.mem_cons_of_mem _ hy))

omit [LinearOrderedField α] in
theorem find_of_NoMatch (old : List (Contact α)) (v : Nat) (h : NoMatch old v) :
    old.find? (fun cOld => decide (cOld.Feature.Value = v)) = none := by
  induction old with
  | nil => rfl
  | cons x xs ih =>
    have hx : x.Feature.Value ≠ v := h x (List.mem_cons_self _ _)
    simp only [List.find?, hx, decide_False]
    exact ih (fun y hy => h y (List.mem_cons_of_mem _ hy))

/-- C4 (as amended): each contact of the merged list corresponds to the new contact at the same
place; with a first matching old contact it has that contact's `Pn`, `Pt`, `Pnb` when
`warmStarting` is on and zeros when it is off; with no matching old contact it keeps the `Pn`,
`Pt`, `Pnb` of the new contact, which are zero for every contact `Collide` returns. -/
theorem Arbiter_Update_impulses (g : Globals) (a : Arbiter α) (news : List (Contact α)) :
    List.Forall₂
      (fun cNew c =>
        (∀ o, FirstMatch a.Contacts cNew.Feature.Value o →
          (g.warmStarting = true → c.Pn = o.Pn ∧ c.Pt = o.Pt ∧ c.Pnb = o.Pnb) ∧
          (g.warmStarting = false → c.Pn = 0 ∧ c.Pt = 0 ∧ c.Pnb = 0)) ∧
        (NoMatch a.Contacts cNew.Feature.Value →
          c.Pn = cNew.Pn ∧ c.Pt = cNew.Pt ∧ c.Pnb = cNew.Pnb))
      news (a.Update g news).Contacts ∧
    ∀ (m : MathLib α) (A B : Body α), ∃ cs, Collide m A B = some cs ∧
      ∀ c ∈ cs, c.Pn = 0 ∧ c.Pt = 0 ∧ c.Pnb = 0 := by
  constructor
  · rw [Update_contacts, List.forall₂_map_right_iff, List.forall₂_same]
    intro cNew _
    constructor
    · intro o ho
      have hf := find_of_FirstMatch _ _ _ ho
      constructor
      · intro hw
        simp [Arbiter.Update.carry, hf, hw]
      · intro hw
        simp [Arbiter.Update.carry, hf, hw]
    · intro hn
      have hf := find_of_NoMatch _ _ hn
      simp [Arbiter.Update.carry, hf]
  · intro m A B
    obtain ⟨cs, h, -, hall⟩ := Collide_forall m A B (fun c => c.Pn = 0 ∧ c.Pt = 0 ∧ c.Pnb = 0)
      (fun _ _ _ h => h)
    exact ⟨cs, h, hall⟩

theorem Arbiter_Update_impulses_witness :
    FirstMatch [Sample.oldContact] Sample.contact1.Feature.Value Sample.oldContact ∧
    Globals.default.warmStarting = true ∧
    ∃ c, (Arbiter.Update Globals.default ⟨[Sample.oldContact], 0, 1, 0⟩
        [Sample.contact1]).Contacts = [c] ∧
      c.Pn = Sample.oldContact.Pn ∧ c.Pt = Sample.oldContact.Pt ∧
      c.Pnb = Sample.oldContact.Pnb := by
  have fm : FirstMatch [Sample.oldContact] Sample.contact1.Feature.Value Sample.oldContact :=
    ⟨[], [], rfl, rfl, by simp⟩
  have h := (Arbiter_Update_impulses Globals.default
    (⟨[Sample.oldContact], 0, 1, 0⟩ : Arbiter ℚ) [Sample.contact1]).1
  rw [Update_contacts] at h
  simp only [List.map] at h
  cases h with
  | cons h1 _ => exact ⟨fm, rfl, _, by rw [Update_contacts]; rfl, (h1.1 _ fm).1 rfl⟩

/-- C4, counterexample: with no old contact at all, the merged contact keeps the non-zero `Pn`
of the new contact instead of zero. -/
theorem Arbiter_Update_unmatched_not_zeroed :
    NoMatch ([] : List (Contact ℚ)) Sample.loaded.Feature.Value ∧
    ∃ c ∈ (Arbiter.Update Globals.default ⟨[], 0, 1, 0⟩ [Sample.loaded]).Contacts,
      ¬ (c.Pn = 0 ∧ c.Pt = 0 ∧ c.Pnb = 0) := by
  refine ⟨by simp [NoMatch], Sample.loaded, ?_, ?_⟩
  · simp [Update_contacts, Arbiter.Update.carry]
  · simp [Sample.loaded]

/-- C5: `Arbiter.Update` replaces the contact list by the new one: same length, same order, the
i-th contact carrying the `Position`, `Normal`, `Separation` and `Feature` of the i-th new
contact; `Body1`, `Body2` and `Friction` are unchanged. -/
theorem Arbiter_Update_replaces (g : Globals) (a : Arbiter α) (news : List (Contact α)) :
    (a.Update g news).Contacts.length = news.length ∧
    List.Forall₂
      (fun cNew c => c.Position = cNew.Position ∧ c.Normal = cNew.Normal ∧
        c.Separation = cNew.Separation ∧ c.Feature = cNew.Feature)
      news (a.Update g news).Contacts ∧
    (a.Update g news).Body1 = a.Body1 ∧ (a.Update g news).Body2 = a.Body2 ∧
    (a.Update g news).Friction = a.Friction := by
  refine ⟨by simp [Update_contacts], ?_, rfl, rfl, rfl⟩
  rw [Update_contacts, List.forall₂_map_right_iff, List.forall₂_same]
  intro cNew _
  unfold Arbiter.Update.carry
  simp only []
  split
  · split_ifs <;> exact ⟨rfl, rfl, rfl, rfl⟩
  · exact ⟨rfl, rfl, rfl, rfl⟩

omit [LinearOrderedField α] in
theorem forContacts_forall (f : BodyMem α → Contact α → Contact α × BodyMem α)
    (Q : Contact α → Prop) (hf : ∀ mem c, Q (f mem c).1) (cs : List (Contact α))
    (mem : BodyMem α) : ∀ c ∈ (forContacts f cs mem).1, Q c := by
  induction cs generalizing mem with
  | nil => intro c hc; simp [forContacts] at hc
  | cons x xs ih =>
    intro c hc
    simp only [forContacts, List.mem_cons] at hc
    rcases hc with hc | hc
    · rw [hc]; exact hf mem x
    · exact ih _ c hc

omit [LinearOrderedField α] in
theorem forContacts_length (f : BodyMem α → Contact α → Contact α × BodyMem α)
    (cs : List (Contact α)) (mem : BodyMem α) : (forContacts f cs mem).1.length = cs.length := by
  induction cs generalizing mem with
  | nil => rfl
  | cons x xs ih => simp [forContacts, ih]

/-- C6: with `accumulateImpulses` on and `Friction ≥ 0`, after `Arbiter.ApplyImpulse` every
contact of the arbiter has `Pn ≥ 0` and `|Pt| ≤ Friction * Pn`, whatever the prior accumulated
impulses, the bodies and the bias. -/
theorem ApplyImpulse_impulse_bounds (g : Globals) (a : Arbiter α) (mem : BodyMem α)
    (hacc : g.accumulateImpulses = true) (hfr : 0 ≤ a.Friction) :
    ∀ c ∈ (a.ApplyImpulse g mem).1.Contacts, 0 ≤ c.Pn ∧ |c.Pt| ≤ a.Friction * c.Pn := by
  unfold Arbiter.ApplyImpulse
  simp only []
  apply forContacts_forall
  intro mem c
  unfold Arbiter.ApplyImpulse.contact
  simp only [hacc, if_true, Clamp]
  have hPn : ∀ x : α, 0 ≤ max x 0 := fun x => le_max_right _ _
  refine ⟨hPn _, ?_⟩
  have hm := mul_nonneg hfr (hPn (c.Pn + c.MassNormal * (-Dot (relVelocity mem a.Body1 a.Body2
    (c.Position.Sub (mem a.Body1).Position) (c.Position.Sub (mem a.Body2).Position)) c.Normal
    + c.Bias)))
  rw [abs_le]
  exact ⟨le_max_left _ _, max_le (by linarith) (min_le_right _ _)⟩

theorem ApplyImpulse_impulse_bounds_witness :
    Globals.default.accumulateImpulses = true ∧ 0 ≤ Sample.arbiter.Friction ∧
    ∀ c ∈ (Sample.arbiter.ApplyImpulse Globals.default Sample.mem).1.Contacts,
      0 ≤ c.Pn ∧ |c.Pt| ≤ Sample.arbiter.Friction * c.Pn :=
  ⟨rfl, by norm_num [Sample.arbiter],
    ApplyImpulse_impulse_bounds Globals.default Sample.arbiter Sample.mem rfl
      (by norm_num [Sample.arbiter])⟩

end ArbiterTheorems

section WorldTheorems
variable {α : Type} [LinearOrderedField α]

omit [LinearOrderedField α] in
theorem forM?_inv {σ β : Type} (f : σ → β → Option σ) (I : σ → Prop)
    (hf : ∀ s x s1, f s x = some s1 → I s → I s1) (xs : List β) (s s1 : σ)
    (h : forM? f xs s = some s1) (hs : I s) : I s1 := by
  induction xs generalizing s with
  | nil => simp only [forM?, Option.some.injEq] at h; rw [← h]; exact hs
  | cons x xs ih =>
    simp only [forM?, Option.bind_eq_some] at h
    obtain ⟨s2, h2, h3⟩ := h
    exact ih s2 h3 (hf s x s2 h2 hs)

omit [LinearOrderedField α] in
theorem foldl_inv {σ β : Type} (f : σ → β → σ) (I : σ → Prop)
    (hf : ∀ s x, I s → I (f s x)) (xs : List β) (s : σ) (hs : I s) : I (xs.foldl f s) := by
  induction xs generalizing s with
  | nil => exact hs
  | cons x xs ih => exact ih _ (hf s x hs)

omit [LinearOrderedField α] in
theorem forContacts_inv (f : BodyMem α → Contact α → Contact α × BodyMem α)
    (I : BodyMem α → Prop) (hf : ∀ mem c, I mem → I (f mem c).2) (cs : List (Contact α))
    (mem : BodyMem α) (h : I mem) : I (forContacts f cs mem).2 := by
  induction cs generalizing mem with
  | nil => exact h
  | cons x xs ih => exact ih _ (hf mem x h)

omit [LinearOrderedField α] in
/-- A write through a pointer keeps a property of the body at `p` when the written function
keeps it. -/
theorem modify_keep (P : Body α → Prop) (mem : BodyMem α) (p q : Nat) (f : Body α → Body α)
    (hf : ∀ b, P b → P (f b)) (h : P (mem p)) : P ((mem.modify q f) p) := by
  unfold BodyMem.modify
  by_cases hpq : p = q
  · subst hpq; simp only [if_true]; exact hf _ h
  · simp only [hpq, if_false]; exact h

theorem applyToBodies_still (pos : Vec2 α) (rot : α) (mem : BodyMem α) (p b1 b2 : Nat)
    (r1 r2 P : Vec2 α) (h : Body.Still pos rot (mem p)) :
    Body.Still pos rot ((applyToBodies mem b1 b2 r1 r2 P) p) := by
  unfold applyToBodies
  apply modify_keep
  · rintro b ⟨h1, h2, h3, h4, h5, h6⟩
    exact ⟨h1, h2, h3, by simp [h2, h4], h5, h6⟩
  apply modify_keep
  · rintro b ⟨h1, h2, h3, h4, h5, h6⟩
    exact ⟨h1, h2, by simp [h1, h3, Vec2.Add, MulSV], h4, h5, h6⟩
  apply modify_keep
  · rintro b ⟨h1, h2, h3, h4, h5, h6⟩
    exact ⟨h1, h2, h3, by simp [h2, h4], h5, h6⟩
  apply modify_keep
  · rintro b ⟨h1, h2, h3, h4, h5, h6⟩
    exact ⟨h1, h2, by simp [h1, h3, Vec2.Sub, MulSV], h4, h5, h6⟩
  exact h

theorem Arbiter_PreStep_still (pos : Vec2 α) (rot : α) (g : Globals) (a : Arbiter α)
    (inv_dt : α) (mem : BodyMem α) (p : Nat) (h : Body.Still pos rot (mem p)) :
    Body.Still pos rot ((a.PreStep g inv_dt mem).2 p) := by
  unfold Arbiter.PreStep
  simp only []
  apply forContacts_inv _ (fun mem => Body.Still pos rot (mem p)) _ _ _ h
  intro mem c hm
  unfold Arbiter.PreStep.contact
  cases hacc : g.accumulateImpulses
  · simp only [Bool.false_eq_true, if_false]
    exact hm
  · simp only [if_true]
    exact applyToBodies_still pos rot mem p _ _ _ _ _ hm

theorem Arbiter_ApplyImpulse_still (pos : Vec2 α) (rot : α) (g : Globals) (a : Arbiter α)
    (mem : BodyMem α) (p : Nat) (h : Body.Still pos rot (mem p)) :
    Body.Still pos rot ((a.ApplyImpulse g mem).2 p) := by
  unfold Arbiter.ApplyImpulse
  simp only []
  apply forContacts_inv _ (fun mem => Body.Still pos rot (mem p)) _ _ _ h
  intro mem c hm
  unfold Arbiter.ApplyImpulse.contact
  simp only []
  apply applyToBodies_still
  apply applyToBodies_still
  exact hm

omit [LinearOrderedField α] in
theorem forArbiters_inv (sched : Schedule) (r : Nat)
    (f : Arbiter α → BodyMem α → Arbiter α × BodyMem α) (I : BodyMem α → Prop)
    (hf : ∀ a mem, I mem → I (f a mem).2) (arbs : ArbiterMap α) (mem : BodyMem α)
    (h : I mem) : I (forArbiters sched r f arbs mem).2 := by
  unfold forArbiters
  apply foldl_inv (visitArbiter f) (fun s => I s.2) _ _ _ h
  intro s key hs
  unfold visitArbiter
  split
  · exact hs
  · exact hf _ _ hs

theorem Joint_PreStep_still (pos : Vec2 α) (rot : α) (m : MathLib α) (g : Globals)
    (j : Joint α) (inv_dt : α) (mem : BodyMem α) (p : Nat) (r : Joint α × BodyMem α)
    (hr : j.PreStep m g inv_dt mem = some r) (h : Body.Still pos rot (mem p)) :
    Body.Still pos rot (r.2 p) := by
  unfold Joint.PreStep at hr
  simp only [Option.map_eq_some'] at hr
  obtain ⟨M, -, rfl⟩ := hr
  split_ifs <;> first | exact h | exact applyToBodies_still pos rot mem p _ _ _ _ _ h

theorem Joint_ApplyImpulse_still (pos : Vec2 α) (rot : α) (j : Joint α) (mem : BodyMem α)
    (p : Nat) (h : Body.Still pos rot (mem p)) :
    Body.Still pos rot ((j.ApplyImpulse mem).2 p) := by
  unfold Joint.ApplyImpulse
  simp only []
  exact applyToBodies_still pos rot mem p _ _ _ _ _ h

theorem iterate_still (pos : Vec2 α) (rot : α) (sched : Schedule) (g : Globals)
    (joints : List Nat) (p : Nat) (n i : Nat) (s : ArbiterMap α × Heap α)
    (h : Body.Still pos rot (s.2.body p)) :
    Body.Still pos rot ((World.Step.iterate sched g joints n i s).2.body p) := by
  induction n generalizing i s with
  | zero => exact h
  | succ n ih =>
    unfold World.Step.iterate
    simp only []
    apply ih
    apply foldl_inv _ (fun hp : Heap α => Body.Still pos rot (hp.body p))
    · intro hp jp hh
      exact Joint_ApplyImpulse_still pos rot _ _ p hh
    · exact forArbiters_inv sched (i + 1) (Arbiter.ApplyImpulse g)
        (fun mem => Body.Still pos rot (mem p))
        (fun a mem hm => Arbiter_ApplyImpulse_still pos rot g a mem p hm) _ _ h

theorem integrateForces_still (pos : Vec2 α) (rot : α) (w : World α) (dt : α)
    (mem : BodyMem α) (p b : Nat) (h : Body.Still pos rot (mem p)) :
    Body.Still pos rot ((World.Step.integrateForces w dt mem b) p) := by
  unfold World.Step.integrateForces
  split_ifs with hb
  · exact h
  · have hne : p ≠ b := by
      intro hpb; subst hpb; exact hb h.1
    simp only [BodyMem.modify, hne, if_false]
    exact h

theorem integrateVelocities_still (pos : Vec2 α) (rot : α) (dt : α)
    (mem : BodyMem α) (p b : Nat) (h : Body.Still pos rot (mem p)) :
    Body.Still pos rot ((World.Step.integrateVelocities dt mem b) p) := by
  unfold World.Step.integrateVelocities
  apply modify_keep
  · rintro b ⟨h1, h2, h3, h4, h5, h6⟩; exact ⟨h1, h2, h3, h4, h5, h6⟩
  apply modify_keep
  · rintro b ⟨h1, h2, h3, h4, h5, h6⟩; exact ⟨h1, h2, h3, h4, h5, h6⟩
  apply modify_keep
  · rintro b ⟨h1, h2, h3, h4, h5, h6⟩
    exact ⟨h1, h2, h3, h4, h5, by simp [h4, h6]⟩
  apply modify_keep
  · rintro b ⟨h1, h2, h3, h4, h5, h6⟩
    refine ⟨h1, h2, h3, h4, ?_, h6⟩
    simp [h3, ← h5, Vec2.Add, MulSV]
  exact h

/-- C7: a static body (`invMass = 0`, `invI = 0`) with zero velocity and zero angular velocity
keeps zero velocity, zero angular velocity and its `Position` and `Rotation` (and stays static)
after every `World.Step` that completes, whatever arbiters and joints involve it, whatever
force and torque are stored on it, for every `dt`, iteration count and order of the ranges over
the arbiter map. -/
theorem static_body_quiescence (m : MathLib α) (g : Globals) (sched : Schedule) (w : World α)
    (h : Heap α) (dt : α) (p : Nat) (r : World α × Heap α)
    (hstep : w.Step m g sched h dt = some r)
    (hm : (h.body p).invMass = 0) (hi : (h.body p).invI = 0)
    (hv : (h.body p).Velocity = ⟨0, 0⟩) (hw : (h.body p).AngularVelocity = 0) :
    (r.2.body p).Velocity = ⟨0, 0⟩ ∧ (r.2.body p).AngularVelocity = 0 ∧
    (r.2.body p).Position = (h.body p).Position ∧
    (r.2.body p).Rotation = (h.body p).Rotation ∧
    (r.2.body p).invMass = 0 ∧ (r.2.body p).invI = 0 := by
  have h0 : Body.Still (h.body p).Position (h.body p).Rotation (h.body p) :=
    ⟨hm, hi, hv, hw, rfl, rfl⟩
  suffices hs : Body.Still (h.body p).Position (h.body p).Rotation (r.2.body p) from
    ⟨hs.2.2.1, hs.2.2.2.1, hs.2.2.2.2.1, hs.2.2.2.2.2, hs.1, hs.2.1⟩
  generalize (h.body p).Position = pos at h0 ⊢
  generalize (h.body p).Rotation = rot at h0 ⊢
  unfold World.Step at hstep
  simp only [Option.bind_eq_some, Option.map_eq_some'] at hstep
  obtain ⟨w1, -, h2, hj, rfl⟩ := hstep
  simp only []
  apply foldl_inv _ (fun mem : BodyMem α => Body.Still pos rot (mem p))
  · intro mem b hb
    exact integrateVelocities_still pos rot dt mem p b hb
  apply iterate_still
  refine forM?_inv _ (fun hp : Heap α => Body.Still pos rot (hp.body p)) ?_ _ _ _ hj ?_
  · intro s jp s1 hs1 hI
    unfold visitJoint at hs1
    simp only [Option.map_eq_some'] at hs1
    obtain ⟨x, hx, rfl⟩ := hs1
    exact Joint_PreStep_still pos rot m g _ _ _ p x hx hI
  · apply forArbiters_inv sched 0 _ (fun mem => Body.Still pos rot (mem p))
      (fun a mem hm => Arbiter_PreStep_still pos rot g a _ mem p hm)
    apply foldl_inv _ (fun mem : BodyMem α => Body.Still pos rot (mem p))
    · intro mem b hb
      exact integrateForces_still pos rot w1 dt mem p b hb
    · exact h0

omit [LinearOrderedField α] in
theorem forM?_some {σ β : Type} (f : σ → β → Option σ) (hf : ∀ s x, ∃ s1, f s x = some s1)
    (xs : List β) (s : σ) : ∃ s1, forM? f xs s = some s1 := by
  induction xs generalizing s with
  | nil => exact ⟨s, rfl⟩
  | cons x xs ih =>
    obtain ⟨s2, h2⟩ := hf s x
    obtain ⟨s3, h3⟩ := ih s2
    exact ⟨s3, by simp [forM?, h2, h3]⟩

theorem BroadPhase_pair_some (m : MathLib α) (g : Globals) (mem : BodyMem α)
    (arbs : ArbiterMap α) (p : Nat × Nat) :
    ∃ arbs1, World.BroadPhase.pair m g mem arbs p = some arbs1 := by
  unfold World.BroadPhase.pair
  simp only []
  split_ifs
  · exact ⟨_, rfl⟩
  · obtain ⟨cs, hcs, -⟩ := Collide_forall m (mem (ArbiterKey.Set ⟨0, 0⟩ p.1 p.2).Body1)
      (mem (ArbiterKey.Set ⟨0, 0⟩ p.1 p.2).Body2) (fun _ => True) (fun _ _ _ _ => trivial)
    rw [hcs]
    exact ⟨_, rfl⟩

/-- The broad phase never panics; it changes nothing but the arbiter map. -/
theorem BroadPhase_some (m : MathLib α) (g : Globals) (w : World α) (mem : BodyMem α) :
    ∃ arbs, w.BroadPhase m g mem = some { w with Arbiters := arbs } := by
  unfold World.BroadPhase
  obtain ⟨arbs, h⟩ := forM?_some (World.BroadPhase.pair m g mem)
    (BroadPhase_pair_some m g mem) (World.BroadPhase.pairs w.Bodies) w.Arbiters
  exact ⟨arbs, by rw [h]; rfl⟩

/-- A step of a world without joints completes. -/
theorem Step_some_of_no_joints (m : MathLib α) (g : Globals) (sched : Schedule) (w : World α)
    (h : Heap α) (dt : α) (hj : w.Joints = []) : ∃ r, w.Step m g sched h dt = some r := by
  obtain ⟨arbs, hb⟩ := BroadPhase_some m g w h.body
  unfold World.Step
  rw [hb]
  simp only [Option.some_bind, hj, forM?, Option.map_some']
  exact ⟨_, rfl⟩

theorem static_body_quiescence_witness :
    ∃ r, Sample.world.Step Sample.math Globals.default Schedule.inOrder
        Sample.ground (1 / 60) = some r ∧
      (Sample.ground.body 0).invMass = 0 ∧ (Sample.ground.body 0).invI = 0 ∧
      (Sample.ground.body 0).Velocity = ⟨0, 0⟩ ∧ (Sample.ground.body 0).AngularVelocity = 0 ∧
      (r.2.body 0).Velocity = ⟨0, 0⟩ ∧ (r.2.body 0).AngularVelocity = 0 ∧
      (r.2.body 0).Position = (Sample.ground.body 0).Position ∧
      (r.2.body 0).Rotation = (Sample.ground.body 0).Rotation := by
  obtain ⟨r, hr⟩ := Step_some_of_no_joints Sample.math Globals.default Schedule.inOrder
    Sample.world Sample.ground (1 / 60) rfl
  have h := static_body_quiescence Sample.math Globals.default Schedule.inOrder
    Sample.world Sample.ground (1 / 60) 0 r hr rfl rfl rfl rfl
  exact ⟨r, hr, rfl, rfl, rfl, rfl, h.1, h.2.1, h.2.2.1, h.2.2.2.1⟩

omit [LinearOrderedField α] in
theorem mem_delete (arbs : ArbiterMap α) (key : ArbiterKey) (x : ArbiterKey × Arbiter α)
    (h : x ∈ arbs.delete key) : x ∈ arbs ∧ x.1 ≠ key := by
  induction arbs with
  | nil => simp [ArbiterMap.delete] at h
  | cons y ys ih =>
    obtain ⟨k, a⟩ := y
    simp only [ArbiterMap.delete] at h
    split_ifs at h with hk
    · exact ⟨List.mem_cons_of_mem _ (ih h).1, (ih h).2⟩
    · rcases List.mem_cons.mp h with h | h
      · subst h; exact ⟨List.mem_cons_self _ _, hk⟩
      · exact ⟨List.mem_cons_of_mem _ (ih h).1, (ih h).2⟩

theorem pairs_mem (bs : List Nat) (a b : Nat) (h : (a, b) ∈ World.BroadPhase.pairs bs) :
    a ∈ bs ∧ b ∈ bs := by
  induction bs with
  | nil => simp [World.BroadPhase.pairs] at h
  | cons x xs ih =>
    simp only [World.BroadPhase.pairs, List.mem_append, List.mem_map, Prod.mk.injEq] at h
    rcases h with ⟨y, hy, rfl, rfl⟩ | h
    · exact ⟨List.mem_cons_self _ _, List.mem_cons_of_mem _ hy⟩
    · exact ⟨List.mem_cons_of_mem _ (ih h).1, List.mem_cons_of_mem _ (ih h).2⟩

theorem pairs_ne (bs : List Nat) (hnd : bs.Nodup) (a b : Nat)
    (h : (a, b) ∈ World.BroadPhase.pairs bs) : a ≠ b := by
  induction bs with
  | nil => simp [World.BroadPhase.pairs] at h
  | cons x xs ih =>
    rw [List.nodup_cons] at hnd
    simp only [World.BroadPhase.pairs, List.mem_append, List.mem_map, Prod.mk.injEq] at h
    rcases h with ⟨y, hy, rfl, rfl⟩ | h
    · intro hxy; subst hxy; exact hnd.1 hy
    · exact ih hnd.2 h

theorem pairs_of_mem (bs : List Nat) (a b : Nat) (ha : a ∈ bs) (hb : b ∈ bs) (hab : a ≠ b) :
    (a, b) ∈ World.BroadPhase.pairs bs ∨ (b, a) ∈ World.BroadPhase.pairs bs := by
  induction bs with
  | nil => simp at ha
  | cons x xs ih =>
    simp only [World.BroadPhase.pairs, List.mem_append, List.mem_map, Prod.mk.injEq]
    rcases List.mem_cons.mp ha with ha | ha <;> rcases List.mem_cons.mp hb with hb | hb
    · exact absurd (ha.trans hb.symm) hab
    · exact Or.inl (Or.inl ⟨b, hb, ha.symm, rfl⟩)
    · exact Or.inr (Or.inl ⟨a, ha, hb.symm, rfl⟩)
    · rcases ih ha hb with h | h
      · exact Or.inl (Or.inr h)
      · exact Or.inr (Or.inr h)

theorem ArbiterKey_Set_comm (k : ArbiterKey) (a b : Nat) : k.Set a b = k.Set b a := by
  unfold ArbiterKey.Set
  rcases Nat.lt_trichotomy a b with h | h | h
  · simp [h, Nat.lt_asymm h]
  · subst h; rfl
  · simp [h, Nat.lt_asymm h]

theorem ArbiterKey_Set_bodies (k : ArbiterKey) (a b : Nat) :
    ((k.Set a b).Body1 = a ∧ (k.Set a b).Body2 = b) ∨
    ((k.Set a b).Body1 = b ∧ (k.Set a b).Body2 = a) := by
  unfold ArbiterKey.Set
  split_ifs
  · exact Or.inl ⟨rfl, rfl⟩
  · exact Or.inr ⟨rfl, rfl⟩

/-- When no visited pair produces a contact, the broad phase only deletes: what is left was
there before, under a key of no visited pair. -/
theorem BroadPhase_pairs_delete (m : MathLib α) (g : Globals) (mem : BodyMem α)
    (ps : List (Nat × Nat))
    (hno : ∀ pr ∈ ps, ¬ ((mem pr.1).invMass = 0 ∧ (mem pr.2).invMass = 0) →
      Collide m (mem (ArbiterKey.Set ⟨0, 0⟩ pr.1 pr.2).Body1)
        (mem (ArbiterKey.Set ⟨0, 0⟩ pr.1 pr.2).Body2) = some [])
    (arbs : ArbiterMap α) :
    ∃ arbs1, forM? (World.BroadPhase.pair m g mem) ps arbs = some arbs1 ∧
      ∀ x ∈ arbs1, x ∈ arbs ∧ ∀ pr ∈ ps,
        ¬ ((mem pr.1).invMass = 0 ∧ (mem pr.2).invMass = 0) →
        x.1 ≠ ArbiterKey.Set ⟨0, 0⟩ pr.1 pr.2 := by
  induction ps generalizing arbs with
  | nil => exact ⟨arbs, rfl, fun x hx => ⟨hx, by simp⟩⟩
  | cons pr rest ih =>
    have hrest : ∀ q ∈ rest, ¬ ((mem q.1).invMass = 0 ∧ (mem q.2).invMass = 0) →
        Collide m (mem (ArbiterKey.Set ⟨0, 0⟩ q.1 q.2).Body1)
          (mem (ArbiterKey.Set ⟨0, 0⟩ q.1 q.2).Body2) = some [] :=
      fun q hq => hno q (List.mem_cons_of_mem _ hq)
    by_cases hst : (mem pr.1).invMass = 0 ∧ (mem pr.2).invMass = 0
    · obtain ⟨arbs1, h1, h2⟩ := ih hrest arbs
      refine ⟨arbs1, by simp [forM?, World.BroadPhase.pair, hst, h1], ?_⟩
      intro x hx
      refine ⟨(h2 x hx).1, ?_⟩
      intro q hq hnst
      rcases List.mem_cons.mp hq with hq | hq
      · subst hq; exact absurd hst hnst
      · exact (h2 x hx).2 q hq hnst
    · have hpr := hno pr (List.mem_cons_self _ _) hst
      obtain ⟨arbs1, h1, h2⟩ := ih hrest (arbs.delete (ArbiterKey.Set ⟨0, 0⟩ pr.1 pr.2))
      refine ⟨arbs1, by simp [forM?, World.BroadPhase.pair, hst, hpr, h1], ?_⟩
      intro x hx
      have hd := mem_delete _ _ x (h2 x hx).1
      refine ⟨hd.1, ?_⟩
      intro q hq hnst
      rcases List.mem_cons.mp hq with hq | hq
      · subst hq; exact hd.2
      · exact (h2 x hx).2 q hq hnst

omit [LinearOrderedField α] in
theorem visit_empty (f : Arbiter α → BodyMem α → Arbiter α × BodyMem α) (mem : BodyMem α)
    (ks : List ArbiterKey) : ks.foldl (visitArbiter f) ([], mem) = ([], mem) := by
  induction ks with
  | nil => rfl
  | cons k ks ih => simpa [List.foldl, visitArbiter, ArbiterMap.get] using ih

omit [LinearOrderedField α] in
theorem forArbiters_empty (sched : Schedule) (r : Nat)
    (f : Arbiter α → BodyMem α → Arbiter α × BodyMem α) (mem : BodyMem α) :
    forArbiters sched r f [] mem = ([], mem) := by
  unfold forArbiters
  exact visit_empty f mem _

theorem iterate_empty (sched : Schedule) (g : Globals) (n i : Nat) (h : Heap α) :
    World.Step.iterate sched g [] n i (([] : ArbiterMap α), h) = ([], h) := by
  induction n generalizing i with
  | zero => rfl
  | succ n ih =>
    unfold World.Step.iterate
    simp only [forArbiters_empty, List.foldl]
    exact ih (i + 1)

/-- A step of a world without joints whose broad phase leaves no arbiter only integrates. -/
theorem Step_no_contact (m : MathLib α) (g : Globals) (sched : Schedule) (w : World α)
    (h : Heap α) (dt : α) (hj : w.Joints = [])
    (hb : w.BroadPhase m g h.body = some { w with Arbiters := [] }) :
    w.Step m g sched h dt = some ({ w with Arbiters := [] },
      ⟨w.Bodies.foldl (World.Step.integrateVelocities dt)
          (w.Bodies.foldl (World.Step.integrateForces { w with Arbiters := [] } dt) h.body),
        h.joint⟩) := by
  unfold World.Step
  rw [hb]
  simp only [Option.some_bind, hj, forM?, Option.map_some', forArbiters_empty, iterate_empty]

omit [LinearOrderedField α] in
/-- A loop over body pointers whose body rewrites only the body pointed to applies the rewrite
to each body once per occurrence in the list. -/
theorem foldl_pointwise (F : BodyMem α → Nat → BodyMem α) (φ : Body α → Body α)
    (hF : ∀ mem b q, F mem b q = if q = b then φ (mem b) else mem q)
    (bs : List Nat) (mem : BodyMem α) (p : Nat) :
    (bs.foldl F mem) p = φ^[bs.count p] (mem p) := by
  induction bs generalizing mem with
  | nil => rfl
  | cons b bs ih =>
    rw [List.foldl_cons, ih, hF]
    by_cases hpb : p = b
    · subst hpb
      simp [List.count_cons_self, Function.iterate_succ_apply]
    · have hbp : b ≠ p := fun h => hpb h.symm
      simp [hpb, List.count_cons_of_ne hbp]

theorem integrateForces_pointwise (w : World α) (dt : α) (mem : BodyMem α) (b q : Nat) :
    World.Step.integrateForces w dt mem b q
      = if q = b then World.Step.forceStep w dt (mem b) else mem q := by
  unfold World.Step.integrateForces World.Step.forceStep BodyMem.modify
  by_cases hq : q = b
  · subst hq
    by_cases hs : (mem q).invMass = 0
    · simp [hs]
    · simp [hs]
  · by_cases hs : (mem b).invMass = 0
    · simp [hs, hq]
    · simp [hs, hq]

theorem integrateVelocities_pointwise (dt : α) (mem : BodyMem α) (b q : Nat) :
    World.Step.integrateVelocities dt mem b q
      = if q = b then World.Step.velocityStep dt (mem b) else mem q := by
  unfold World.Step.integrateVelocities World.Step.velocityStep BodyMem.modify
  by_cases hq : q = b
  · subst hq; simp
  · simp [hq]

/-- When no two distinct listed bodies (not both static) collide and every arbiter is stored
under the key of a visited pair, the broad phase leaves the arbiter map empty. -/
theorem BroadPhase_no_contact (m : MathLib α) (g : Globals) (w : World α) (mem : BodyMem α)
    (hnd : w.Bodies.Nodup)
    (hno : ∀ a b, a ∈ w.Bodies → b ∈ w.Bodies → a ≠ b →
      ¬ ((mem a).invMass = 0 ∧ (mem b).invMass = 0) → Collide m (mem a) (mem b) = some [])
    (harb : ∀ x ∈ w.Arbiters, ∃ a b, a ∈ w.Bodies ∧ b ∈ w.Bodies ∧ a ≠ b ∧
      ¬ ((mem a).invMass = 0 ∧ (mem b).invMass = 0) ∧ x.1 = ArbiterKey.Set ⟨0, 0⟩ a b) :
    w.BroadPhase m g mem = some { w with Arbiters := [] } := by
  have hps : ∀ pr ∈ World.BroadPhase.pairs w.Bodies,
      ¬ ((mem pr.1).invMass = 0 ∧ (mem pr.2).invMass = 0) →
      Collide m (mem (ArbiterKey.Set ⟨0, 0⟩ pr.1 pr.2).Body1)
        (mem (ArbiterKey.Set ⟨0, 0⟩ pr.1 pr.2).Body2) = some [] := by
    intro pr hpr hst
    have hm := pairs_mem w.Bodies pr.1 pr.2 hpr
    have hne := pairs_ne w.Bodies hnd pr.1 pr.2 hpr
    rcases ArbiterKey_Set_bodies ⟨0, 0⟩ pr.1 pr.2 with ⟨h1, h2⟩ | ⟨h1, h2⟩
    · rw [h1, h2]; exact hno _ _ hm.1 hm.2 hne hst
    · rw [h1, h2]; exact hno _ _ hm.2 hm.1 (Ne.symm hne) (fun h => hst ⟨h.2, h.1⟩)
  obtain ⟨arbs1, h1, h2⟩ := BroadPhase_pairs_delete m g mem _ hps w.Arbiters
  have hnil : arbs1 = [] := by
    rw [List.eq_nil_iff_forall_not_mem]
    intro x hx
    obtain ⟨hxw, hkey⟩ := h2 x hx
    obtain ⟨a, b, ha, hb, hab, hst, hk⟩ := harb x hxw
    rcases pairs_of_mem w.Bodies a b ha hb hab with hp | hp
    · exact hkey (a, b) hp hst hk
    · exact hkey (b, a) hp (fun h => hst ⟨h.2, h.1⟩) (hk.trans (ArbiterKey_Set_comm _ a b))
  unfold World.BroadPhase
  rw [h1, hnil]
  rfl

/-- One step of free fall: a world without joints in which no two distinct listed bodies (not
both static) collide. -/
theorem free_fall_step (m : MathLib α) (g : Globals) (sched : Schedule) (w : World α)
    (h : Heap α) (dt : α) (p : Nat) (hj : w.Joints = []) (hnd : w.Bodies.Nodup)
    (hp : p ∈ w.Bodies)
    (hno : ∀ a b, a ∈ w.Bodies → b ∈ w.Bodies → a ≠ b →
      ¬ ((h.body a).invMass = 0 ∧ (h.body b).invMass = 0) →
      Collide m (h.body a) (h.body b) = some [])
    (harb : ∀ x ∈ w.Arbiters, ∃ a b, a ∈ w.Bodies ∧ b ∈ w.Bodies ∧ a ≠ b ∧
      ¬ ((h.body a).invMass = 0 ∧ (h.body b).invMass = 0) ∧ x.1 = ArbiterKey.Set ⟨0, 0⟩ a b) :
    ∃ r, w.Step m g sched h dt = some r ∧ r.1 = { w with Arbiters := [] } ∧
      r.2.body p = World.Step.velocityStep dt (World.Step.forceStep w dt (h.body p)) := by
  have hb := BroadPhase_no_contact m g w h.body hnd hno harb
  refine ⟨_, Step_no_contact m g sched w h dt hj hb, rfl, ?_⟩
  simp only []
  rw [foldl_pointwise _ _ (integrateVelocities_pointwise dt),
    foldl_pointwise _ _ (integrateForces_pointwise _ dt), List.count_eq_one_of_mem hnd hp]
  rfl

/-- C8 (as amended): free fall.  In a world with no joints, a body list without duplicates
and an arbiter map holding only entries under keys of pairs of distinct listed bodies that are
not both static, in which no two distinct listed bodies (not both static, the pairs the broad
phase tests) produce a contact during the steps, a listed dynamic body with zero force and
torque has, after `N` calls of `Step(dt)` (which all complete, for every `dt`),
`Velocity = v0 + N*dt*Gravity` and unchanged `AngularVelocity`; with `Gravity = (0, -10)` and
`v0 = 0` this gives `Velocity.Y = -10*N*dt`. -/
theorem free_fall (m : MathLib α) (g : Globals) (scheds : Nat → Schedule) (w : World α)
    (h : Heap α) (dt : α) (N : Nat) (p : Nat)
    (hj : w.Joints = []) (hnd : w.Bodies.Nodup) (hp : p ∈ w.Bodies)
    (harb : ∀ x ∈ w.Arbiters, ∃ a b, a ∈ w.Bodies ∧ b ∈ w.Bodies ∧ a ≠ b ∧
      ¬ ((h.body a).invMass = 0 ∧ (h.body b).invMass = 0) ∧ x.1 = ArbiterKey.Set ⟨0, 0⟩ a b)
    (hno : ∀ k, k < N → ∀ s, World.Steps m g scheds dt k (w, h) = some s →
      ∀ a b, a ∈ w.Bodies → b ∈ w.Bodies → a ≠ b →
        ¬ ((s.2.body a).invMass = 0 ∧ (s.2.body b).invMass = 0) →
        Collide m (s.2.body a) (s.2.body b) = some [])
    (hdyn : (h.body p).invMass ≠ 0) (hF : (h.body p).Force = ⟨0, 0⟩)
    (hT : (h.body p).Torque = 0) :
    ∃ s, World.Steps m g scheds dt N (w, h) = some s ∧
      (s.2.body p).Velocity = (h.body p).Velocity.Add (MulSV (N * dt) w.Gravity) ∧
      (s.2.body p).AngularVelocity = (h.body p).AngularVelocity ∧
      (w.Gravity = ⟨0, -10⟩ → (h.body p).Velocity = ⟨0, 0⟩ →
        (s.2.body p).Velocity.Y = -10 * N * dt) := by
  have main : ∃ s, World.Steps m g scheds dt N (w, h) = some s ∧
      s.1.Bodies = w.Bodies ∧ s.1.Joints = [] ∧ s.1.Gravity = w.Gravity ∧
      (∀ x ∈ s.1.Arbiters, ∃ a b, a ∈ w.Bodies ∧ b ∈ w.Bodies ∧ a ≠ b ∧
        ¬ ((s.2.body a).invMass = 0 ∧ (s.2.body b).invMass = 0) ∧
        x.1 = ArbiterKey.Set ⟨0, 0⟩ a b) ∧
      (s.2.body p).invMass = (h.body p).invMass ∧ (s.2.body p).Force = ⟨0, 0⟩ ∧
      (s.2.body p).Torque = 0 ∧
      (s.2.body p).Velocity = (h.body p).Velocity.Add (MulSV (N * dt) w.Gravity) ∧
      (s.2.body p).AngularVelocity = (h.body p).AngularVelocity := by
    induction N with
    | zero =>
      refine ⟨(w, h), rfl, rfl, hj, rfl, harb, rfl, hF, hT, ?_, rfl⟩
      simp [Vec2.Add, MulSV]
    | succ n ih =>
      obtain ⟨s, hs, hB, hJ, hG, hA, hM, hF1, hT1, hV, hW⟩ :=
        ih (fun k hk => hno k (Nat.lt_succ_of_lt hk))
      have hno1 := hno n (Nat.lt_succ_self n) s hs
      obtain ⟨r, hr, hr1, hr2⟩ := free_fall_step m g (scheds n) s.1 s.2 dt p hJ
        (by rw [hB]; exact hnd) (by rw [hB]; exact hp) (by rw [hB]; exact hno1)
        (by rw [hB]; exact hA)
      have hdyn1 : ¬ (s.2.body p).invMass = 0 := by rw [hM]; exact hdyn
      refine ⟨r, by simp [World.Steps, hs, hr], ?_⟩
      rw [hr1, hr2]
      refine ⟨hB, hJ, hG, by simp, ?_, ?_, ?_, ?_, ?_⟩
      · simp [World.Step.velocityStep, World.Step.forceStep, hM, hdyn]
      · simp [World.Step.velocityStep]
      · simp [World.Step.velocityStep]
      · simp only [World.Step.velocityStep, World.Step.forceStep, hdyn1, if_false, hV, hF1, hG,
          Vec2.Add, MulSV, Vec2.mk.injEq]
        push_cast
        constructor <;> ring
      · simp [World.Step.velocityStep, World.Step.forceStep, hdyn1, hT1, hW]
  obtain ⟨s, hs, -, -, -, -, -, -, -, hV, hW⟩ := main
  refine ⟨s, hs, hV, hW, ?_⟩
  intro hg hv0
  rw [hV, hg, hv0]
  simp [Vec2.Add, MulSV]
  ring

theorem Sample.collide_apart :
    Collide Sample.math Sample.boxA Sample.boxFar = some [] ∧
    Collide Sample.math Sample.boxFar Sample.boxA = some [] := by
  constructor <;>
  norm_num [Collide, Sample.math, Sample.boxA, Sample.boxFar, Sample.box, Mat22ByAngle, MulSV,
    Mat22.Transpose, Mat22.MulV, Mat22.MulM, Mat22.Abs, Vec2.Abs, Vec2.Sub]

/-- The body `Sample.inverted` that `Body.Set` computes. -/
theorem Sample.inverted_eq :
    Sample.inverted =
      { Position := ⟨0, 0⟩, Rotation := 0, Velocity := ⟨0, 0⟩, AngularVelocity := 0,
        Force := ⟨0, 0⟩, Torque := 0, Width := ⟨-1, -1⟩, Friction := 1 / 5,
        Mass := 1, invMass := 1, I := 1 / 6, invI := 6 } := by
  have h : (1 : ℚ) < Sample.math.MaxFloat64 := by norm_num [Sample.math]
  simp only [Sample.inverted, Body.Set, h, if_true]
  norm_num

theorem Sample.collide_inverted :
    Collide Sample.math Sample.inverted Sample.inverted = some [] := by
  rw [Sample.inverted_eq]
  norm_num [Collide, Sample.math, Mat22ByAngle, MulSV,
    Mat22.Transpose, Mat22.MulV, Mat22.MulM, Mat22.Abs, Vec2.Abs, Vec2.Sub]

theorem free_fall_witness :
    Sample.world.Joints = [] ∧ Sample.world.Bodies.Nodup ∧ 1 ∈ Sample.world.Bodies ∧
    (∀ a b, a ∈ Sample.world.Bodies → b ∈ Sample.world.Bodies → a ≠ b →
      ¬ ((Sample.apart.body a).invMass = 0 ∧ (Sample.apart.body b).invMass = 0) →
      Collide Sample.math (Sample.apart.body a) (Sample.apart.body b) = some []) ∧
    (Sample.apart.body 1).invMass ≠ 0 ∧
    ∃ s, World.Steps Sample.math Globals.default (fun _ => Schedule.inOrder) (1 / 60) 1
        (Sample.world, Sample.apart) = some s ∧
      (s.2.body 1).Velocity
        = (Sample.apart.body 1).Velocity.Add (MulSV ((1 : ℕ) * (1 / 60)) Sample.world.Gravity) ∧
      (s.2.body 1).AngularVelocity = (Sample.apart.body 1).AngularVelocity := by
  have hnd : Sample.world.Bodies.Nodup := by
    simp [Sample.world, World.AddBody, NewWorld]
  have hmem : 1 ∈ Sample.world.Bodies := by
    simp [Sample.world, World.AddBody, NewWorld]
  have hno : ∀ a b, a ∈ Sample.world.Bodies → b ∈ Sample.world.Bodies → a ≠ b →
      ¬ ((Sample.apart.body a).invMass = 0 ∧ (Sample.apart.body b).invMass = 0) →
      Collide Sample.math (Sample.apart.body a) (Sample.apart.body b) = some [] := by
    intro a b ha hb hab _
    simp only [Sample.world, World.AddBody, NewWorld, List.nil_append, List.cons_append,
      List.mem_cons, List.mem_singleton, List.not_mem_nil, or_false] at ha hb
    rcases ha with rfl | rfl <;> rcases hb with rfl | rfl
    · exact absurd rfl hab
    · exact Sample.collide_apart.1
    · exact Sample.collide_apart.2
    · exact absurd rfl hab
  have hdyn : (Sample.apart.body 1).invMass ≠ 0 := by
    norm_num [Sample.apart, Sample.boxFar, Sample.box]
  obtain ⟨s, hs, hv, hw, -⟩ := free_fall Sample.math Globals.default
    (fun _ => Schedule.inOrder) Sample.world Sample.apart (1 / 60) 1 1 rfl hnd hmem
    (by intro x hx; simp [Sample.world, World.AddBody, NewWorld] at hx)
    (by
      intro k hk s hs
      have hk0 : k = 0 := by omega
      subst hk0
      simp only [World.Steps, Option.some.injEq] at hs
      rw [← hs]
      exact hno)
    hdyn rfl rfl
  exact ⟨rfl, hnd, hmem, hno, hdyn, s, hs, hv, hw⟩

/-- C8, counterexample: a dynamic body added twice to a world without joints, with a
(negative) width for which no pair of listed bodies produces a contact, gains `2*dt*Gravity` in
one step: with `dt = 1` and `Gravity = (0, -10)` its velocity is `(0, -20)`, not `(0, -10)`. -/
theorem free_fall_listed_twice :
    Sample.twice.Joints = [] ∧
    (∀ a ∈ Sample.twice.Bodies, ∀ b ∈ Sample.twice.Bodies,
      Collide Sample.math (Sample.invertedHeap.body a) (Sample.invertedHeap.body b) = some []) ∧
    (Sample.invertedHeap.body 1).invMass ≠ 0 ∧
    (Sample.invertedHeap.body 1).Force = ⟨0, 0⟩ ∧ (Sample.invertedHeap.body 1).Torque = 0 ∧
    ∃ s, World.Steps Sample.math Globals.default (fun _ => Schedule.inOrder) 1 1
        (Sample.twice, Sample.invertedHeap) = some s ∧
      (s.2.body 1).Velocity = ⟨0, -20⟩ ∧
      (s.2.body 1).Velocity
        ≠ (Sample.invertedHeap.body 1).Velocity.Add (MulSV ((1 : ℕ) * 1) Sample.twice.Gravity) := by
  have hb : Sample.twice.BroadPhase Sample.math Globals.default Sample.invertedHeap.body
      = some { Sample.twice with Arbiters := [] } := by
    have hc := Sample.collide_inverted
    have hinv : Sample.inverted.invMass = 1 := by rw [Sample.inverted_eq]
    simp [World.BroadPhase, Sample.twice, World.AddBody, NewWorld, World.BroadPhase.pairs, forM?,
      World.BroadPhase.pair, Sample.invertedHeap, hc, hinv, ArbiterMap.delete]
  have hstep := Step_no_contact Sample.math Globals.default Schedule.inOrder Sample.twice
    Sample.invertedHeap 1 rfl hb
  have hv : ((Sample.twice.Bodies.foldl (World.Step.integrateVelocities (1 : ℚ))
      (Sample.twice.Bodies.foldl
        (World.Step.integrateForces { Sample.twice with Arbiters := [] } 1)
        Sample.invertedHeap.body)) 1).Velocity = ⟨0, -20⟩ := by
    rw [foldl_pointwise _ _ (integrateVelocities_pointwise 1),
      foldl_pointwise _ _ (integrateForces_pointwise _ 1)]
    norm_num [Sample.twice, World.AddBody, NewWorld, World.Step.velocityStep,
      World.Step.forceStep, Sample.invertedHeap, Sample.inverted_eq, Vec2.Add, MulSV]
  have hdyn : (Sample.invertedHeap.body 1).invMass ≠ 0 := by
    norm_num [Sample.invertedHeap, Sample.inverted_eq]
  have hne : (⟨0, -20⟩ : Vec2 ℚ)
      ≠ (Sample.invertedHeap.body 1).Velocity.Add (MulSV ((1 : ℕ) * 1) Sample.twice.Gravity) := by
    norm_num [Sample.invertedHeap, Sample.inverted_eq, Sample.twice,
      World.AddBody, NewWorld, Vec2.Add, MulSV]
  have hF : (Sample.invertedHeap.body 1).Force = ⟨0, 0⟩ := by
    simp [Sample.invertedHeap, Sample.inverted_eq]
  have hT : (Sample.invertedHeap.body 1).Torque = 0 := by
    simp [Sample.invertedHeap, Sample.inverted_eq]
  exact ⟨rfl, fun _ _ _ _ => Sample.collide_inverted, hdyn, hF, hT, _, hstep, hv,
    hv ▸ hne⟩

omit [LinearOrderedField α] in
theorem get_put_same (arbs : ArbiterMap α) (key : ArbiterKey) (v : Arbiter α) :
    (arbs.put key v).get key = some v := by
  induction arbs with
  | nil => simp [ArbiterMap.put, ArbiterMap.get]
  | cons y ys ih =>
    obtain ⟨k, a⟩ := y
    by_cases hk : k = key
    · simp [ArbiterMap.put, ArbiterMap.get, hk]
    · simp [ArbiterMap.put, ArbiterMap.get, hk, ih]

omit [LinearOrderedField α] in
theorem get_put_other (arbs : ArbiterMap α) (key K : ArbiterKey) (v : Arbiter α)
    (h : key ≠ K) : (arbs.put key v).get K = arbs.get K := by
  induction arbs with
  | nil => simp [ArbiterMap.put, ArbiterMap.get, h]
  | cons y ys ih =>
    obtain ⟨k, a⟩ := y
    by_cases hk : k = key
    · subst hk; simp [ArbiterMap.put, ArbiterMap.get, h]
    · by_cases hK : k = K
      · subst hK; simp [ArbiterMap.put, ArbiterMap.get, hk]
      · simp [ArbiterMap.put, ArbiterMap.get, hk, hK, ih]

omit [LinearOrderedField α] in
theorem get_delete_same (arbs : ArbiterMap α) (key : ArbiterKey) :
    (arbs.delete key).get key = none := by
  induction arbs with
  | nil => rfl
  | cons y ys ih =>
    obtain ⟨k, a⟩ := y
    by_cases hk : k = key
    · simp [ArbiterMap.delete, hk, ih]
    · simp [ArbiterMap.delete, ArbiterMap.get, hk, ih]

omit [LinearOrderedField α] in
theorem get_delete_other (arbs : ArbiterMap α) (key K : ArbiterKey) (h : key ≠ K) :
    (arbs.delete key).get K = arbs.get K := by
  induction arbs with
  | nil => rfl
  | cons y ys ih =>
    obtain ⟨k, a⟩ := y
    by_cases hk : k = key
    · subst hk; simp [ArbiterMap.delete, ArbiterMap.get, h, ih]
    · by_cases hK : k = K
      · subst hK; simp [ArbiterMap.delete, ArbiterMap.get, hk]
      · simp [ArbiterMap.delete, ArbiterMap.get, hk, hK, ih]

/-- The inner loop body of the broad phase either leaves the entry under another key alone, or
(for a pair with this key that is not both static) brings it in step with the collider. -/
theorem BroadPhase_pair_at (m : MathLib α) (g : Globals) (mem : BodyMem α) (K : ArbiterKey)
    (arbs arbs1 : ArbiterMap α) (pr : Nat × Nat)
    (h : World.BroadPhase.pair m g mem arbs pr = some arbs1) :
    (ArbiterKey.Set ⟨0, 0⟩ pr.1 pr.2 ≠ K → arbs1.get K = arbs.get K) ∧
    (ArbiterKey.Set ⟨0, 0⟩ pr.1 pr.2 = K →
      ¬ ((mem pr.1).invMass = 0 ∧ (mem pr.2).invMass = 0) → InStep m mem K arbs1) := by
  unfold World.BroadPhase.pair at h
  simp only [] at h
  split_ifs at h with hst
  · simp only [Option.some.injEq] at h
    subst h
    exact ⟨fun _ => rfl, fun _ hn => absurd hst hn⟩
  · simp only [Option.map_eq_some'] at h
    obtain ⟨cs, hcs, rfl⟩ := h
    constructor
    · intro hne
      split_ifs
      · split
        · exact get_put_other _ _ _ _ hne
        · exact get_put_other _ _ _ _ hne
      · exact get_delete_other _ _ _ hne
    · intro hK _
      subst hK
      unfold InStep
      rw [hcs]
      split_ifs with hlen
      · have hr : ∃ cs1, some cs = some cs1 ∧ 0 < cs1.length := ⟨cs, rfl, hlen⟩
        split
        · simp only [get_put_same, Option.isSome_some, true_iff]; exact hr
        · simp only [get_put_same, Option.isSome_some, true_iff]; exact hr
      · rw [get_delete_same]
        simp only [Option.isSome_none, Bool.false_eq_true, false_iff, not_exists, not_and]
        intro cs1 h1
        simp only [Option.some.injEq] at h1
        subst h1
        exact hlen

theorem ArbiterKey_Set_eq (k : ArbiterKey) (x y a b : Nat) (h : k.Set x y = k.Set a b) :
    (x = a ∧ y = b) ∨ (x = b ∧ y = a) := by
  unfold ArbiterKey.Set at h
  split_ifs at h <;> simp only [ArbiterKey.mk.injEq] at h
  · exact Or.inl h
  · exact Or.inr h
  · exact Or.inr ⟨h.2, h.1⟩
  · exact Or.inl ⟨h.2, h.1⟩

/-- Once in step at `K`, the map stays in step through any further pairs. -/
theorem BroadPhase_pairs_keep (m : MathLib α) (g : Globals) (mem : BodyMem α) (a b : Nat)
    (hst : ¬ ((mem a).invMass = 0 ∧ (mem b).invMass = 0)) (ps : List (Nat × Nat))
    (arbs arbs1 : ArbiterMap α)
    (h : forM? (World.BroadPhase.pair m g mem) ps arbs = some arbs1)
    (hin : InStep m mem (ArbiterKey.Set ⟨0, 0⟩ a b) arbs) :
    InStep m mem (ArbiterKey.Set ⟨0, 0⟩ a b) arbs1 := by
  induction ps generalizing arbs with
  | nil => simp only [forM?, Option.some.injEq] at h; rw [← h]; exact hin
  | cons pr rest ih =>
    simp only [forM?, Option.bind_eq_some] at h
    obtain ⟨arbs2, h2, h3⟩ := h
    apply ih arbs2 h3
    obtain ⟨hother, hsame⟩ := BroadPhase_pair_at m g mem (ArbiterKey.Set ⟨0, 0⟩ a b) arbs arbs2
      pr h2
    by_cases hk : ArbiterKey.Set ⟨0, 0⟩ pr.1 pr.2 = ArbiterKey.Set ⟨0, 0⟩ a b
    · apply hsame hk
      rcases ArbiterKey_Set_eq _ _ _ _ _ hk with ⟨h1, h2⟩ | ⟨h1, h2⟩
      · rw [h1, h2]; exact hst
      · rw [h1, h2]; exact fun h => hst ⟨h.2, h.1⟩
    · unfold InStep at hin ⊢
      rw [hother hk]
      exact hin

/-- After a loop that visits a pair with the key of `(a, b)`, the map is in step at that key. -/
theorem BroadPhase_pairs_at (m : MathLib α) (g : Globals) (mem : BodyMem α) (a b : Nat)
    (hst : ¬ ((mem a).invMass = 0 ∧ (mem b).invMass = 0)) (ps : List (Nat × Nat))
    (hvis : ∃ pr ∈ ps, ArbiterKey.Set ⟨0, 0⟩ pr.1 pr.2 = ArbiterKey.Set ⟨0, 0⟩ a b)
    (arbs arbs1 : ArbiterMap α)
    (h : forM? (World.BroadPhase.pair m g mem) ps arbs = some arbs1) :
    InStep m mem (ArbiterKey.Set ⟨0, 0⟩ a b) arbs1 := by
  induction ps generalizing arbs with
  | nil => obtain ⟨pr, hpr, -⟩ := hvis; simp at hpr
  | cons pr rest ih =>
    simp only [forM?, Option.bind_eq_some] at h
    obtain ⟨arbs2, h2, h3⟩ := h
    by_cases hk : ArbiterKey.Set ⟨0, 0⟩ pr.1 pr.2 = ArbiterKey.Set ⟨0, 0⟩ a b
    · apply BroadPhase_pairs_keep m g mem a b hst rest arbs2 arbs1 h3
      apply (BroadPhase_pair_at m g mem _ arbs arbs2 pr h2).2 hk
      rcases ArbiterKey_Set_eq _ _ _ _ _ hk with ⟨h1, h2⟩ | ⟨h1, h2⟩
      · rw [h1, h2]; exact hst
      · rw [h1, h2]; exact fun h => hst ⟨h.2, h.1⟩
    · apply ih _ arbs2 h3
      obtain ⟨q, hq, hqk⟩ := hvis
      rcases List.mem_cons.mp hq with hq | hq
      · subst hq; exact absurd hqk hk
      · exact ⟨q, hq, hqk⟩

/-- C9: for a body list without duplicates, after `World.BroadPhase` (which completes) every
pair of distinct listed bodies that are not both static has an entry under its canonical
`ArbiterKey` if and only if `Collide(key.Body1, key.Body2)` returns at least one contact at the
current poses; so an entry of a pair that no longer touches is removed. -/
theorem BroadPhase_in_step_with_collider (m : MathLib α) (g : Globals) (w : World α)
    (mem : BodyMem α) (_hnd : w.Bodies.Nodup) :
    ∃ w1, w.BroadPhase m g mem = some w1 ∧
      ∀ a b, a ∈ w.Bodies → b ∈ w.Bodies → a ≠ b →
        ¬ ((mem a).invMass = 0 ∧ (mem b).invMass = 0) →
        ((w1.Arbiters.get (ArbiterKey.Set ⟨0, 0⟩ a b)).isSome ↔
          ∃ cs, Collide m (mem (ArbiterKey.Set ⟨0, 0⟩ a b).Body1)
            (mem (ArbiterKey.Set ⟨0, 0⟩ a b).Body2) = some cs ∧ 0 < cs.length) := by
  obtain ⟨arbs, hf⟩ := forM?_some (World.BroadPhase.pair m g mem)
    (BroadPhase_pair_some m g mem) (World.BroadPhase.pairs w.Bodies) w.Arbiters
  refine ⟨{ w with Arbiters := arbs }, by simp [World.BroadPhase, hf], ?_⟩
  intro a b ha hb hab hst
  apply BroadPhase_pairs_at m g mem a b hst (World.BroadPhase.pairs w.Bodies) _ w.Arbiters arbs hf
  rcases pairs_of_mem w.Bodies a b ha hb hab with hp | hp
  · exact ⟨(a, b), hp, rfl⟩
  · exact ⟨(b, a), hp, ArbiterKey_Set_comm _ b a⟩

theorem BroadPhase_in_step_with_collider_witness :
    Sample.world.Bodies.Nodup ∧
    ∃ w1, Sample.world.BroadPhase Sample.math Globals.default Sample.mem = some w1 ∧
      (w1.Arbiters.get (ArbiterKey.Set ⟨0, 0⟩ 0 1)).isSome = true := by
  have hnd : Sample.world.Bodies.Nodup := by
    simp [Sample.world, World.AddBody, NewWorld]
  obtain ⟨w1, h1, h2⟩ := BroadPhase_in_step_with_collider Sample.math Globals.default
    Sample.world Sample.mem hnd
  refine ⟨hnd, w1, h1, ?_⟩
  apply (h2 0 1 (by simp [Sample.world, World.AddBody, NewWorld])
    (by simp [Sample.world, World.AddBody, NewWorld]) (by decide)
    (by norm_num [Sample.mem, Sample.boxA, Sample.box])).2
  exact ⟨_, Sample.collide_boxA_boxB, by simp⟩

omit [LinearOrderedField α] in
theorem mem_put (arbs : ArbiterMap α) (key : ArbiterKey) (v : Arbiter α)
    (x : ArbiterKey × Arbiter α) (h : x ∈ arbs.put key v) : x ∈ arbs ∨ x.2 = v := by
  induction arbs with
  | nil =>
    simp only [ArbiterMap.put, List.mem_singleton] at h
    subst h; exact Or.inr rfl
  | cons y ys ih =>
    obtain ⟨k, a⟩ := y
    simp only [ArbiterMap.put] at h
    split_ifs at h with hk
    · rcases List.mem_cons.mp h with h | h
      · subst h; exact Or.inr rfl
      · exact Or.inl (List.mem_cons_of_mem _ h)
    · rcases List.mem_cons.mp h with h | h
      · subst h; exact Or.inl (List.mem_cons_self _ _)
      · rcases ih h with h | h
        · exact Or.inl (List.mem_cons_of_mem _ h)
        · exact Or.inr h

omit [LinearOrderedField α] in
theorem get_mem (arbs : ArbiterMap α) (key : ArbiterKey) (a : Arbiter α)
    (h : arbs.get key = some a) : (key, a) ∈ arbs := by
  induction arbs with
  | nil => simp [ArbiterMap.get] at h
  | cons y ys ih =>
    obtain ⟨k, b⟩ := y
    simp only [ArbiterMap.get] at h
    split_ifs at h with hk
    · simp only [Option.some.injEq] at h
      subst h; subst hk; exact List.mem_cons_self _ _
    · exact List.mem_cons_of_mem _ (ih h)

theorem BroadPhase_pair_count (m : MathLib α) (g : Globals) (mem : BodyMem α)
    (arbs arbs1 : ArbiterMap α) (pr : Nat × Nat)
    (h : World.BroadPhase.pair m g mem arbs pr = some arbs1) (hc : CountOK arbs) :
    CountOK arbs1 := by
  unfold World.BroadPhase.pair at h
  simp only [] at h
  split_ifs at h with hst
  · simp only [Option.some.injEq] at h
    subst h; exact hc
  · simp only [Option.map_eq_some'] at h
    obtain ⟨cs, hcs, rfl⟩ := h
    obtain ⟨cs1, hcs1, hlen, -⟩ := Collide_forall m
      (mem (ArbiterKey.Set ⟨0, 0⟩ pr.1 pr.2).Body1) (mem (ArbiterKey.Set ⟨0, 0⟩ pr.1 pr.2).Body2)
      (fun _ => True) (fun _ _ _ _ => trivial)
    rw [hcs] at hcs1
    simp only [Option.some.injEq] at hcs1
    subst hcs1
    split_ifs with hpos
    · have hnew : ∀ v : Arbiter α, v.Contacts.length = cs.length →
          CountOK (arbs.put (ArbiterKey.Set ⟨0, 0⟩ pr.1 pr.2) v) := by
        intro v hv x hx
        rcases mem_put _ _ _ _ hx with hx | hx
        · exact hc x hx
        · rw [hx, hv]; exact ⟨hpos, hlen⟩
      split
      · apply hnew
        unfold Arbiter.Set
        rfl
      · apply hnew
        simp [Update_contacts]
    · intro x hx
      exact hc x (mem_delete _ _ x hx).1

omit [LinearOrderedField α] in
theorem forArbiters_count (sched : Schedule) (r : Nat)
    (f : Arbiter α → BodyMem α → Arbiter α × BodyMem α)
    (hf : ∀ a mem, (f a mem).1.Contacts.length = a.Contacts.length)
    (arbs : ArbiterMap α) (mem : BodyMem α) (hc : CountOK arbs) :
    CountOK (forArbiters sched r f arbs mem).1 := by
  unfold forArbiters
  apply foldl_inv (visitArbiter f) (fun s => CountOK s.1) _ _ _ hc
  intro s key hs
  unfold visitArbiter
  split
  · exact hs
  · rename_i arb harb
    intro x hx
    rcases mem_put _ _ _ _ hx with hx | hx
    · exact hs x hx
    · rw [hx, hf]
      exact hs _ (get_mem _ _ _ harb)

theorem iterate_count (sched : Schedule) (g : Globals) (joints : List Nat) (n i : Nat)
    (s : ArbiterMap α × Heap α) (hc : CountOK s.1) :
    CountOK (World.Step.iterate sched g joints n i s).1 := by
  induction n generalizing i s with
  | zero => exact hc
  | succ n ih =>
    unfold World.Step.iterate
    simp only []
    apply ih
    apply forArbiters_count
    · intro a mem
      simp [Arbiter.ApplyImpulse, forContacts_length]
    · exact hc

theorem Step_count (m : MathLib α) (g : Globals) (sched : Schedule) (w : World α) (h : Heap α)
    (dt : α) (r : World α × Heap α) (hstep : w.Step m g sched h dt = some r)
    (hc : CountOK w.Arbiters) : CountOK r.1.Arbiters := by
  unfold World.Step at hstep
  simp only [Option.bind_eq_some, Option.map_eq_some'] at hstep
  obtain ⟨w1, hb, h2, -, rfl⟩ := hstep
  simp only []
  apply iterate_count
  apply forArbiters_count
  · intro a mem
    simp [Arbiter.PreStep, forContacts_length]
  · unfold World.BroadPhase at hb
    simp only [Option.map_eq_some'] at hb
    obtain ⟨arbs, harbs, rfl⟩ := hb
    exact forM?_inv _ CountOK (fun s x s1 hs hI => BroadPhase_pair_count m g h.body s s1 x hs hI)
      _ _ _ harbs hc

/-- C10: in every world reached from `NewWorld` by any sequence of `AddBody`, `AddJoint`,
`Clear` and `Step`, every arbiter stored in the arbiter map holds at least 1 and at most
`MAX_POINTS = 2` contacts, although `Arbiter.Update` itself never truncates: it keeps as many
contacts as it is given. -/
theorem reachable_contact_count (m : MathLib α) (w : World α) (hr : Reachable m w) :
    (∀ x ∈ w.Arbiters, 1 ≤ x.2.Contacts.length ∧ x.2.Contacts.length ≤ MAX_POINTS) ∧
    MAX_POINTS = 2 ∧
    ∀ (g : Globals) (a : Arbiter α) (news : List (Contact α)),
      (a.Update g news).Contacts.length = news.length := by
  refine ⟨?_, rfl, fun g a news => by simp [Update_contacts]⟩
  induction hr with
  | new g i => intro x hx; simp [NewWorld] at hx
  | addBody w b _ ih => exact ih
  | addJoint w j _ ih => exact ih
  | clear w _ _ => intro x hx; simp [World.Clear] at hx
  | step w g sched h dt r _ hstep ih => exact Step_count m g sched w h dt r hstep ih

theorem reachable_contact_count_witness :
    ∃ r, Sample.world.Step Sample.math Globals.default Schedule.inOrder Sample.ground (1 / 60)
        = some r ∧ Reachable Sample.math r.1 ∧
      ∀ x ∈ r.1.Arbiters, 1 ≤ x.2.Contacts.length ∧ x.2.Contacts.length ≤ MAX_POINTS := by
  obtain ⟨r, hr⟩ := Step_some_of_no_joints Sample.math Globals.default Schedule.inOrder
    Sample.world Sample.ground (1 / 60) rfl
  have hreach : Reachable Sample.math r.1 :=
    Reachable.step Sample.world Globals.default Schedule.inOrder Sample.ground (1 / 60) r
      (Reachable.addBody _ 1 (Reachable.addBody _ 0 (Reachable.new ⟨0, -10⟩ 10))) hr
  exact ⟨r, hr, hreach, (reachable_contact_count Sample.math r.1 hreach).1⟩

end WorldTheorems

section PairTheorems

variable {α : Type} [LinearOrderedField α]

omit [LinearOrderedField α] in
theorem mem_put_key (arbs : ArbiterMap α) (key : ArbiterKey) (v : Arbiter α)
    (x : ArbiterKey × Arbiter α) (h : x ∈ arbs.put key v) : x ∈ arbs ∨ x = (key, v) := by
  induction arbs with
  | nil =>
    simp only [ArbiterMap.put, List.mem_singleton] at h
    exact Or.inr h
  | cons y ys ih =>
    obtain ⟨k, a⟩ := y
    simp only [ArbiterMap.put] at h
    split_ifs at h with hk
    · rcases List.mem_cons.mp h with h | h
      · subst hk; exact Or.inr h
      · exact Or.inl (List.mem_cons_of_mem _ h)
    · rcases List.mem_cons.mp h with h | h
      · subst h; exact Or.inl (List.mem_cons_self _ _)
      · rcases ih h with h | h
        · exact Or.inl (List.mem_cons_of_mem _ h)
        · exact Or.inr h

theorem Arbiter_Set_bodies (m : MathLib α) (mem : BodyMem α) (k : ArbiterKey) (arb : Arbiter α)
    (a b : Nat) (cs : List (Contact α)) :
    (arb.Set m mem a b cs).Body1 = (k.Set a b).Body1 ∧
    (arb.Set m mem a b cs).Body2 = (k.Set a b).Body2 := by
  unfold Arbiter.Set ArbiterKey.Set
  split_ifs <;> exact ⟨rfl, rfl⟩

theorem BroadPhase_pair_keyOrder (m : MathLib α) (g : Globals) (mem : BodyMem α)
    (arbs arbs1 : ArbiterMap α) (pr : Nat × Nat)
    (h : World.BroadPhase.pair m g mem arbs pr = some arbs1) (hk : KeyOrder arbs) :
    KeyOrder arbs1 := by
  unfold World.BroadPhase.pair at h
  simp only [] at h
  split_ifs at h with hst
  · simp only [Option.some.injEq] at h
    subst h; exact hk
  · simp only [Option.map_eq_some'] at h
    obtain ⟨cs, -, rfl⟩ := h
    split_ifs with hpos
    · split
      · intro x hx
        rcases mem_put_key _ _ _ _ hx with hx | hx
        · exact hk x hx
        · rw [hx]; exact Arbiter_Set_bodies m mem ⟨0, 0⟩ _ _ _ _
      · rename_i it hit
        intro x hx
        rcases mem_put_key _ _ _ _ hx with hx | hx
        · exact hk x hx
        · rw [hx]; exact hk (_, it) (get_mem _ _ _ hit)
    · intro x hx
      exact hk x (mem_delete _ _ x hx).1

omit [LinearOrderedField α] in
theorem forArbiters_keyOrder (sched : Schedule) (r : Nat)
    (f : Arbiter α → BodyMem α → Arbiter α × BodyMem α)
    (hf : ∀ a mem, (f a mem).1.Body1 = a.Body1 ∧ (f a mem).1.Body2 = a.Body2)
    (arbs : ArbiterMap α) (mem : BodyMem α) (hk : KeyOrder arbs) :
    KeyOrder (forArbiters sched r f arbs mem).1 := by
  unfold forArbiters
  apply foldl_inv (visitArbiter f) (fun s => KeyOrder s.1) _ _ _ hk
  intro s key hs
  unfold visitArbiter
  split
  · exact hs
  · rename_i arb harb
    intro x hx
    rcases mem_put_key _ _ _ _ hx with hx | hx
    · exact hs x hx
    · rw [hx]
      have h1 := hs _ (get_mem _ _ _ harb)
      have h2 := hf arb s.2
      exact ⟨h2.1.trans h1.1, h2.2.trans h1.2⟩

theorem iterate_keyOrder (sched : Schedule) (g : Globals) (joints : List Nat) (n i : Nat)
    (s : ArbiterMap α × Heap α) (hk : KeyOrder s.1) :
    KeyOrder (World.Step.iterate sched g joints n i s).1 := by
  induction n generalizing i s with
  | zero => exact hk
  | succ n ih =>
    unfold World.Step.iterate
    simp only []
    apply ih
    exact forArbiters_keyOrder sched _ _ (fun a mem => ⟨rfl, rfl⟩) _ _ hk

theorem Step_keyOrder (m : MathLib α) (g : Globals) (sched : Schedule) (w : World α)
    (h : Heap α) (dt : α) (r : World α × Heap α) (hstep : w.Step m g sched h dt = some r)
    (hk : KeyOrder w.Arbiters) : KeyOrder r.1.Arbiters := by
  unfold World.Step at hstep
  simp only [Option.bind_eq_some, Option.map_eq_some'] at hstep
  obtain ⟨w1, hb, h2, -, rfl⟩ := hstep
  simp only []
  apply iterate_keyOrder
  apply forArbiters_keyOrder sched _ _ (fun a mem => ⟨rfl, rfl⟩)
  unfold World.BroadPhase at hb
  simp only [Option.map_eq_some'] at hb
  obtain ⟨arbs, harbs, rfl⟩ := hb
  exact forM?_inv _ KeyOrder
    (fun s x s1 hs hI => BroadPhase_pair_keyOrder m g h.body s s1 x hs hI) _ _ _ harbs hk

/-- C11: canonical pair identity.  `ArbiterKey.Set(a, b)` and `ArbiterKey.Set(b, a)` produce
equal keys; `Arbiter.Set(a, b, contacts)` stores `(Body1, Body2)` in the order of the key; so
in every world reached through the API every arbiter stored under key `k` has
`Body1 = k.Body1` and `Body2 = k.Body2`, the order in which `Collide` computed its contacts. -/
theorem canonical_pair_identity (m : MathLib α) :
    (∀ (k k1 : ArbiterKey) (a b : Nat), k.Set a b = k1.Set b a) ∧
    (∀ (k : ArbiterKey) (mem : BodyMem α) (arb : Arbiter α) (a b : Nat)
        (cs : List (Contact α)),
      (arb.Set m mem a b cs).Body1 = (k.Set a b).Body1 ∧
      (arb.Set m mem a b cs).Body2 = (k.Set a b).Body2) ∧
    (∀ w : World α, Reachable m w →
      ∀ x ∈ w.Arbiters, x.2.Body1 = x.1.Body1 ∧ x.2.Body2 = x.1.Body2) := by
  refine ⟨?_, fun k mem arb a b cs => Arbiter_Set_bodies m mem k arb a b cs, ?_⟩
  · intro k k1 a b
    unfold ArbiterKey.Set
    rcases Nat.lt_trichotomy a b with h | h | h
    · simp [h, Nat.lt_asymm h]
    · subst h; simp
    · simp [h, Nat.lt_asymm h]
  · intro w hr
    induction hr with
    | new g i => intro x hx; simp [NewWorld] at hx
    | addBody w b _ ih => exact ih
    | addJoint w j _ ih => exact ih
    | clear w _ _ => intro x hx; simp [World.Clear] at hx
    | step w g sched h dt r _ hstep ih => exact Step_keyOrder m g sched w h dt r hstep ih

theorem canonical_pair_identity_witness :
    ∃ r, Sample.world.Step Sample.math Globals.default Schedule.inOrder Sample.ground (1 / 60)
        = some r ∧ Reachable Sample.math r.1 ∧
      ∀ x ∈ r.1.Arbiters, x.2.Body1 = x.1.Body1 ∧ x.2.Body2 = x.1.Body2 := by
  obtain ⟨r, hr⟩ := Step_some_of_no_joints Sample.math Globals.default Schedule.inOrder
    Sample.world Sample.ground (1 / 60) rfl
  have hreach : Reachable Sample.math r.1 :=
    Reachable.step Sample.world Globals.default Schedule.inOrder Sample.ground (1 / 60) r
      (Reachable.addBody _ 1 (Reachable.addBody _ 0 (Reachable.new ⟨0, -10⟩ 10))) hr
  exact ⟨r, hr, hreach, (canonical_pair_identity Sample.math).2.2 r.1 hreach⟩

end PairTheorems

section BodyTheorems

variable {α : Type} [LinearOrderedField α]

/-- C12: `Body.Set(w, m)`.  For a mass below the static threshold `math.MaxFloat64` it yields
`Mass = m`, `invMass = 1/m`, `I = m*(w.X^2 + w.Y^2)/12` and `invI = 1/I`; for a mass at the
threshold or above (the maximum representable double, or infinity) it yields a static body with
`invMass = 0` and `invI = 0`; in both cases position, rotation, velocity, angular velocity,
force and torque are reset to zero, `Friction` to `0.2`, and `Width` is `w`. -/
theorem Body_Set_inertia (ml : MathLib α) (b : Body α) (w : Vec2 α) (m : α) :
    (m < ml.MaxFloat64 →
      (b.Set ml w m).Mass = m ∧ (b.Set ml w m).invMass = 1 / m ∧
      (b.Set ml w m).I = m * (w.X ^ 2 + w.Y ^ 2) / 12 ∧
      (b.Set ml w m).invI = 1 / (b.Set ml w m).I) ∧
    (ml.MaxFloat64 ≤ m →
      (b.Set ml w m).Mass = m ∧ (b.Set ml w m).invMass = 0 ∧ (b.Set ml w m).invI = 0) ∧
    ((b.Set ml w m).Position = ⟨0, 0⟩ ∧ (b.Set ml w m).Rotation = 0 ∧
      (b.Set ml w m).Velocity = ⟨0, 0⟩ ∧ (b.Set ml w m).AngularVelocity = 0 ∧
      (b.Set ml w m).Force = ⟨0, 0⟩ ∧ (b.Set ml w m).Torque = 0 ∧
      (b.Set ml w m).Friction = 2 / 10 ∧ (b.Set ml w m).Width = w) := by
  refine ⟨?_, ?_, ?_⟩
  · intro h
    refine ⟨?_, ?_, ?_, ?_⟩
    · simp [Body.Set, h]
    · simp [Body.Set, h]
    · simp only [Body.Set, h, if_true]; ring
    · simp [Body.Set, h]
  · intro h
    have h1 : ¬ m < ml.MaxFloat64 := not_lt.mpr h
    refine ⟨?_, ?_, ?_⟩ <;> simp [Body.Set, h1]
  · unfold Body.Set
    simp only []
    split_ifs <;> exact ⟨rfl, rfl, rfl, rfl, rfl, rfl, rfl, rfl⟩

theorem Body_Set_inertia_witness :
    ((1 : ℚ) < Sample.math.MaxFloat64 ∧
      (Sample.boxA.Set Sample.math ⟨1, 1⟩ 1).invMass = 1 / 1 ∧
      (Sample.boxA.Set Sample.math ⟨1, 1⟩ 1).I = 1 * ((1 : ℚ) ^ 2 + 1 ^ 2) / 12) ∧
    (Sample.math.MaxFloat64 ≤ Sample.math.MaxFloat64 ∧
      (Sample.boxA.Set Sample.math ⟨100, 20⟩ Sample.math.MaxFloat64).invMass = 0 ∧
      (Sample.boxA.Set Sample.math ⟨100, 20⟩ Sample.math.MaxFloat64).invI = 0) := by
  have h1 : (1 : ℚ) < Sample.math.MaxFloat64 := by norm_num [Sample.math]
  have hd := (Body_Set_inertia Sample.math Sample.boxA ⟨1, 1⟩ 1).1 h1
  have hs := (Body_Set_inertia Sample.math Sample.boxA ⟨100, 20⟩ Sample.math.MaxFloat64).2.1
    (le_refl _)
  exact ⟨⟨h1, hd.2.1, hd.2.2.1⟩, le_refl _, hs.2.1, hs.2.2⟩

end BodyTheorems

section JointTheorems

variable {α : Type} [LinearOrderedField α]

omit [LinearOrderedField α] in
theorem forM?_none_iff {σ β : Type} (f : σ → β → Option σ) (I : σ → Prop) (fails : β → Prop)
    (hI : ∀ s x s1, f s x = some s1 → I s → I s1)
    (hf : ∀ s x, I s → (f s x = none ↔ fails x)) (xs : List β) (s : σ) (hs : I s) :
    forM? f xs s = none ↔ ∃ x ∈ xs, fails x := by
  induction xs generalizing s with
  | nil => simp [forM?]
  | cons x xs ih =>
    cases hx : f s x with
    | none =>
      simp only [forM?, hx, Option.none_bind, true_iff]
      exact ⟨x, List.mem_cons_self _ _, (hf s x hs).1 hx⟩
    | some s1 =>
      have hnf : ¬ fails x := fun h => by
        have := (hf s x hs).2 h
        rw [hx] at this
        exact Option.noConfusion this
      simp only [forM?, hx, Option.some_bind, ih s1 (hI s x s1 hx hs), List.mem_cons]
      constructor
      · rintro ⟨y, hy, hfy⟩; exact ⟨y, Or.inr hy, hfy⟩
      · rintro ⟨y, hy | hy, hfy⟩
        · subst hy; exact absurd hfy hnf
        · exact ⟨y, hy, hfy⟩

theorem Invert_none_iff (k : Mat22 α) : k.Invert = none ↔ k.det = 0 := by
  unfold Mat22.Invert Mat22.det
  simp only []
  split_ifs with h
  · simp [h]
  · simp [h]

/-- For a symmetric matrix, what `Mat22.Invert` returns is the inverse.  (For a matrix that is
not symmetric it returns the transpose of the inverse.) -/
theorem Invert_mul_of_symm (k M : Mat22 α) (hs : k.Col2.X = k.Col1.Y)
    (h : k.Invert = some M) : k.MulM M = ⟨⟨1, 0⟩, ⟨0, 1⟩⟩ := by
  unfold Mat22.Invert at h
  simp only [] at h
  split_ifs at h with hd
  simp only [Option.some.injEq] at h
  subst h
  simp only [Mat22.MulM, Mat22.MulV, Mat22.mk.injEq, Vec2.mk.injEq, hs]
  rw [hs] at hd
  refine ⟨⟨?_, ?_⟩, ?_, ?_⟩ <;> field_simp <;> ring

theorem Joint_K_symm (m : MathLib α) (j : Joint α) (mem : BodyMem α) :
    (Joint.K m j mem).Col2.X = (Joint.K m j mem).Col1.Y := by
  simp only [Joint.K, Joint.PreStep.K, Mat22.Add, Vec2.Add]

theorem Joint_PreStep_none_iff (m : MathLib α) (g : Globals) (j : Joint α) (inv_dt : α)
    (mem : BodyMem α) : j.PreStep m g inv_dt mem = none ↔ (Joint.K m j mem).det = 0 := by
  rw [← Invert_none_iff]
  unfold Joint.PreStep Joint.K Joint.PreStep.anchored
  simp only [Option.map_eq_none']

theorem Joint_PreStep_M (m : MathLib α) (g : Globals) (j : Joint α) (inv_dt : α)
    (mem : BodyMem α) (r : Joint α × BodyMem α) (h : j.PreStep m g inv_dt mem = some r) :
    (Joint.K m j mem).Invert = some r.1.M := by
  unfold Joint.PreStep at h
  simp only [Option.map_eq_some'] at h
  obtain ⟨M, hM, rfl⟩ := h
  unfold Joint.K Joint.PreStep.anchored
  simp only []
  rw [hM]
  split_ifs <;> rfl


theorem applyToBodies_sameRest (mem0 mem : BodyMem α) (b1 b2 : Nat) (r1 r2 P : Vec2 α)
    (h : SameRest mem0 mem) : SameRest mem0 (applyToBodies mem b1 b2 r1 r2 P) := by
  intro p
  unfold applyToBodies
  apply modify_keep (fun b => b.rest = (mem0 p).rest)
  · intro b hb; rw [← hb]; rfl
  apply modify_keep (fun b => b.rest = (mem0 p).rest)
  · intro b hb; rw [← hb]; rfl
  apply modify_keep (fun b => b.rest = (mem0 p).rest)
  · intro b hb; rw [← hb]; rfl
  apply modify_keep (fun b => b.rest = (mem0 p).rest)
  · intro b hb; rw [← hb]; rfl
  exact h p

theorem Arbiter_PreStep_sameRest (mem0 : BodyMem α) (g : Globals) (a : Arbiter α) (inv_dt : α)
    (mem : BodyMem α) (h : SameRest mem0 mem) : SameRest mem0 (a.PreStep g inv_dt mem).2 := by
  unfold Arbiter.PreStep
  simp only []
  apply forContacts_inv _ (SameRest mem0) _ _ _ h
  intro mem c hm
  unfold Arbiter.PreStep.contact
  cases hacc : g.accumulateImpulses
  · simp only [Bool.false_eq_true, if_false]
    exact hm
  · simp only [if_true]
    exact applyToBodies_sameRest mem0 mem _ _ _ _ _ hm

theorem Arbiter_ApplyImpulse_sameRest (mem0 : BodyMem α) (g : Globals) (a : Arbiter α)
    (mem : BodyMem α) (h : SameRest mem0 mem) : SameRest mem0 (a.ApplyImpulse g mem).2 := by
  unfold Arbiter.ApplyImpulse
  simp only []
  apply forContacts_inv _ (SameRest mem0) _ _ _ h
  intro mem c hm
  unfold Arbiter.ApplyImpulse.contact
  simp only []
  apply applyToBodies_sameRest
  apply applyToBodies_sameRest
  exact hm

theorem Joint_PreStep_sameRest (mem0 : BodyMem α) (m : MathLib α) (g : Globals) (j : Joint α)
    (inv_dt : α) (mem : BodyMem α) (r : Joint α × BodyMem α)
    (hr : j.PreStep m g inv_dt mem = some r) (h : SameRest mem0 mem) :
    SameRest mem0 r.2 ∧ r.1.rest = j.rest := by
  unfold Joint.PreStep at hr
  simp only [Option.map_eq_some'] at hr
  obtain ⟨M, -, rfl⟩ := hr
  constructor
  · split_ifs <;> first | exact h | exact applyToBodies_sameRest mem0 mem _ _ _ _ _ h
  · split_ifs <;> rfl

theorem integrateForces_sameRest (mem0 : BodyMem α) (w : World α) (dt : α) (mem : BodyMem α)
    (b : Nat) (h : SameRest mem0 mem) : SameRest mem0 (World.Step.integrateForces w dt mem b) := by
  intro p
  unfold World.Step.integrateForces
  split_ifs
  · exact h p
  · apply modify_keep (fun b => b.rest = (mem0 p).rest)
    · intro b hb; rw [← hb]; rfl
    apply modify_keep (fun b => b.rest = (mem0 p).rest)
    · intro b hb; rw [← hb]; rfl
    exact h p

theorem rest_fields (b c : Body α) (h : b.rest = c.rest) :
    b.Position = c.Position ∧ b.Rotation = c.Rotation ∧ b.invMass = c.invMass ∧
    b.invI = c.invI ∧ b.Force = c.Force ∧ b.Torque = c.Torque := by
  cases b; cases c
  simp only [Body.rest, Body.mk.injEq] at h
  simp only []
  tauto

/-- The matrix `K` of a joint only depends on what the solver never writes. -/
theorem Joint_K_congr (m : MathLib α) (j j1 : Joint α) (mem mem1 : BodyMem α)
    (hm : SameRest mem mem1) (hj : j1.rest = j.rest) : Joint.K m j1 mem1 = Joint.K m j mem := by
  have hj1 : j1.Body1 = j.Body1 ∧ j1.Body2 = j.Body2 ∧ j1.LocalAnchor1 = j.LocalAnchor1 ∧
      j1.LocalAnchor2 = j.LocalAnchor2 ∧ j1.Softness = j.Softness := by
    cases j; cases j1
    simp only [Joint.rest, Joint.mk.injEq] at hj
    simp only []
    tauto
  obtain ⟨e1, e2, e3, e4, e5⟩ := hj1
  have f1 := rest_fields _ _ (hm j.Body1)
  have f2 := rest_fields _ _ (hm j.Body2)
  simp only [Joint.K, Joint.PreStep.K, Joint.PreStep.anchored, e1, e2, e3, e4, e5, f1.2.1,
    f1.2.2.1, f1.2.2.2.1, f2.2.1, f2.2.2.1, f2.2.2.2.1]

/-- A step completes exactly when no listed joint has a singular `K` at the start. -/
theorem Step_none_iff (m : MathLib α) (g : Globals) (sched : Schedule) (w : World α)
    (h : Heap α) (dt : α) :
    w.Step m g sched h dt = none ↔
      ∃ jp ∈ w.Joints, (Joint.K m (h.joint jp) h.body).det = 0 := by
  obtain ⟨arbs, hb⟩ := BroadPhase_some m g w h.body
  unfold World.Step
  rw [hb]
  simp only [Option.some_bind, Option.map_eq_none']
  apply forM?_none_iff _
    (fun hp : Heap α => SameRest h.body hp.body ∧ ∀ q, (hp.joint q).rest = (h.joint q).rest)
  · intro s jp s1 hs1 hI
    unfold visitJoint at hs1
    simp only [Option.map_eq_some'] at hs1
    obtain ⟨x, hx, rfl⟩ := hs1
    obtain ⟨h1, h2⟩ := Joint_PreStep_sameRest h.body m g _ _ _ x hx hI.1
    refine ⟨h1, ?_⟩
    intro q
    by_cases hq : q = jp
    · subst hq; simp only [if_true]; rw [h2]; exact hI.2 q
    · simp only [hq, if_false]; exact hI.2 q
  · intro s jp hI
    unfold visitJoint
    simp only [Option.map_eq_none']
    rw [Joint_PreStep_none_iff, Joint_K_congr m (h.joint jp) (s.joint jp) h.body s.body hI.1
      (hI.2 jp)]
  · refine ⟨?_, fun q => rfl⟩
    apply forArbiters_inv sched 0 _ (SameRest h.body)
      (fun a mem hm => Arbiter_PreStep_sameRest h.body g a _ mem hm)
    apply foldl_inv _ (SameRest h.body)
    · intro mem b hm
      exact integrateForces_sameRest h.body _ dt mem b hm
    · intro p; rfl

/-- C13: singular joint.  `Joint.PreStep` fails (`Mat22.Invert` panics) exactly when the
determinant of `K = (invMass1+invMass2)*I2 + invI1*skew(r1) + invI2*skew(r2) + Softness*I2` is
zero, and `World.Step` fails to complete exactly when that happens for a listed joint; in
particular `PreStep` fails for every joint between two static bodies with `Softness = 0`; and
when the determinant is non-zero the stored `M` satisfies `K*M = identity`. -/
theorem singular_joint (m : MathLib α) (g : Globals) :
    (∀ (j : Joint α) (inv_dt : α) (mem : BodyMem α),
      j.PreStep m g inv_dt mem = none ↔ (Joint.K m j mem).det = 0) ∧
    (∀ (j : Joint α) (mem : BodyMem α),
      (Joint.K m j mem).Col1.X
        = (mem j.Body1).invMass + (mem j.Body2).invMass
          + (mem j.Body1).invI * (Joint.PreStep.anchored m j mem).R1.Y ^ 2
          + (mem j.Body2).invI * (Joint.PreStep.anchored m j mem).R2.Y ^ 2 + j.Softness ∧
      (Joint.K m j mem).Col2.Y
        = (mem j.Body1).invMass + (mem j.Body2).invMass
          + (mem j.Body1).invI * (Joint.PreStep.anchored m j mem).R1.X ^ 2
          + (mem j.Body2).invI * (Joint.PreStep.anchored m j mem).R2.X ^ 2 + j.Softness ∧
      (Joint.K m j mem).Col1.Y
        = -(mem j.Body1).invI * (Joint.PreStep.anchored m j mem).R1.X
            * (Joint.PreStep.anchored m j mem).R1.Y
          - (mem j.Body2).invI * (Joint.PreStep.anchored m j mem).R2.X
            * (Joint.PreStep.anchored m j mem).R2.Y ∧
      (Joint.K m j mem).Col2.X = (Joint.K m j mem).Col1.Y) ∧
    (∀ (j : Joint α) (inv_dt : α) (mem : BodyMem α),
      (mem j.Body1).invMass = 0 → (mem j.Body1).invI = 0 →
      (mem j.Body2).invMass = 0 → (mem j.Body2).invI = 0 → j.Softness = 0 →
      j.PreStep m g inv_dt mem = none) ∧
    (∀ (j : Joint α) (inv_dt : α) (mem : BodyMem α) (r : Joint α × BodyMem α),
      j.PreStep m g inv_dt mem = some r →
      (Joint.K m j mem).det ≠ 0 ∧ (Joint.K m j mem).MulM r.1.M = ⟨⟨1, 0⟩, ⟨0, 1⟩⟩) ∧
    (∀ (sched : Schedule) (w : World α) (h : Heap α) (dt : α),
      w.Step m g sched h dt = none ↔
        ∃ jp ∈ w.Joints, (Joint.K m (h.joint jp) h.body).det = 0) := by
  refine ⟨Joint_PreStep_none_iff m g, ?_, ?_, ?_, Step_none_iff m g⟩
  · intro j mem
    refine ⟨?_, ?_, ?_, Joint_K_symm m j mem⟩ <;>
      simp only [Joint.K, Joint.PreStep.K, Joint.PreStep.anchored, Mat22.Add, Vec2.Add] <;> ring
  · intro j inv_dt mem h1 h2 h3 h4 h5
    rw [Joint_PreStep_none_iff]
    simp [Joint.K, Joint.PreStep.K, Joint.PreStep.anchored, Mat22.Add, Vec2.Add, Mat22.det,
      h1, h2, h3, h4, h5]
  · intro j inv_dt mem r hr
    constructor
    · intro hd
      have := (Joint_PreStep_none_iff m g j inv_dt mem).2 hd
      rw [hr] at this
      exact Option.noConfusion this
    · exact Invert_mul_of_symm _ _ (Joint_K_symm m j mem) (Joint_PreStep_M m g j inv_dt mem r hr)

theorem singular_joint_witness :
    ((Sample.statics (Sample.ground.joint 0).Body1).invMass = 0 ∧
      (Sample.ground.joint 0).Softness = 0 ∧
      (Sample.ground.joint 0).PreStep Sample.math Globals.default 60 Sample.statics = none) ∧
    (∃ r, (Sample.ground.joint 0).PreStep Sample.math Globals.default 60 Sample.mem = some r ∧
      (Joint.K Sample.math (Sample.ground.joint 0) Sample.mem).MulM r.1.M = ⟨⟨1, 0⟩, ⟨0, 1⟩⟩) := by
  have hs := (singular_joint Sample.math Globals.default).2.2.1 (Sample.ground.joint 0) 60
    Sample.statics rfl rfl rfl rfl rfl
  have hd : (Joint.K Sample.math (Sample.ground.joint 0) Sample.mem).det ≠ 0 := by
    norm_num [Joint.K, Joint.PreStep.K, Joint.PreStep.anchored, Mat22.Add, Vec2.Add, Mat22.det,
      Sample.ground, Sample.mem, Sample.boxA, Sample.boxB, Sample.box, Sample.math,
      Mat22ByAngle, Mat22.MulV]
  cases hp : (Sample.ground.joint 0).PreStep Sample.math Globals.default 60 Sample.mem with
  | none =>
    exact absurd (((singular_joint Sample.math Globals.default).1 _ _ _).1 hp) hd
  | some r =>
    exact ⟨⟨rfl, rfl, hs⟩, r, rfl,
      (((singular_joint Sample.math Globals.default).2.2.2.1 _ _ _ r hp)).2⟩

end JointTheorems

section AnchorTheorems

variable {α : Type} [LinearOrderedField α]

/-- A rotation matrix times its transpose is the identity. -/
theorem rot_mul_transpose (m : MathLib α) (hm : m.Pythagorean) (angle : α) (v : Vec2 α) :
    (Mat22ByAngle m angle).MulV ((Mat22ByAngle m angle).Transpose.MulV v) = v := by
  have h := hm angle
  cases v with
  | mk x y =>
    simp only [Mat22ByAngle, Mat22.Transpose, Mat22.MulV, Vec2.mk.injEq]
    constructor
    · linear_combination x * h
    · linear_combination y * h

theorem add_sub_cancel_vec (p a : Vec2 α) : p.Add (a.Sub p) = a := by
  cases p; cases a
  simp [Vec2.Add, Vec2.Sub]

/-- C14: `Joint.Set` anchor round trip.  After `Joint.Set(b1, b2, p)` each local anchor maps
back to the world anchor, `b_i.Position + Rot(b_i.Rotation) * LocalAnchor_i = p`, so the
constraint error `p2 - p1` that `Joint.PreStep` would compute at these poses is zero; `Set` also
stores the two bodies and resets `P` to zero, `Softness` to `0.0` and `BiasFactor` to `0.2`. -/
theorem Joint_Set_round_trip (m : MathLib α) (hm : m.Pythagorean) (mem : BodyMem α)
    (j : Joint α) (b1 b2 : Nat) (anchor : Vec2 α) :
    (mem b1).Position.Add
        ((Mat22ByAngle m (mem b1).Rotation).MulV (j.Set m mem b1 b2 anchor).LocalAnchor1)
      = anchor ∧
    (mem b2).Position.Add
        ((Mat22ByAngle m (mem b2).Rotation).MulV (j.Set m mem b1 b2 anchor).LocalAnchor2)
      = anchor ∧
    ((mem (j.Set m mem b1 b2 anchor).Body2).Position.Add
        (Joint.PreStep.anchored m (j.Set m mem b1 b2 anchor) mem).R2).Sub
      ((mem (j.Set m mem b1 b2 anchor).Body1).Position.Add
        (Joint.PreStep.anchored m (j.Set m mem b1 b2 anchor) mem).R1) = ⟨0, 0⟩ ∧
    (j.Set m mem b1 b2 anchor).Body1 = b1 ∧ (j.Set m mem b1 b2 anchor).Body2 = b2 ∧
    (j.Set m mem b1 b2 anchor).P = ⟨0, 0⟩ ∧ (j.Set m mem b1 b2 anchor).Softness = 0 ∧
    (j.Set m mem b1 b2 anchor).BiasFactor = 2 / 10 := by
  have h1 : (mem b1).Position.Add
      ((Mat22ByAngle m (mem b1).Rotation).MulV (j.Set m mem b1 b2 anchor).LocalAnchor1)
      = anchor := by
    simp only [Joint.Set]
    rw [rot_mul_transpose m hm, add_sub_cancel_vec]
  have h2 : (mem b2).Position.Add
      ((Mat22ByAngle m (mem b2).Rotation).MulV (j.Set m mem b1 b2 anchor).LocalAnchor2)
      = anchor := by
    simp only [Joint.Set]
    rw [rot_mul_transpose m hm, add_sub_cancel_vec]
  refine ⟨h1, h2, ?_, rfl, rfl, rfl, rfl, rfl⟩
  have e1 : (j.Set m mem b1 b2 anchor).Body1 = b1 := rfl
  have e2 : (j.Set m mem b1 b2 anchor).Body2 = b2 := rfl
  simp only [Joint.PreStep.anchored, e1, e2]
  rw [h1, h2]
  simp [Vec2.Sub]

theorem Sample.math_pythagorean : Sample.math.Pythagorean := by
  intro x
  simp only [Sample.math]
  have h : (1 : ℚ) + x ^ 2 ≠ 0 := by positivity
  field_simp
  ring

theorem Joint_Set_round_trip_witness :
    Sample.math.Pythagorean ∧
    (Sample.mem 1).Position.Add
        ((Mat22ByAngle Sample.math (Sample.mem 1).Rotation).MulV
          ((Sample.ground.joint 0).Set Sample.math Sample.mem 0 1 ⟨0, 11⟩).LocalAnchor2)
      = ⟨0, 11⟩ :=
  ⟨Sample.math_pythagorean,
    (Joint_Set_round_trip Sample.math Sample.math_pythagorean Sample.mem (Sample.ground.joint 0)
      0 1 ⟨0, 11⟩).2.1⟩

end AnchorTheorems

section FrictionTheorems

variable {α : Type} [LinearOrderedField α]

omit [LinearOrderedField α] in
theorem forContacts_inv_mem (f : BodyMem α → Contact α → Contact α × BodyMem α)
    (I : BodyMem α → Prop) (cs : List (Contact α))
    (hf : ∀ mem c, c ∈ cs → I mem → I (f mem c).2)
    (mem : BodyMem α) (h : I mem) : I (forContacts f cs mem).2 := by
  induction cs generalizing mem with
  | nil => exact h
  | cons x xs ih =>
    exact ih (fun mem c hc => hf mem c (List.mem_cons_of_mem _ hc)) _
      (hf mem x (List.mem_cons_self _ _) h)

omit [LinearOrderedField α] in
theorem forContacts_forall_mem (f : BodyMem α → Contact α → Contact α × BodyMem α)
    (Q : Contact α → Prop) (cs : List (Contact α))
    (hf : ∀ mem c, c ∈ cs → Q (f mem c).1)
    (mem : BodyMem α) : ∀ c ∈ (forContacts f cs mem).1, Q c := by
  induction cs generalizing mem with
  | nil => intro c hc; simp [forContacts] at hc
  | cons x xs ih =>
    intro c hc
    simp only [forContacts, List.mem_cons] at hc
    rcases hc with hc | hc
    · rw [hc]; exact hf mem x (List.mem_cons_self _ _)
    · exact ih (fun mem c hc => hf mem c (List.mem_cons_of_mem _ hc)) _ c hc

theorem dot_normal_tangent (n : Vec2 α) : Dot n (CrossVS n 1) = 0 := by
  simp only [Dot, CrossVS]; ring

/-- An impulse with no component along `t` leaves the component of every velocity along `t`
as it is. -/
theorem applyToBodies_tangent (t : Vec2 α) (mem : BodyMem α) (b1 b2 : Nat) (r1 r2 P : Vec2 α)
    (hP : Dot P t = 0) (p : Nat) :
    Dot ((applyToBodies mem b1 b2 r1 r2 P) p).Velocity t = Dot (mem p).Velocity t := by
  have hsub : ∀ (v : Vec2 α) (k : α), Dot (v.Sub (MulSV k P)) t = Dot v t := by
    intro v k
    have : Dot (v.Sub (MulSV k P)) t = Dot v t - k * Dot P t := by
      simp only [Dot, Vec2.Sub, MulSV]; ring
    rw [this, hP]; ring
  have hadd : ∀ (v : Vec2 α) (k : α), Dot (v.Add (MulSV k P)) t = Dot v t := by
    intro v k
    have : Dot (v.Add (MulSV k P)) t = Dot v t + k * Dot P t := by
      simp only [Dot, Vec2.Add, MulSV]; ring
    rw [this, hP]; ring
  unfold applyToBodies
  apply modify_keep (fun b => Dot b.Velocity t = Dot (mem p).Velocity t)
  · intro b hb; exact hb
  apply modify_keep (fun b => Dot b.Velocity t = Dot (mem p).Velocity t)
  · intro b hb; show Dot (b.Velocity.Add _) t = _; rw [hadd]; exact hb
  apply modify_keep (fun b => Dot b.Velocity t = Dot (mem p).Velocity t)
  · intro b hb; exact hb
  apply modify_keep (fun b => Dot b.Velocity t = Dot (mem p).Velocity t)
  · intro b hb; show Dot (b.Velocity.Sub _) t = _; rw [hsub]; exact hb
  rfl

theorem Clamp_zero (x y : α) : Clamp x (-(0 * y)) (0 * y) = 0 := by
  unfold Clamp
  simp only [zero_mul, neg_zero]
  exact max_eq_left (min_le_right _ _)

theorem PreStep_contact_tangent (g : Globals) (a : Arbiter α) (inv_dt kp kb : α)
    (mem : BodyMem α) (c : Contact α) (hpt : c.Pt = 0) (p : Nat) :
    (Arbiter.PreStep.contact g a inv_dt kp kb mem c).1.Pt = 0 ∧
    (Arbiter.PreStep.contact g a inv_dt kp kb mem c).1.Normal = c.Normal ∧
    Dot ((Arbiter.PreStep.contact g a inv_dt kp kb mem c).2 p).Velocity (CrossVS c.Normal 1)
      = Dot (mem p).Velocity (CrossVS c.Normal 1) := by
  unfold Arbiter.PreStep.contact
  cases hacc : g.accumulateImpulses
  · simp only [Bool.false_eq_true, if_false]
    exact ⟨hpt, trivial, trivial⟩
  · simp only [if_true]
    refine ⟨hpt, trivial, ?_⟩
    apply applyToBodies_tangent
    have : Dot ((MulSV c.Pn c.Normal).Add (MulSV c.Pt (CrossVS c.Normal 1)))
        (CrossVS c.Normal 1) = c.Pn * Dot c.Normal (CrossVS c.Normal 1)
          + c.Pt * Dot (CrossVS c.Normal 1) (CrossVS c.Normal 1) := by
      simp only [Dot, Vec2.Add, MulSV]; ring
    rw [this, hpt, dot_normal_tangent]; ring

theorem ApplyImpulse_contact_tangent (g : Globals) (hacc : g.accumulateImpulses = true)
    (a : Arbiter α) (hfr : a.Friction = 0) (mem : BodyMem α) (c : Contact α) (hpt : c.Pt = 0)
    (p : Nat) :
    (Arbiter.ApplyImpulse.contact g a mem c).1.Pt = 0 ∧
    (Arbiter.ApplyImpulse.contact g a mem c).1.Normal = c.Normal ∧
    Dot ((Arbiter.ApplyImpulse.contact g a mem c).2 p).Velocity (CrossVS c.Normal 1)
      = Dot (mem p).Velocity (CrossVS c.Normal 1) := by
  unfold Arbiter.ApplyImpulse.contact
  simp only [hacc, if_true, hfr, hpt, zero_add, Clamp_zero, sub_zero]
  refine ⟨trivial, trivial, ?_⟩
  rw [applyToBodies_tangent, applyToBodies_tangent]
  · simp only [Dot, MulSV, CrossVS]; ring
  · simp only [Dot, MulSV]; ring

/-- C15: frictionless sliding.  For an arbiter with combined `Friction = 0`
(`accumulateImpulses` on) whose contacts have `Pt = 0`, `Arbiter.PreStep` and
`Arbiter.ApplyImpulse` apply no tangential impulse: every contact keeps `Pt = 0`, and handling
a contact leaves the component of every body's linear velocity along that contact's tangent
`Cross(Normal, 1)` unchanged (the velocity changes along the normal only); so for an arbiter
whose contacts share one normal, as `Collide` produces them, the tangential velocity of each
body is the same before and after `PreStep` and `ApplyImpulse`. -/
theorem frictionless_sliding (g : Globals) (a : Arbiter α) (inv_dt : α) (mem : BodyMem α)
    (hacc : g.accumulateImpulses = true) (hfr : a.Friction = 0)
    (hpt : ∀ c ∈ a.Contacts, c.Pt = 0) :
    (∀ c ∈ (a.PreStep g inv_dt mem).1.Contacts, c.Pt = 0) ∧
    (∀ c ∈ (a.ApplyImpulse g mem).1.Contacts, c.Pt = 0) ∧
    (∀ c ∈ a.Contacts, ∀ (mem1 : BodyMem α) (kp kb : α) (p : Nat),
      Dot ((Arbiter.PreStep.contact g a inv_dt kp kb mem1 c).2 p).Velocity (CrossVS c.Normal 1)
        = Dot (mem1 p).Velocity (CrossVS c.Normal 1) ∧
      Dot ((Arbiter.ApplyImpulse.contact g a mem1 c).2 p).Velocity (CrossVS c.Normal 1)
        = Dot (mem1 p).Velocity (CrossVS c.Normal 1)) ∧
    (∀ n : Vec2 α, (∀ c ∈ a.Contacts, c.Normal = n) → ∀ p : Nat,
      Dot ((a.PreStep g inv_dt mem).2 p).Velocity (CrossVS n 1)
        = Dot (mem p).Velocity (CrossVS n 1) ∧
      Dot ((a.ApplyImpulse g mem).2 p).Velocity (CrossVS n 1)
        = Dot (mem p).Velocity (CrossVS n 1)) := by
  refine ⟨?_, ?_, ?_, ?_⟩
  · unfold Arbiter.PreStep
    simp only []
    apply forContacts_forall_mem
    intro mem1 c hc
    exact (PreStep_contact_tangent g a inv_dt _ _ mem1 c (hpt c hc) 0).1
  · unfold Arbiter.ApplyImpulse
    simp only []
    apply forContacts_forall_mem
    intro mem1 c hc
    exact (ApplyImpulse_contact_tangent g hacc a hfr mem1 c (hpt c hc) 0).1
  · intro c hc mem1 kp kb p
    exact ⟨(PreStep_contact_tangent g a inv_dt kp kb mem1 c (hpt c hc) p).2.2,
      (ApplyImpulse_contact_tangent g hacc a hfr mem1 c (hpt c hc) p).2.2⟩
  · intro n hn p
    constructor
    · unfold Arbiter.PreStep
      simp only []
      apply forContacts_inv_mem _
        (fun mem1 => Dot (mem1 p).Velocity (CrossVS n 1) = Dot (mem p).Velocity (CrossVS n 1))
      · intro mem1 c hc h1
        have h2 := (PreStep_contact_tangent g a inv_dt (1 / 100)
          (if g.positionCorrection = true then 2 / 10 else 0) mem1 c (hpt c hc) p).2.2
        rw [hn c hc] at h2
        exact h2.trans h1
      · rfl
    · unfold Arbiter.ApplyImpulse
      simp only []
      apply forContacts_inv_mem _
        (fun mem1 => Dot (mem1 p).Velocity (CrossVS n 1) = Dot (mem p).Velocity (CrossVS n 1))
      · intro mem1 c hc h1
        have h2 := (ApplyImpulse_contact_tangent g hacc a hfr mem1 c (hpt c hc) p).2.2
        rw [hn c hc] at h2
        exact h2.trans h1
      · rfl

theorem frictionless_sliding_witness :
    Globals.default.accumulateImpulses = true ∧ Sample.slippery.Friction = 0 ∧
    (∀ c ∈ Sample.slippery.Contacts, c.Pt = 0) ∧
    (∀ c ∈ Sample.slippery.Contacts, c.Normal = ⟨1, 0⟩) ∧
    (∀ c ∈ (Sample.slippery.ApplyImpulse Globals.default Sample.mem).1.Contacts, c.Pt = 0) ∧
    Dot ((Sample.slippery.ApplyImpulse Globals.default Sample.mem).2 1).Velocity
        (CrossVS ⟨1, 0⟩ 1)
      = Dot (Sample.mem 1).Velocity (CrossVS ⟨1, 0⟩ 1) := by
  have hpt : ∀ c ∈ Sample.slippery.Contacts, c.Pt = 0 := by
    intro c hc
    simp only [Sample.slippery, List.mem_cons, List.mem_singleton, List.not_mem_nil,
      or_false] at hc
    rcases hc with rfl | rfl <;> rfl
  have hn : ∀ c ∈ Sample.slippery.Contacts, c.Normal = ⟨1, 0⟩ := by
    intro c hc
    simp only [Sample.slippery, List.mem_cons, List.mem_singleton, List.not_mem_nil,
      or_false] at hc
    rcases hc with rfl | rfl <;> rfl
  have h := frictionless_sliding Globals.default Sample.slippery 60 Sample.mem rfl rfl hpt
  exact ⟨rfl, rfl, hpt, hn, h.2.1, (h.2.2.2 ⟨1, 0⟩ hn 1).2⟩

end FrictionTheorems

section ClipTheorems

variable {α : Type} [LinearOrderedField α]

/-- C16 (as amended): when the two input vertices of `ClipSegmentToLine` lie strictly on
opposite sides of the clip line, the output is the input vertex behind the line followed by
the interpolated vertex, and the interpolated vertex takes its `FeaturePair` from the input
vertex in front of the line (the one that is clipped away): from `vIn[0]` with `InEdge1`
rewritten to `clipEdge` and `InEdge2` set to `NO_EDGE` when `vIn[0]` is in front, from `vIn[1]`
with `OutEdge1` rewritten to `clipEdge` and `OutEdge2` set to `NO_EDGE` when `vIn[1]` is. -/
theorem clip_feature_inheritance (vOut vIn : ClipPair α) (normal : Vec2 α) (offset : α)
    (clipEdge : EdgeNumbers) :
    (0 < Dot normal vIn.1.v - offset → Dot normal vIn.2.v - offset < 0 →
      ClipSegmentToLine vOut vIn normal offset clipEdge
        = some ((vIn.2,
            ⟨vIn.1.v.Add (MulSV ((Dot normal vIn.1.v - offset)
              / ((Dot normal vIn.1.v - offset) - (Dot normal vIn.2.v - offset)))
              (vIn.2.v.Sub vIn.1.v)),
              { vIn.1.fp with InEdge1 := clipEdge, InEdge2 := NO_EDGE }⟩), 2)) ∧
    (Dot normal vIn.1.v - offset < 0 → 0 < Dot normal vIn.2.v - offset →
      ClipSegmentToLine vOut vIn normal offset clipEdge
        = some ((vIn.1,
            ⟨vIn.1.v.Add (MulSV ((Dot normal vIn.1.v - offset)
              / ((Dot normal vIn.1.v - offset) - (Dot normal vIn.2.v - offset)))
              (vIn.2.v.Sub vIn.1.v)),
              { vIn.2.fp with OutEdge1 := clipEdge, OutEdge2 := NO_EDGE }⟩), 2)) := by
  constructor
  · intro h0 h1
    have hp : (Dot normal vIn.1.v - offset) * (Dot normal vIn.2.v - offset) < 0 :=
      mul_neg_of_pos_of_neg h0 h1
    unfold ClipSegmentToLine
    simp only [not_le.mpr h0, le_of_lt h1, hp, h0, if_true, if_false, ClipPair.set,
      Option.some_bind, Option.map_some', gt_iff_lt]
  · intro h0 h1
    have hp : (Dot normal vIn.1.v - offset) * (Dot normal vIn.2.v - offset) < 0 :=
      mul_neg_of_neg_of_pos h0 h1
    unfold ClipSegmentToLine
    simp only [not_le.mpr h1, le_of_lt h0, hp, not_lt.mpr (le_of_lt h0), if_true, if_false,
      ClipPair.set, Option.some_bind, Option.map_some', gt_iff_lt]

theorem clip_feature_inheritance_witness :
    0 < Dot (⟨1, 0⟩ : Vec2 ℚ) Sample.segment.1.v - 0 ∧
    Dot (⟨1, 0⟩ : Vec2 ℚ) Sample.segment.2.v - 0 < 0 ∧
    ∃ p, ClipSegmentToLine (ClipVertex.zero, ClipVertex.zero) Sample.segment ⟨1, 0⟩ 0 EDGE3
      = some ((Sample.segment.2,
          ⟨p, { Sample.segment.1.fp with InEdge1 := EDGE3, InEdge2 := NO_EDGE }⟩), 2) := by
  have h0 : 0 < Dot (⟨1, 0⟩ : Vec2 ℚ) Sample.segment.1.v - 0 := by
    norm_num [Dot, Sample.segment]
  have h1 : Dot (⟨1, 0⟩ : Vec2 ℚ) Sample.segment.2.v - 0 < 0 := by
    norm_num [Dot, Sample.segment]
  exact ⟨h0, h1, _, (clip_feature_inheritance (ClipVertex.zero, ClipVertex.zero) Sample.segment
    ⟨1, 0⟩ 0 EDGE3).1 h0 h1⟩

/-- C16, counterexample: the segment from `(1, 0)` (in front of the line `x = 0`, tags
`EDGE1, EDGE2`) to `(-1, 0)` (behind it, tags `EDGE2, EDGE3`), clipped with `clipEdge = EDGE3`:
the interpolated vertex carries `(EDGE3, NO_EDGE, NO_EDGE, EDGE2)`, made from the tags of the
vertex in front; it is neither of the feature pairs that can be made from the surviving vertex
behind the line. -/
theorem clip_feature_from_clipped_vertex :
    0 < Dot (⟨1, 0⟩ : Vec2 ℚ) Sample.segment.1.v - 0 ∧
    Dot (⟨1, 0⟩ : Vec2 ℚ) Sample.segment.2.v - 0 < 0 ∧
    ∃ q : ClipVertex ℚ,
      ClipSegmentToLine (ClipVertex.zero, ClipVertex.zero) Sample.segment ⟨1, 0⟩ 0 EDGE3
        = some ((Sample.segment.2, q), 2) ∧
      q.fp = ⟨EDGE3, NO_EDGE, NO_EDGE, EDGE2⟩ ∧
      q.fp ≠ { Sample.segment.2.fp with InEdge1 := EDGE3, InEdge2 := NO_EDGE } ∧
      q.fp ≠ { Sample.segment.2.fp with OutEdge1 := EDGE3, OutEdge2 := NO_EDGE } := by
  refine ⟨by norm_num [Dot, Sample.segment], by norm_num [Dot, Sample.segment],
    ⟨⟨0, 0⟩, ⟨EDGE3, NO_EDGE, NO_EDGE, EDGE2⟩⟩, ?_, rfl, by decide, by decide⟩
  norm_num [ClipSegmentToLine, Sample.segment, Dot, ClipPair.set, Vec2.Add, Vec2.Sub, MulSV,
    NO_EDGE, EDGE1, EDGE2, EDGE3]

end ClipTheorems

section FaceTheorems

variable {α : Type} [LinearOrderedField α]

theorem emit_eq (axis : Axis) (normal frontNormal : Vec2 α) (front : α)
    (cs : List (Contact α)) (cv : ClipVertex α) :
    Collide.emit axis normal frontNormal front cs cv
      = if Dot frontNormal cv.v - front ≤ 0 then
          cs ++ [Collide.contactAt axis normal frontNormal front cv]
        else cs := by
  unfold Collide.emit Collide.contactAt
  simp only []
  split_ifs <;> rfl

theorem mem_emit (axis : Axis) (normal frontNormal : Vec2 α) (front : α)
    (cs : List (Contact α)) (cv : ClipVertex α) (c : Contact α)
    (h : c ∈ Collide.emit axis normal frontNormal front cs cv) :
    c ∈ cs ∨ (Dot frontNormal cv.v - front ≤ 0 ∧
      c = Collide.contactAt axis normal frontNormal front cv) := by
  rw [emit_eq] at h
  split_ifs at h with h1
  · rcases List.mem_append.mp h with h | h
    · exact Or.inl h
    · exact Or.inr ⟨h1, List.mem_singleton.mp h⟩
  · exact Or.inl h

/-- Every contact `Collide` returns is built from a clipped point behind the front plane. -/
theorem Collide_contactAt (m : MathLib α) (A B : Body α) (Q : Contact α → Prop)
    (hQ : ∀ cv : ClipVertex α,
      Dot (Collide.setup m A B).frontNormal cv.v - (Collide.setup m A B).front ≤ 0 →
      Q (Collide.contactAt (Collide.best m A B).axis (Collide.best m A B).normal
        (Collide.setup m A B).frontNormal (Collide.setup m A B).front cv)) :
    ∃ cs, Collide m A B = some cs ∧ ∀ c ∈ cs, Q c := by
  apply Collide_cases m A B (fun o => ∃ cs, o = some cs ∧ ∀ c ∈ cs, Q c)
  · exact ⟨[], rfl, by simp⟩
  · intro p q
    refine ⟨_, rfl, ?_⟩
    simp only [List.foldl]
    intro c hc
    rcases mem_emit _ _ _ _ _ _ _ hc with hc | ⟨h2, rfl⟩
    · rcases mem_emit _ _ _ _ _ _ _ hc with hc | ⟨h1, rfl⟩
      · simp at hc
      · exact hQ p h1
    · exact hQ q h2

/-- Induction principle for the axis selection: the result is one of the four axes with the
matching column of the rotation matrix, or its negative, as normal. -/
theorem bestAxis_ind (RotA RotB : Mat22 α) (hA hB dA dB faceA faceB : Vec2 α)
    (P : BestAxis α → Prop)
    (hP : ∀ (a : Axis) (sep : α) (col : Vec2 α),
      (a = FACE_A_X ∧ col = RotA.Col1 ∨ a = FACE_A_Y ∧ col = RotA.Col2 ∨
        a = FACE_B_X ∧ col = RotB.Col1 ∨ a = FACE_B_Y ∧ col = RotB.Col2) →
      P ⟨a, sep, col⟩ ∧ P ⟨a, sep, col.Negative⟩) :
    P (Collide.bestAxis RotA RotB hA hB dA dB faceA faceB) := by
  have key : ∀ (c : Prop) [Decidable c] (a : Axis) (sep : α) (col : Vec2 α),
      (a = FACE_A_X ∧ col = RotA.Col1 ∨ a = FACE_A_Y ∧ col = RotA.Col2 ∨
        a = FACE_B_X ∧ col = RotB.Col1 ∨ a = FACE_B_Y ∧ col = RotB.Col2) →
      P ⟨a, sep, if c then col else col.Negative⟩ := by
    intro c _ a sep col h
    split_ifs
    · exact (hP a sep col h).1
    · exact (hP a sep col h).2
  have step : ∀ (c : Prop) [Decidable c] (x s : BestAxis α), P x → P s →
      P (if c then x else s) := by
    intro c _ x s hx hs
    split_ifs
    · exact hx
    · exact hs
  unfold Collide.bestAxis
  simp only []
  apply step _ _ _ (key _ _ _ _ (Or.inr (Or.inr (Or.inr ⟨rfl, rfl⟩))))
  apply step _ _ _ (key _ _ _ _ (Or.inr (Or.inr (Or.inl ⟨rfl, rfl⟩))))
  apply step _ _ _ (key _ _ _ _ (Or.inr (Or.inl ⟨rfl, rfl⟩)))
  exact key _ _ _ _ (Or.inl ⟨rfl, rfl⟩)

theorem rot_cols_unit (m : MathLib α) (hm : m.Pythagorean) (angle : α) :
    Dot (Mat22ByAngle m angle).Col1 (Mat22ByAngle m angle).Col1 = 1 ∧
    Dot (Mat22ByAngle m angle).Col2 (Mat22ByAngle m angle).Col2 = 1 := by
  have h := hm angle
  simp only [Mat22ByAngle, Dot]
  constructor
  · linear_combination h
  · linear_combination h

theorem dot_negative (v : Vec2 α) : Dot v.Negative v.Negative = Dot v v := by
  simp only [Dot, Vec2.Negative]; ring

/-- The selected normal and the front normal are unit vectors; the front normal is the normal
for a face of A and its negative for a face of B. -/
theorem best_unit (m : MathLib α) (hm : m.Pythagorean) (A B : Body α) :
    Dot (Collide.best m A B).normal (Collide.best m A B).normal = 1 ∧
    Dot (Collide.setup m A B).frontNormal (Collide.setup m A B).frontNormal = 1 := by
  unfold Collide.setup
  simp only []
  unfold Collide.best
  simp only []
  apply bestAxis_ind _ _ _ _ _ _ _ _ (fun s =>
    Dot s.normal s.normal = 1 ∧
    Dot (Collide.clipSetup s.axis s.normal (Mat22ByAngle m A.Rotation)
        (Mat22ByAngle m B.Rotation) (MulSV (1 / 2) A.Width) (MulSV (1 / 2) B.Width)
        A.Position B.Position).frontNormal
      (Collide.clipSetup s.axis s.normal (Mat22ByAngle m A.Rotation)
        (Mat22ByAngle m B.Rotation) (MulSV (1 / 2) A.Width) (MulSV (1 / 2) B.Width)
        A.Position B.Position).frontNormal = 1)
  intro a sep col h
  have hA := rot_cols_unit m hm A.Rotation
  have hB := rot_cols_unit m hm B.Rotation
  have hcol : Dot col col = 1 := by
    rcases h with ⟨-, rfl⟩ | ⟨-, rfl⟩ | ⟨-, rfl⟩ | ⟨-, rfl⟩
    · exact hA.1
    · exact hA.2
    · exact hB.1
    · exact hB.2
  have hneg : Dot col.Negative col.Negative = 1 := by rw [dot_negative]; exact hcol
  rcases h with ⟨rfl, -⟩ | ⟨rfl, -⟩ | ⟨rfl, -⟩ | ⟨rfl, -⟩ <;>
    simp only [Collide.clipSetup, FACE_A_X, FACE_A_Y, FACE_B_X, FACE_B_Y, dot_negative, hcol,
      and_self]

theorem setup_front (m : MathLib α) (A B : Body α) :
    ((Collide.best m A B).axis = FACE_A_X →
      (Collide.setup m A B).frontNormal = (Collide.best m A B).normal ∧
      (Collide.setup m A B).front
        = Dot A.Position (Collide.setup m A B).frontNormal + (MulSV (1 / 2) A.Width).X) ∧
    ((Collide.best m A B).axis = FACE_A_Y →
      (Collide.setup m A B).frontNormal = (Collide.best m A B).normal ∧
      (Collide.setup m A B).front
        = Dot A.Position (Collide.setup m A B).frontNormal + (MulSV (1 / 2) A.Width).Y) ∧
    ((Collide.best m A B).axis = FACE_B_X →
      (Collide.setup m A B).frontNormal = (Collide.best m A B).normal.Negative ∧
      (Collide.setup m A B).front
        = Dot B.Position (Collide.setup m A B).frontNormal + (MulSV (1 / 2) B.Width).X) ∧
    ((Collide.best m A B).axis = FACE_B_Y →
      (Collide.setup m A B).frontNormal = (Collide.best m A B).normal.Negative ∧
      (Collide.setup m A B).front
        = Dot B.Position (Collide.setup m A B).frontNormal + (MulSV (1 / 2) B.Width).Y) := by
  refine ⟨?_, ?_, ?_, ?_⟩ <;> intro h <;> unfold Collide.setup <;>
    simp only [h, Collide.clipSetup, FACE_A_X, FACE_A_Y, FACE_B_X, FACE_B_Y, and_self]

/-- C17: every contact returned by `Collide` has its `Position` slid onto the reference face,
`Dot(frontNormal, c.Position) = front`, where `frontNormal` and `front` are the outward normal
and the offset of the reference face selected by the separating-axis test:
`front = Dot(refPos, frontNormal) + ` the reference half extent along the axis, and
`frontNormal` is the contact normal for a face of A and its negative for a face of B. -/
theorem Collide_position_on_reference_face (m : MathLib α) (hm : m.Pythagorean)
    (A B : Body α) (cs : List (Contact α)) (h : Collide m A B = some cs) (c : Contact α)
    (hc : c ∈ cs) :
    Dot (Collide.setup m A B).frontNormal c.Position = (Collide.setup m A B).front ∧
    ((Collide.best m A B).axis = FACE_A_X →
      (Collide.setup m A B).frontNormal = c.Normal ∧
      (Collide.setup m A B).front
        = Dot A.Position (Collide.setup m A B).frontNormal + (MulSV (1 / 2) A.Width).X) ∧
    ((Collide.best m A B).axis = FACE_A_Y →
      (Collide.setup m A B).frontNormal = c.Normal ∧
      (Collide.setup m A B).front
        = Dot A.Position (Collide.setup m A B).frontNormal + (MulSV (1 / 2) A.Width).Y) ∧
    ((Collide.best m A B).axis = FACE_B_X →
      (Collide.setup m A B).frontNormal = c.Normal.Negative ∧
      (Collide.setup m A B).front
        = Dot B.Position (Collide.setup m A B).frontNormal + (MulSV (1 / 2) B.Width).X) ∧
    ((Collide.best m A B).axis = FACE_B_Y →
      (Collide.setup m A B).frontNormal = c.Normal.Negative ∧
      (Collide.setup m A B).front
        = Dot B.Position (Collide.setup m A B).frontNormal + (MulSV (1 / 2) B.Width).Y) := by
  obtain ⟨cs1, h1, hall⟩ := Collide_contactAt m A B
    (fun c => Dot (Collide.setup m A B).frontNormal c.Position = (Collide.setup m A B).front ∧
      c.Normal = (Collide.best m A B).normal)
    (by
      intro cv _
      refine ⟨?_, rfl⟩
      have hu := (best_unit m hm A B).2
      have e : ∀ (fn v : Vec2 α) (front : α),
          Dot fn (v.Sub (MulSV (Dot fn v - front) fn))
            = Dot fn v - (Dot fn v - front) * Dot fn fn := by
        intro fn v front
        simp only [Dot, Vec2.Sub, MulSV]; ring
      simp only [Collide.contactAt]
      rw [e, hu]; ring)
  rw [h] at h1
  cases h1
  obtain ⟨hpos, hn⟩ := hall c hc
  have hf := setup_front m A B
  rw [hn]
  exact ⟨hpos, hf.1, hf.2.1, hf.2.2.1, hf.2.2.2⟩

theorem Collide_position_on_reference_face_witness :
    Sample.math.Pythagorean ∧
    Collide Sample.math Sample.boxA Sample.boxB = some [Sample.contact1, Sample.contact2] ∧
    Sample.contact2 ∈ [Sample.contact1, Sample.contact2] ∧
    Dot (Collide.setup Sample.math Sample.boxA Sample.boxB).frontNormal Sample.contact2.Position
      = (Collide.setup Sample.math Sample.boxA Sample.boxB).front :=
  ⟨Sample.math_pythagorean, Sample.collide_boxA_boxB, by simp,
    (Collide_position_on_reference_face Sample.math Sample.math_pythagorean Sample.boxA
      Sample.boxB _ Sample.collide_boxA_boxB Sample.contact2 (by simp)).1⟩

/-- C20: every contact returned by `Collide` has a unit-length normal,
`Dot(c.Normal, c.Normal) = 1`, for all body rotations and whichever reference axis is
selected (the normal is a column of a rotation matrix or its negative). -/
theorem Collide_unit_normal (m : MathLib α) (hm : m.Pythagorean) (A B : Body α)
    (cs : List (Contact α)) (h : Collide m A B = some cs) (c : Contact α) (hc : c ∈ cs) :
    Dot c.Normal c.Normal = 1 := by
  obtain ⟨cs1, h1, -, hall⟩ := Collide_forall m A B (fun c => Dot c.Normal c.Normal = 1)
    (fun c _ hn _ => by
      show Dot c.Normal c.Normal = 1
      rw [hn]; exact (best_unit m hm A B).1)
  rw [h] at h1
  cases h1
  exact hall c hc

theorem Collide_unit_normal_witness :
    Sample.math.Pythagorean ∧
    Collide Sample.math Sample.boxA Sample.boxB = some [Sample.contact1, Sample.contact2] ∧
    Sample.contact1 ∈ [Sample.contact1, Sample.contact2] ∧
    Dot Sample.contact1.Normal Sample.contact1.Normal = 1 :=
  ⟨Sample.math_pythagorean, Sample.collide_boxA_boxB, List.mem_cons_self _ _,
    Collide_unit_normal Sample.math Sample.math_pythagorean Sample.boxA Sample.boxB _
      Sample.collide_boxA_boxB Sample.contact1 (List.mem_cons_self _ _)⟩

end FaceTheorems

section MassTheorems

variable {α : Type} [LinearOrderedField α]

omit [LinearOrderedField α] in
theorem forContacts_forall₂ (f : BodyMem α → Contact α → Contact α × BodyMem α)
    (R : Contact α → Contact α → Prop) (I : BodyMem α → Prop)
    (hf : ∀ mem c, I mem → R c (f mem c).1 ∧ I (f mem c).2) (cs : List (Contact α))
    (mem : BodyMem α) (h : I mem) : List.Forall₂ R cs (forContacts f cs mem).1 := by
  induction cs generalizing mem with
  | nil => exact List.Forall₂.nil
  | cons x xs ih =>
    simp only [forContacts]
    exact List.Forall₂.cons (hf mem x h).1 (ih _ (hf mem x h).2)

theorem PreStep_contact_masses (g : Globals) (a : Arbiter α) (inv_dt kp kb : α)
    (mem : BodyMem α) (c : Contact α) :
    (Arbiter.PreStep.contact g a inv_dt kp kb mem c).1.MassNormal
      = 1 / Arbiter.PreStep.kNormal a mem c ∧
    (Arbiter.PreStep.contact g a inv_dt kp kb mem c).1.MassTangent
      = 1 / Arbiter.PreStep.kTangent a mem c := by
  unfold Arbiter.PreStep.contact Arbiter.PreStep.kNormal Arbiter.PreStep.kTangent
  simp only []
  split_ifs <;> exact ⟨rfl, rfl⟩

theorem kMasses_congr (a : Arbiter α) (mem mem1 : BodyMem α) (c : Contact α)
    (h : SameRest mem mem1) :
    Arbiter.PreStep.kNormal a mem1 c = Arbiter.PreStep.kNormal a mem c ∧
    Arbiter.PreStep.kTangent a mem1 c = Arbiter.PreStep.kTangent a mem c := by
  have f1 := rest_fields _ _ (h a.Body1)
  have f2 := rest_fields _ _ (h a.Body2)
  simp only [Arbiter.PreStep.kNormal, Arbiter.PreStep.kTangent, f1.1, f1.2.2.1, f1.2.2.2.1,
    f2.1, f2.2.2.1, f2.2.2.2.1, and_self]

/-- The masses `Arbiter.PreStep` stores in each contact, in terms of the bodies at the start. -/
theorem PreStep_masses (g : Globals) (a : Arbiter α) (inv_dt : α) (mem : BodyMem α) :
    List.Forall₂
      (fun c c1 => c1.MassNormal = 1 / Arbiter.PreStep.kNormal a mem c ∧
        c1.MassTangent = 1 / Arbiter.PreStep.kTangent a mem c)
      a.Contacts (a.PreStep g inv_dt mem).1.Contacts := by
  unfold Arbiter.PreStep
  simp only []
  apply forContacts_forall₂ _ _ (SameRest mem)
  · intro mem1 c h1
    have hk := kMasses_congr a mem mem1 c h1
    have hm := PreStep_contact_masses g a inv_dt (1 / 100)
      (if g.positionCorrection = true then 2 / 10 else 0) mem1 c
    refine ⟨⟨hm.1.trans (by rw [hk.1]), hm.2.trans (by rw [hk.2])⟩, ?_⟩
    unfold Arbiter.PreStep.contact
    cases hacc : g.accumulateImpulses
    · simp only [Bool.false_eq_true, if_false]
      exact h1
    · simp only [if_true]
      exact applyToBodies_sameRest mem mem1 _ _ _ _ _ h1
  · intro p; rfl

/-- C18 (as amended): `Arbiter.PreStep` computes the tangent effective mass with the
tangent-squared terms, `kT = invMass1 + invMass2 + invI1*(|r1|^2 - (r1.t)^2)
+ invI2*(|r2|^2 - (r2.t)^2)` with `t = Cross(n, 1)` and `r_i = Position - b_i.Position`, and
stores `MassTangent = 1/kT`; these are not the projection terms `(r_i . n)^2` of `kN`: for a
unit normal `kT = invMass1 + invMass2 + invI1*(r1.n)^2 + invI2*(r2.n)^2`. -/
theorem PreStep_tangent_mass (g : Globals) (a : Arbiter α) (inv_dt : α) (mem : BodyMem α) :
    List.Forall₂ (fun c c1 => c1.MassTangent = 1 / Arbiter.PreStep.kTangent a mem c)
      a.Contacts (a.PreStep g inv_dt mem).1.Contacts ∧
    (∀ c : Contact α,
      Arbiter.PreStep.kTangent a mem c
        = (mem a.Body1).invMass + (mem a.Body2).invMass
          + (mem a.Body1).invI
            * (Dot (c.Position.Sub (mem a.Body1).Position)
                  (c.Position.Sub (mem a.Body1).Position)
                - (Dot (c.Position.Sub (mem a.Body1).Position) (CrossVS c.Normal 1)) ^ 2)
          + (mem a.Body2).invI
            * (Dot (c.Position.Sub (mem a.Body2).Position)
                  (c.Position.Sub (mem a.Body2).Position)
                - (Dot (c.Position.Sub (mem a.Body2).Position) (CrossVS c.Normal 1)) ^ 2)) ∧
    (∀ c : Contact α, Dot c.Normal c.Normal = 1 →
      Arbiter.PreStep.kTangent a mem c
        = (mem a.Body1).invMass + (mem a.Body2).invMass
          + (mem a.Body1).invI * (Dot (c.Position.Sub (mem a.Body1).Position) c.Normal) ^ 2
          + (mem a.Body2).invI
            * (Dot (c.Position.Sub (mem a.Body2).Position) c.Normal) ^ 2) := by
  refine ⟨?_, ?_, ?_⟩
  · exact (PreStep_masses g a inv_dt mem).imp (fun _ _ h => h.2)
  · intro c
    simp only [Arbiter.PreStep.kTangent]; ring
  · intro c hn
    have lag : ∀ r : Vec2 α,
        Dot r r - Dot r (CrossVS c.Normal 1) * Dot r (CrossVS c.Normal 1)
          = (Dot r c.Normal) ^ 2 := by
      intro r
      simp only [Dot, CrossVS] at hn ⊢
      linear_combination (-(r.X * r.X + r.Y * r.Y)) * hn
    simp only [Arbiter.PreStep.kTangent, lag]; ring

theorem PreStep_tangent_mass_witness :
    Dot Sample.contact1.Normal Sample.contact1.Normal = 1 ∧
    Arbiter.PreStep.kTangent Sample.arbiter Sample.mem Sample.contact1
      = (Sample.mem Sample.arbiter.Body1).invMass + (Sample.mem Sample.arbiter.Body2).invMass
        + (Sample.mem Sample.arbiter.Body1).invI
          * (Dot (Sample.contact1.Position.Sub (Sample.mem Sample.arbiter.Body1).Position)
              Sample.contact1.Normal) ^ 2
        + (Sample.mem Sample.arbiter.Body2).invI
          * (Dot (Sample.contact1.Position.Sub (Sample.mem Sample.arbiter.Body2).Position)
              Sample.contact1.Normal) ^ 2 := by
  have hn : Dot Sample.contact1.Normal Sample.contact1.Normal = 1 := by
    norm_num [Dot, Sample.contact1]
  exact ⟨hn, (PreStep_tangent_mass Globals.default Sample.arbiter 60 Sample.mem).2.2
    Sample.contact1 hn⟩

/-- C18, counterexample: for the arbiter of two unit-mass boxes at `(0, 0)` and `(1, 0)` with a
contact at `(1, 1)` and normal `(1, 0)`, `PreStep` stores `MassTangent = 1/3`; the
normal-squared terms would give `kT = 4` and `MassTangent = 1/4`. -/
theorem PreStep_tangent_mass_not_normal_squared :
    ∃ c1 rest, (Sample.arbiter.PreStep Globals.default 60 Sample.mem).1.Contacts = c1 :: rest ∧
      c1.MassTangent = 1 / 3 ∧
      Arbiter.PreStep.kTangentAsSpecified Sample.arbiter Sample.mem Sample.contact1 = 4 ∧
      c1.MassTangent
        ≠ 1 / Arbiter.PreStep.kTangentAsSpecified Sample.arbiter Sample.mem Sample.contact1 := by
  have hk : Arbiter.PreStep.kTangent Sample.arbiter Sample.mem Sample.contact1 = 3 := by
    norm_num [Arbiter.PreStep.kTangent, Sample.arbiter, Sample.mem, Sample.contact1,
      Sample.boxA, Sample.boxB, Sample.box, Dot, CrossVS, Vec2.Sub]
  have hs : Arbiter.PreStep.kTangentAsSpecified Sample.arbiter Sample.mem Sample.contact1
      = 4 := by
    norm_num [Arbiter.PreStep.kTangentAsSpecified, Sample.arbiter, Sample.mem, Sample.contact1,
      Sample.boxA, Sample.boxB, Sample.box, Dot, Vec2.Sub]
  have hm := (PreStep_contact_masses Globals.default Sample.arbiter 60 (1 / 100)
    (if Globals.default.positionCorrection = true then 2 / 10 else 0) Sample.mem
    Sample.contact1).2
  rw [hk] at hm
  refine ⟨_, _, rfl, hm, hs, ?_⟩
  rw [hm, hs]
  norm_num

end MassTheorems

section StaticTheorems

variable {α : Type} [LinearOrderedField α]

/-- The impulses applied to a static body (`invMass = 0`, `invI = 0`) leave it as it is. -/
theorem applyToBodies_static (b0 : Body α) (hm : b0.invMass = 0) (hi : b0.invI = 0)
    (mem : BodyMem α) (p b1 b2 : Nat) (r1 r2 P : Vec2 α) (h : mem p = b0) :
    (applyToBodies mem b1 b2 r1 r2 P) p = b0 := by
  have hv : ∀ (b : Body α) (s : α), b = b0 →
      ({ b with Velocity := b.Velocity.Add (MulSV b.invMass P) } = b0 ∧
       { b with Velocity := b.Velocity.Sub (MulSV b.invMass P) } = b0 ∧
       { b with AngularVelocity := b.AngularVelocity + b.invI * s } = b0 ∧
       { b with AngularVelocity := b.AngularVelocity - b.invI * s } = b0) := by
    intro b s hb
    subst hb
    cases b
    simp only at hm hi
    subst hm
    subst hi
    simp [Vec2.Add, Vec2.Sub, MulSV]
  unfold applyToBodies
  apply modify_keep (fun b => b = b0)
  · intro b hb; exact (hv b _ hb).2.2.1
  apply modify_keep (fun b => b = b0)
  · intro b hb; exact (hv b 0 hb).1
  apply modify_keep (fun b => b = b0)
  · intro b hb; exact (hv b _ hb).2.2.2
  apply modify_keep (fun b => b = b0)
  · intro b hb; exact (hv b 0 hb).2.1
  exact h

theorem integrateForces_static (b0 : Body α) (hm : b0.invMass = 0) (w : World α) (dt : α)
    (mem : BodyMem α) (p b : Nat) (h : mem p = b0) :
    (World.Step.integrateForces w dt mem b) p = b0 := by
  rw [integrateForces_pointwise]
  by_cases hpb : p = b
  · subst hpb
    simp [World.Step.forceStep, h, hm]
  · simp [hpb, h]

/-- The memory `Step` integrates the velocities in holds every static body as it was at the
start of the step. -/
theorem Step_before_velocities (m : MathLib α) (g : Globals) (sched : Schedule) (w : World α)
    (h : Heap α) (dt : α) (p : Nat) (r : World α × Heap α)
    (hstep : w.Step m g sched h dt = some r)
    (hm : (h.body p).invMass = 0) (hi : (h.body p).invI = 0) :
    ∃ mem1 : BodyMem α, mem1 p = h.body p ∧
      r.2.body = w.Bodies.foldl (World.Step.integrateVelocities dt) mem1 := by
  obtain ⟨arbs, hb⟩ := BroadPhase_some m g w h.body
  unfold World.Step at hstep
  rw [hb] at hstep
  simp only [Option.some_bind, Option.map_eq_some'] at hstep
  obtain ⟨h2, hj, rfl⟩ := hstep
  refine ⟨_, ?_, rfl⟩
  generalize hb0 : h.body p = b0 at hm hi ⊢
  have hA : ∀ (mem : BodyMem α) (b1 b2 : Nat) (r1 r2 P : Vec2 α), mem p = b0 →
      (applyToBodies mem b1 b2 r1 r2 P) p = b0 :=
    fun mem b1 b2 r1 r2 P hq => applyToBodies_static b0 hm hi mem p b1 b2 r1 r2 P hq
  -- the iterations
  have hiter : ∀ (n i : Nat) (s : ArbiterMap α × Heap α), s.2.body p = b0 →
      (World.Step.iterate sched g w.Joints n i s).2.body p = b0 := by
    intro n
    induction n with
    | zero => intro i s hs; exact hs
    | succ n ih =>
      intro i s hs
      unfold World.Step.iterate
      simp only []
      apply ih
      apply foldl_inv _ (fun hp : Heap α => hp.body p = b0)
      · intro hp jp hh
        unfold Joint.ApplyImpulse
        simp only []
        exact hA _ _ _ _ _ _ hh
      · apply forArbiters_inv sched (i + 1) (Arbiter.ApplyImpulse g) (fun mem => mem p = b0)
        · intro a mem hq
          unfold Arbiter.ApplyImpulse
          simp only []
          apply forContacts_inv _ (fun mem => mem p = b0) _ _ _ hq
          intro mem c hc
          unfold Arbiter.ApplyImpulse.contact
          simp only []
          exact hA _ _ _ _ _ _ (hA _ _ _ _ _ _ hc)
        · exact hs
  apply hiter
  refine forM?_inv _ (fun hp : Heap α => hp.body p = b0) ?_ _ _ _ hj ?_
  · intro s jp s1 hs1 hI
    unfold visitJoint at hs1
    simp only [Option.map_eq_some'] at hs1
    obtain ⟨x, hx, rfl⟩ := hs1
    unfold Joint.PreStep at hx
    simp only [Option.map_eq_some'] at hx
    obtain ⟨M, -, rfl⟩ := hx
    split_ifs <;> first | exact hI | exact hA _ _ _ _ _ _ hI
  · apply forArbiters_inv sched 0 _ (fun mem => mem p = b0)
    · intro a mem hq
      unfold Arbiter.PreStep
      simp only []
      apply forContacts_inv _ (fun mem => mem p = b0) _ _ _ hq
      intro mem c hc
      unfold Arbiter.PreStep.contact
      cases hacc : g.accumulateImpulses
      · simp only [Bool.false_eq_true, if_false]
        exact hc
      · simp only [if_true]
        exact hA _ _ _ _ _ _ hc
    · apply foldl_inv _ (fun mem : BodyMem α => mem p = b0)
      · intro mem b hq
        exact integrateForces_static b0 hm _ dt mem p b hq
      · exact hb0

/-- What `k` velocity integrations do to a body. -/
theorem velocityStep_iterate (dt : α) (k : Nat) (b : Body α) :
    ((World.Step.velocityStep dt)^[k] b).Velocity = b.Velocity ∧
    ((World.Step.velocityStep dt)^[k] b).AngularVelocity = b.AngularVelocity ∧
    ((World.Step.velocityStep dt)^[k] b).invMass = b.invMass ∧
    ((World.Step.velocityStep dt)^[k] b).invI = b.invI ∧
    ((World.Step.velocityStep dt)^[k] b).Position
      = b.Position.Add (MulSV (k * dt) b.Velocity) ∧
    ((World.Step.velocityStep dt)^[k] b).Rotation
      = b.Rotation + k * dt * b.AngularVelocity := by
  induction k with
  | zero => simp [Vec2.Add, MulSV]
  | succ k ih =>
    obtain ⟨h1, h2, h3, h4, h5, h6⟩ := ih
    rw [Function.iterate_succ_apply']
    refine ⟨h1, h2, h3, h4, ?_, ?_⟩
    · simp only [World.Step.velocityStep, h5, h1, Vec2.Add, MulSV, Vec2.mk.injEq]
      push_cast
      constructor <;> ring
    · simp only [World.Step.velocityStep, h6, h2]
      push_cast
      ring

/-- A completed step integrates the velocities of a static body once per entry of the body in
`w.Bodies` and does nothing else to it but clear its force and torque. -/
theorem Step_static_body (m : MathLib α) (g : Globals) (sched : Schedule) (w : World α)
    (h : Heap α) (dt : α) (p : Nat) (r : World α × Heap α)
    (hstep : w.Step m g sched h dt = some r)
    (hm : (h.body p).invMass = 0) (hi : (h.body p).invI = 0) :
    r.2.body p = (World.Step.velocityStep dt)^[w.Bodies.count p] (h.body p) := by
  obtain ⟨mem1, h1, h2⟩ := Step_before_velocities m g sched w h dt p r hstep hm hi
  rw [h2, foldl_pointwise _ _ (integrateVelocities_pointwise dt), h1]

/-- C19 (as amended): the velocities of a static body (`invMass = 0`, `invI = 0`) are never
changed by a `World.Step` that completes, but its pose is integrated like that of any listed
body: `Position` grows by `dt * Velocity` and `Rotation` by `dt * AngularVelocity` once per
entry of the body in `w.Bodies`.  So `Position` is unchanged when `Velocity` is zero or the
body is not listed, and `Rotation` when `AngularVelocity` is zero or the body is not listed. -/
theorem static_body_integration (m : MathLib α) (g : Globals) (sched : Schedule) (w : World α)
    (h : Heap α) (dt : α) (p : Nat) (r : World α × Heap α)
    (hstep : w.Step m g sched h dt = some r)
    (hm : (h.body p).invMass = 0) (hi : (h.body p).invI = 0) :
    (r.2.body p).Velocity = (h.body p).Velocity ∧
    (r.2.body p).AngularVelocity = (h.body p).AngularVelocity ∧
    (r.2.body p).invMass = 0 ∧ (r.2.body p).invI = 0 ∧
    (r.2.body p).Position
      = (h.body p).Position.Add (MulSV (w.Bodies.count p * dt) (h.body p).Velocity) ∧
    (r.2.body p).Rotation
      = (h.body p).Rotation + w.Bodies.count p * dt * (h.body p).AngularVelocity ∧
    ((h.body p).Velocity = ⟨0, 0⟩ ∨ p ∉ w.Bodies →
      (r.2.body p).Position = (h.body p).Position) ∧
    ((h.body p).AngularVelocity = 0 ∨ p ∉ w.Bodies →
      (r.2.body p).Rotation = (h.body p).Rotation) := by
  have hr := Step_static_body m g sched w h dt p r hstep hm hi
  obtain ⟨h1, h2, h3, h4, h5, h6⟩ := velocityStep_iterate dt (w.Bodies.count p) (h.body p)
  rw [← hr] at h1 h2 h3 h4 h5 h6
  refine ⟨h1, h2, h3.trans hm, h4.trans hi, h5, h6, ?_, ?_⟩
  · rintro (hv | hp)
    · rw [h5, hv]; simp [Vec2.Add, MulSV]
    · rw [h5, List.count_eq_zero_of_not_mem hp]; simp [Vec2.Add, MulSV]
  · rintro (hv | hp)
    · rw [h6, hv]; simp
    · rw [h6, List.count_eq_zero_of_not_mem hp]; simp

theorem static_body_integration_witness :
    ∃ r, Sample.world.Step Sample.math Globals.default Schedule.inOrder
        Sample.driftingHeap (1 / 60) = some r ∧
      (Sample.driftingHeap.body 0).invMass = 0 ∧ (Sample.driftingHeap.body 0).invI = 0 ∧
      (r.2.body 0).Velocity = (Sample.driftingHeap.body 0).Velocity ∧
      (r.2.body 0).AngularVelocity = (Sample.driftingHeap.body 0).AngularVelocity ∧
      (r.2.body 0).Position
        = (Sample.driftingHeap.body 0).Position.Add
            (MulSV (Sample.world.Bodies.count 0 * (1 / 60))
              (Sample.driftingHeap.body 0).Velocity) ∧
      (r.2.body 0).Rotation
        = (Sample.driftingHeap.body 0).Rotation
          + Sample.world.Bodies.count 0 * (1 / 60)
            * (Sample.driftingHeap.body 0).AngularVelocity := by
  obtain ⟨r, hr⟩ := Step_some_of_no_joints Sample.math Globals.default Schedule.inOrder
    Sample.world Sample.driftingHeap (1 / 60) rfl
  have h := static_body_integration Sample.math Globals.default Schedule.inOrder
    Sample.world Sample.driftingHeap (1 / 60) 0 r hr rfl rfl
  exact ⟨r, hr, rfl, rfl, h.1, h.2.1, h.2.2.2.2.1, h.2.2.2.2.2.1⟩

/-- C19, counterexample: in the world of the first demo with the static box at address `0`
(`invMass = 0`, `invI = 0`) at `(0, -10)`, rotation `0`, given velocity `(1, 0)` and angular
velocity `1`, `Step(1)` completes and moves the static box to `(1, -10)`, rotation `1`. -/
theorem static_body_is_integrated :
    ∃ r, Sample.world.Step Sample.math Globals.default Schedule.inOrder
        Sample.driftingHeap 1 = some r ∧
      (Sample.driftingHeap.body 0).invMass = 0 ∧ (Sample.driftingHeap.body 0).invI = 0 ∧
      (Sample.driftingHeap.body 0).Position = ⟨0, -10⟩ ∧
      (Sample.driftingHeap.body 0).Rotation = 0 ∧
      (r.2.body 0).Position = ⟨1, -10⟩ ∧ (r.2.body 0).Rotation = 1 ∧
      (r.2.body 0).Position ≠ (Sample.driftingHeap.body 0).Position ∧
      (r.2.body 0).Rotation ≠ (Sample.driftingHeap.body 0).Rotation := by
  obtain ⟨r, hr⟩ := Step_some_of_no_joints Sample.math Globals.default Schedule.inOrder
    Sample.world Sample.driftingHeap 1 rfl
  have h := Step_static_body Sample.math Globals.default Schedule.inOrder
    Sample.world Sample.driftingHeap 1 0 r hr rfl rfl
  have hc : Sample.world.Bodies.count 0 = 1 := by
    simp [Sample.world, NewWorld, World.AddBody]
  rw [hc] at h
  have hp0 : (Sample.driftingHeap.body 0).Position = ⟨0, -10⟩ := by
    simp [Sample.driftingHeap, Sample.drifting, Sample.groundBox, Sample.box]
  have hr0 : (Sample.driftingHeap.body 0).Rotation = 0 := by
    simp [Sample.driftingHeap, Sample.drifting, Sample.groundBox, Sample.box]
  have hp1 : (r.2.body 0).Position = ⟨1, -10⟩ := by
    rw [h]
    simp [World.Step.velocityStep, Sample.driftingHeap, Sample.drifting, Sample.groundBox,
      Sample.box, Vec2.Add, MulSV]
  have hr1 : (r.2.body 0).Rotation = 1 := by
    rw [h]
    simp [World.Step.velocityStep, Sample.driftingHeap, Sample.drifting, Sample.groundBox,
      Sample.box]
  refine ⟨r, hr, rfl, rfl, hp0, hr0, hp1, hr1, ?_, ?_⟩
  · rw [hp1, hp0]; simp
  · rw [hr1, hr0]; simp

end StaticTheorems

section FeatureTheorems

variable {α : Type} [LinearOrderedField α]

omit [LinearOrderedField α] in
/-- Four bytes packed by shifts and bitwise or form a base-256 numeral. -/
theorem pack_eq (a b c d : Nat) (ha : a < 256) (hb : b < 256) (hc : c < 256) :
    (a <<< 0) ||| (b <<< 8) ||| (c <<< 16) ||| (d <<< 24)
      = a + 2 ^ 8 * b + 2 ^ 16 * c + 2 ^ 24 * d := by
  have a1 : a < 2 ^ 8 := by omega
  have a2 : 2 ^ 8 * b + a < 2 ^ 16 := by omega
  have a3 : 2 ^ 16 * c + (2 ^ 8 * b + a) < 2 ^ 24 := by omega
  rw [Nat.shiftLeft_eq, Nat.shiftLeft_eq, Nat.shiftLeft_eq, Nat.shiftLeft_eq, pow_zero,
    mul_one, Nat.or_comm a, Nat.mul_comm b, ← Nat.mul_add_lt_is_or a1,
    Nat.or_comm _ (c * 2 ^ 16), Nat.mul_comm c, ← Nat.mul_add_lt_is_or a2,
    Nat.or_comm _ (d * 2 ^ 24), Nat.mul_comm d, ← Nat.mul_add_lt_is_or a3]
  omega

omit [LinearOrderedField α] in
theorem pack_inj (a b c d a1 b1 c1 d1 : Nat) (ha : a < 256) (hb : b < 256) (hc : c < 256)
    (ha1 : a1 < 256) (hb1 : b1 < 256) (hc1 : c1 < 256)
    (h : (a <<< 0) ||| (b <<< 8) ||| (c <<< 16) ||| (d <<< 24)
      = (a1 <<< 0) ||| (b1 <<< 8) ||| (c1 <<< 16) ||| (d1 <<< 24)) :
    a = a1 ∧ b = b1 ∧ c = c1 ∧ d = d1 := by
  rw [pack_eq a b c d ha hb hc, pack_eq a1 b1 c1 d1 ha1 hb1 hc1] at h
  omega

omit [LinearOrderedField α] in
theorem Value_inj (f g : FeaturePair) (hf : f.InRange) (hg : g.InRange) :
    f.Value = g.Value ↔ f = g := by
  constructor
  · intro h
    obtain ⟨h1, h2, h3, -⟩ := hf
    obtain ⟨k1, k2, k3, -⟩ := hg
    have := pack_inj _ _ _ _ _ _ _ _ h1 h2 h3 k1 k2 k3 h
    cases f
    cases g
    simp only [FeaturePair.mk.injEq]
    exact this
  · intro h; rw [h]

omit [LinearOrderedField α] in
theorem find_congr {β : Type} (p q : β → Bool) (xs : List β) (h : ∀ x ∈ xs, p x = q x) :
    xs.find? p = xs.find? q := by
  induction xs with
  | nil => rfl
  | cons x xs ih =>
    simp only [List.find?, h x (List.mem_cons_self _ _)]
    rw [ih (fun y hy => h y (List.mem_cons_of_mem _ hy))]

/-- C27: `FeaturePair.Value` is an injective packing: for all feature pairs `f` and `g` (of
`uint8` edge identifiers), `f.Value() = g.Value()` if and only if `f` and `g` agree on
`InEdge1`, `OutEdge1`, `InEdge2` and `OutEdge2`; so the old contact `Arbiter.Update` matches to
a new one (and takes the impulses from) is the first old contact whose four edge identifiers
coincide with those of the new one. -/
theorem FeaturePair_Value_injective :
    (∀ f g : FeaturePair, f.InRange → g.InRange →
      (f.Value = g.Value ↔
        f.InEdge1 = g.InEdge1 ∧ f.OutEdge1 = g.OutEdge1 ∧ f.InEdge2 = g.InEdge2 ∧
          f.OutEdge2 = g.OutEdge2)) ∧
    (∀ (old : List (Contact α)) (cNew : Contact α),
      (∀ o ∈ old, o.Feature.InRange) → cNew.Feature.InRange →
      Arbiter.Update.cMatch old cNew
        = old.find? (fun cOld => decide (cOld.Feature = cNew.Feature))) ∧
    (∀ (g : Globals) (old : List (Contact α)) (cNew : Contact α),
      Arbiter.Update.carry g old cNew
        = match Arbiter.Update.cMatch old cNew with
          | some cMatch =>
            if g.warmStarting then
              { cNew with Pn := cMatch.Pn, Pt := cMatch.Pt, Pnb := cMatch.Pnb }
            else { cNew with Pn := 0, Pt := 0, Pnb := 0 }
          | none => cNew) := by
  refine ⟨?_, ?_, ?_⟩
  · intro f g hf hg
    rw [Value_inj f g hf hg]
    constructor
    · intro h; rw [h]; exact ⟨rfl, rfl, rfl, rfl⟩
    · rintro ⟨h1, h2, h3, h4⟩
      cases f
      cases g
      simp only [FeaturePair.mk.injEq] at *
      exact ⟨h1, h2, h3, h4⟩
  · intro old cNew hold hnew
    unfold Arbiter.Update.cMatch
    apply find_congr
    intro x hx
    simp only [decide_eq_decide]
    exact Value_inj _ _ (hold x hx) hnew
  · intro g old cNew
    rfl

theorem FeaturePair_Value_injective_witness :
    Sample.contact1.Feature.InRange ∧ Sample.contact2.Feature.InRange ∧
    (Sample.contact1.Feature.Value = Sample.contact2.Feature.Value ↔
      Sample.contact1.Feature.InEdge1 = Sample.contact2.Feature.InEdge1 ∧
      Sample.contact1.Feature.OutEdge1 = Sample.contact2.Feature.OutEdge1 ∧
      Sample.contact1.Feature.InEdge2 = Sample.contact2.Feature.InEdge2 ∧
      Sample.contact1.Feature.OutEdge2 = Sample.contact2.Feature.OutEdge2) := by
  have h1 : Sample.contact1.Feature.InRange := by
    simp [Sample.contact1, FeaturePair.InRange]
  have h2 : Sample.contact2.Feature.InRange := by
    simp [Sample.contact2, FeaturePair.InRange]
  exact ⟨h1, h2, (FeaturePair_Value_injective (α := ℚ)).1 _ _ h1 h2⟩

end FeatureTheorems

section SafetyTheorems

variable {α : Type} [LinearOrderedField α]

/-- The determinant of the matrix `Joint.PreStep` inverts, as a sum of three terms. -/
theorem Joint_K_det (m : MathLib α) (j : Joint α) (mem : BodyMem α) :
    (Joint.K m j mem).det
      = ((mem j.Body1).invMass + (mem j.Body2).invMass + j.Softness) ^ 2
        + ((mem j.Body1).invMass + (mem j.Body2).invMass + j.Softness)
          * ((mem j.Body1).invI * ((Joint.PreStep.anchored m j mem).R1.X ^ 2
                + (Joint.PreStep.anchored m j mem).R1.Y ^ 2)
              + (mem j.Body2).invI * ((Joint.PreStep.anchored m j mem).R2.X ^ 2
                + (Joint.PreStep.anchored m j mem).R2.Y ^ 2))
        + (mem j.Body1).invI * (mem j.Body2).invI
          * ((Joint.PreStep.anchored m j mem).R1.X * (Joint.PreStep.anchored m j mem).R2.Y
              - (Joint.PreStep.anchored m j mem).R2.X
                * (Joint.PreStep.anchored m j mem).R1.Y) ^ 2 := by
  simp only [Joint.K, Joint.PreStep.K, Joint.PreStep.anchored, Mat22.det, Mat22.Add, Vec2.Add]
  ring

/-- C26: a joint with at least one dynamic body never hits the singular-matrix failure: if
`invMass1 + invMass2 > 0`, `invI1 >= 0`, `invI2 >= 0` and `Softness >= 0`, then for all body
rotations and local anchors the matrix `K` built by `Joint.PreStep` has determinant `> 0`, so
`Mat22.Invert` does not panic and `Joint.PreStep` returns. -/
theorem Joint_K_det_pos (m : MathLib α) (g : Globals) (j : Joint α) (inv_dt : α)
    (mem : BodyMem α)
    (hm : 0 < (mem j.Body1).invMass + (mem j.Body2).invMass)
    (h1 : 0 ≤ (mem j.Body1).invI) (h2 : 0 ≤ (mem j.Body2).invI) (hs : 0 ≤ j.Softness) :
    0 < (Joint.K m j mem).det ∧ (∃ M, (Joint.K m j mem).Invert = some M) ∧
      ∃ r, j.PreStep m g inv_dt mem = some r := by
  have hpos : 0 < (Joint.K m j mem).det := by
    rw [Joint_K_det]
    have hp : 0 < (mem j.Body1).invMass + (mem j.Body2).invMass + j.Softness := by linarith
    have t1 := pow_pos hp 2
    have t2 := mul_nonneg hp.le
      (add_nonneg
        (mul_nonneg h1 (add_nonneg (sq_nonneg (Joint.PreStep.anchored m j mem).R1.X)
          (sq_nonneg (Joint.PreStep.anchored m j mem).R1.Y)))
        (mul_nonneg h2 (add_nonneg (sq_nonneg (Joint.PreStep.anchored m j mem).R2.X)
          (sq_nonneg (Joint.PreStep.anchored m j mem).R2.Y))))
    have t3 := mul_nonneg (mul_nonneg h1 h2)
      (sq_nonneg ((Joint.PreStep.anchored m j mem).R1.X * (Joint.PreStep.anchored m j mem).R2.Y
        - (Joint.PreStep.anchored m j mem).R2.X * (Joint.PreStep.anchored m j mem).R1.Y))
    linarith
  refine ⟨hpos, ?_, ?_⟩
  · cases hI : (Joint.K m j mem).Invert with
    | none => exact absurd ((Invert_none_iff _).mp hI) hpos.ne'
    | some M => exact ⟨M, rfl⟩
  · cases hP : j.PreStep m g inv_dt mem with
    | none => exact absurd ((Joint_PreStep_none_iff m g j inv_dt mem).mp hP) hpos.ne'
    | some r => exact ⟨r, rfl⟩

theorem Joint_K_det_pos_witness :
    0 < (Sample.ground.body (Sample.ground.joint 0).Body1).invMass
        + (Sample.ground.body (Sample.ground.joint 0).Body2).invMass ∧
    0 < (Joint.K Sample.math (Sample.ground.joint 0) Sample.ground.body).det ∧
    ∃ r, (Sample.ground.joint 0).PreStep Sample.math Globals.default 60 Sample.ground.body
      = some r := by
  have hm : 0 < (Sample.ground.body (Sample.ground.joint 0).Body1).invMass
      + (Sample.ground.body (Sample.ground.joint 0).Body2).invMass := by
    norm_num [Sample.ground, Sample.groundBox, Sample.boxB, Sample.box]
  have h := Joint_K_det_pos Sample.math Globals.default (Sample.ground.joint 0) 60
    Sample.ground.body hm
    (by norm_num [Sample.ground, Sample.groundBox, Sample.boxB, Sample.box])
    (by norm_num [Sample.ground, Sample.groundBox, Sample.boxB, Sample.box])
    (by norm_num [Sample.ground])
  exact ⟨hm, h.1, h.2.2⟩

/-- The interpolated point of `ClipSegmentToLine` lies on the clip line. -/
theorem interp_on_line (normal a b : Vec2 α) (offset : α)
    (hne : (Dot normal a - offset) - (Dot normal b - offset) ≠ 0) :
    Dot normal (a.Add (MulSV ((Dot normal a - offset)
      / ((Dot normal a - offset) - (Dot normal b - offset))) (b.Sub a))) - offset = 0 := by
  have e : Dot normal (a.Add (MulSV ((Dot normal a - offset)
      / ((Dot normal a - offset) - (Dot normal b - offset))) (b.Sub a))) - offset
      = (Dot normal a - offset) - ((Dot normal a - offset)
          / ((Dot normal a - offset) - (Dot normal b - offset)))
          * ((Dot normal a - offset) - (Dot normal b - offset)) := by
    simp only [Dot, Vec2.Add, MulSV, Vec2.Sub]
    ring
  rw [e, div_mul_cancel₀ _ hne, sub_self]

/-- C25: `ClipSegmentToLine` is safe and sound on every input: for every two-vertex input
segment, normal and offset it returns (no write past the two-slot output) with `numOut` in
`{0, 1, 2}`, the interpolation divisor `distance0 - distance1` is not zero when it is used, and
each of the `numOut` output vertices `v` satisfies `Dot(normal, v) - offset <= 0`, with
equality for the interpolated vertex, which is the second output vertex whenever the inputs
lie strictly on opposite sides. -/
theorem ClipSegmentToLine_safe_and_sound (vOut vIn : ClipPair α) (normal : Vec2 α) (offset : α)
    (clipEdge : EdgeNumbers) :
    ∃ (out : ClipPair α) (numOut : Nat),
      ClipSegmentToLine vOut vIn normal offset clipEdge = some (out, numOut) ∧
      numOut ≤ 2 ∧
      ((Dot normal vIn.1.v - offset) * (Dot normal vIn.2.v - offset) < 0 →
        (Dot normal vIn.1.v - offset) - (Dot normal vIn.2.v - offset) ≠ 0) ∧
      (1 ≤ numOut → Dot normal out.1.v - offset ≤ 0) ∧
      (2 ≤ numOut → Dot normal out.2.v - offset ≤ 0) ∧
      ((Dot normal vIn.1.v - offset) * (Dot normal vIn.2.v - offset) < 0 →
        numOut = 2 ∧
        out.2.v = vIn.1.v.Add (MulSV ((Dot normal vIn.1.v - offset)
          / ((Dot normal vIn.1.v - offset) - (Dot normal vIn.2.v - offset)))
          (vIn.2.v.Sub vIn.1.v)) ∧
        Dot normal out.2.v - offset = 0) := by
  have hne : (Dot normal vIn.1.v - offset) * (Dot normal vIn.2.v - offset) < 0 →
      (Dot normal vIn.1.v - offset) - (Dot normal vIn.2.v - offset) ≠ 0 := by
    intro hp he
    have e : Dot normal vIn.1.v - offset = Dot normal vIn.2.v - offset := by linarith
    rw [e] at hp
    exact absurd hp (not_lt.mpr (mul_self_nonneg _))
  by_cases h0 : Dot normal vIn.1.v - offset ≤ 0 <;>
  by_cases h1 : Dot normal vIn.2.v - offset ≤ 0
  · have hp : ¬ ((Dot normal vIn.1.v - offset) * (Dot normal vIn.2.v - offset) < 0) :=
      not_lt.mpr (mul_nonneg_of_nonpos_of_nonpos h0 h1)
    refine ⟨(vIn.1, vIn.2), 2, ?_, le_refl _, hne, fun _ => h0, fun _ => h1,
      fun h => absurd h hp⟩
    simp [ClipSegmentToLine, h0, h1, hp, ClipPair.set]
  · by_cases hp : (Dot normal vIn.1.v - offset) * (Dot normal vIn.2.v - offset) < 0
    · have hn0 : ¬ (0 < Dot normal vIn.1.v - offset) := not_lt.mpr h0
      refine ⟨(vIn.1, ⟨vIn.1.v.Add (MulSV ((Dot normal vIn.1.v - offset)
          / ((Dot normal vIn.1.v - offset) - (Dot normal vIn.2.v - offset)))
          (vIn.2.v.Sub vIn.1.v)),
          { vIn.2.fp with OutEdge1 := clipEdge, OutEdge2 := NO_EDGE }⟩), 2, ?_, le_refl _,
        hne, fun _ => h0, fun _ => (interp_on_line normal _ _ offset (hne hp)).le,
        fun _ => ⟨rfl, rfl, interp_on_line normal _ _ offset (hne hp)⟩⟩
      simp [ClipSegmentToLine, h0, h1, hp, hn0, ClipPair.set]
    · refine ⟨(vIn.1, vOut.2), 1, ?_, by omega, hne, fun _ => h0, fun h => by omega,
        fun h => absurd h hp⟩
      simp [ClipSegmentToLine, h0, h1, hp, ClipPair.set]
  · by_cases hp : (Dot normal vIn.1.v - offset) * (Dot normal vIn.2.v - offset) < 0
    · have hn0 : 0 < Dot normal vIn.1.v - offset := not_le.mp h0
      refine ⟨(vIn.2, ⟨vIn.1.v.Add (MulSV ((Dot normal vIn.1.v - offset)
          / ((Dot normal vIn.1.v - offset) - (Dot normal vIn.2.v - offset)))
          (vIn.2.v.Sub vIn.1.v)),
          { vIn.1.fp with InEdge1 := clipEdge, InEdge2 := NO_EDGE }⟩), 2, ?_, le_refl _,
        hne, fun _ => h1, fun _ => (interp_on_line normal _ _ offset (hne hp)).le,
        fun _ => ⟨rfl, rfl, interp_on_line normal _ _ offset (hne hp)⟩⟩
      simp [ClipSegmentToLine, h0, h1, hp, hn0, ClipPair.set]
    · refine ⟨(vIn.2, vOut.2), 1, ?_, by omega, hne, fun _ => h1, fun h => by omega,
        fun h => absurd h hp⟩
      simp [ClipSegmentToLine, h0, h1, hp, ClipPair.set]
  · have hp : ¬ ((Dot normal vIn.1.v - offset) * (Dot normal vIn.2.v - offset) < 0) :=
      not_lt.mpr (mul_pos (not_le.mp h0) (not_le.mp h1)).le
    refine ⟨vOut, 0, ?_, by omega, hne, fun h => by omega, fun h => by omega,
      fun h => absurd h hp⟩
    simp [ClipSegmentToLine, h0, h1, hp]

theorem ClipSegmentToLine_safe_and_sound_witness :
    (Dot (⟨1, 0⟩ : Vec2 ℚ) Sample.segment.1.v - 0)
      * (Dot (⟨1, 0⟩ : Vec2 ℚ) Sample.segment.2.v - 0) < 0 ∧
    ∃ (out : ClipPair ℚ) (numOut : Nat),
      ClipSegmentToLine (ClipVertex.zero, ClipVertex.zero) Sample.segment ⟨1, 0⟩ 0 EDGE3
        = some (out, numOut) ∧
      numOut = 2 ∧ Dot (⟨1, 0⟩ : Vec2 ℚ) out.1.v - 0 ≤ 0 ∧
      Dot (⟨1, 0⟩ : Vec2 ℚ) out.2.v - 0 = 0 := by
  have hp : (Dot (⟨1, 0⟩ : Vec2 ℚ) Sample.segment.1.v - 0)
      * (Dot (⟨1, 0⟩ : Vec2 ℚ) Sample.segment.2.v - 0) < 0 := by
    norm_num [Dot, Sample.segment]
  obtain ⟨out, n, h, -, -, h1, -, h3⟩ := ClipSegmentToLine_safe_and_sound
    (ClipVertex.zero, ClipVertex.zero) Sample.segment (⟨1, 0⟩ : Vec2 ℚ) 0 EDGE3
  obtain ⟨hn, -, hz⟩ := h3 hp
  exact ⟨hp, out, n, h, hn, h1 (by omega), hz⟩

end SafetyTheorems

section MomentumTheorems

variable {α : Type} [LinearOrderedField α]

theorem rest_mass (b c : Body α) (h : b.rest = c.rest) : b.Mass = c.Mass := by
  cases b; cases c
  simp only [Body.rest, Body.mk.injEq] at h
  simp only []
  tauto

/-- An impulse `P` taken from body 1 and given to body 2 keeps the total linear momentum when
`Mass * invMass = 1` for both bodies (also when the two are one body). -/
theorem applyToBodies_momentum (mem : BodyMem α) (b1 b2 : Nat) (r1 r2 P : Vec2 α)
    (h1 : (mem b1).Mass * (mem b1).invMass = 1) (h2 : (mem b2).Mass * (mem b2).invMass = 1) :
    momentum (applyToBodies mem b1 b2 r1 r2 P) b1 b2 = momentum mem b1 b2 := by
  by_cases h : b1 = b2
  · subst h
    simp only [momentum, applyToBodies, BodyMem.modify, if_true, Vec2.Add, Vec2.Sub, MulSV,
      Vec2.mk.injEq]
    constructor <;> ring
  · have h' : ¬ b2 = b1 := fun e => h e.symm
    simp only [momentum, applyToBodies, BodyMem.modify, if_true, h, h', if_false, Vec2.Add,
      Vec2.Sub, MulSV, Vec2.mk.injEq]
    constructor
    · linear_combination (-P.X) * h1 + P.X * h2
    · linear_combination (-P.Y) * h1 + P.Y * h2

/-- A dynamic body with `invMass = 1/Mass` has `Mass * invMass = 1`. -/
theorem dynamic_mass (b : Body α) (h : b.invMass = 1 / b.Mass) (hd : b.invMass ≠ 0) :
    b.Mass * b.invMass = 1 := by
  have hM : b.Mass ≠ 0 := by
    intro h0
    rw [h0, div_zero] at h
    exact hd h
  rw [h]
  field_simp

theorem momentum_step (mem0 mem : BodyMem α) (b1 b2 : Nat) (r1 r2 P : Vec2 α)
    (h1 : (mem0 b1).Mass * (mem0 b1).invMass = 1)
    (h2 : (mem0 b2).Mass * (mem0 b2).invMass = 1)
    (h : SameRest mem0 mem ∧ momentum mem b1 b2 = momentum mem0 b1 b2) :
    SameRest mem0 (applyToBodies mem b1 b2 r1 r2 P) ∧
      momentum (applyToBodies mem b1 b2 r1 r2 P) b1 b2 = momentum mem0 b1 b2 := by
  refine ⟨applyToBodies_sameRest mem0 mem _ _ _ _ _ h.1, ?_⟩
  rw [applyToBodies_momentum, h.2]
  · rw [rest_mass _ _ (h.1 b1), (rest_fields _ _ (h.1 b1)).2.2.1]; exact h1
  · rw [rest_mass _ _ (h.1 b2), (rest_fields _ _ (h.1 b2)).2.2.1]; exact h2

/-- C24: linear momentum conservation.  For an arbiter between two dynamic bodies
(`invMass_i = 1/Mass_i`, not zero), `Arbiter.PreStep` and `Arbiter.ApplyImpulse` leave the total
linear momentum `Mass1*Velocity1 + Mass2*Velocity2` unchanged, for every contact list, every
accumulated impulse and both settings of `accumulateImpulses`. -/
theorem linear_momentum_conserved (g : Globals) (a : Arbiter α) (inv_dt : α) (mem : BodyMem α)
    (h1 : (mem a.Body1).invMass = 1 / (mem a.Body1).Mass) (hd1 : (mem a.Body1).invMass ≠ 0)
    (h2 : (mem a.Body2).invMass = 1 / (mem a.Body2).Mass) (hd2 : (mem a.Body2).invMass ≠ 0) :
    momentum (a.PreStep g inv_dt mem).2 a.Body1 a.Body2 = momentum mem a.Body1 a.Body2 ∧
    momentum (a.ApplyImpulse g mem).2 a.Body1 a.Body2 = momentum mem a.Body1 a.Body2 := by
  have k1 := dynamic_mass _ h1 hd1
  have k2 := dynamic_mass _ h2 hd2
  have h0 : SameRest mem mem ∧ momentum mem a.Body1 a.Body2 = momentum mem a.Body1 a.Body2 :=
    ⟨fun _ => rfl, rfl⟩
  constructor
  · unfold Arbiter.PreStep
    simp only []
    refine (forContacts_inv _
      (fun mem1 => SameRest mem mem1 ∧
        momentum mem1 a.Body1 a.Body2 = momentum mem a.Body1 a.Body2) ?_ _ _ h0).2
    intro mem1 c hI
    unfold Arbiter.PreStep.contact
    cases hacc : g.accumulateImpulses
    · simp only [Bool.false_eq_true, if_false]
      exact hI
    · simp only [if_true]
      exact momentum_step mem mem1 _ _ _ _ _ k1 k2 hI
  · unfold Arbiter.ApplyImpulse
    simp only []
    refine (forContacts_inv _
      (fun mem1 => SameRest mem mem1 ∧
        momentum mem1 a.Body1 a.Body2 = momentum mem a.Body1 a.Body2) ?_ _ _ h0).2
    intro mem1 c hI
    unfold Arbiter.ApplyImpulse.contact
    simp only []
    apply momentum_step mem _ _ _ _ _ _ k1 k2
    exact momentum_step mem mem1 _ _ _ _ _ k1 k2 hI

theorem linear_momentum_conserved_witness :
    (Sample.mem Sample.arbiter.Body1).invMass = 1 / (Sample.mem Sample.arbiter.Body1).Mass ∧
    (Sample.mem Sample.arbiter.Body1).invMass ≠ 0 ∧
    (Sample.mem Sample.arbiter.Body2).invMass = 1 / (Sample.mem Sample.arbiter.Body2).Mass ∧
    (Sample.mem Sample.arbiter.Body2).invMass ≠ 0 ∧
    momentum (Sample.arbiter.ApplyImpulse Globals.default Sample.mem).2
        Sample.arbiter.Body1 Sample.arbiter.Body2
      = momentum Sample.mem Sample.arbiter.Body1 Sample.arbiter.Body2 := by
  have h1 : (Sample.mem Sample.arbiter.Body1).invMass
      = 1 / (Sample.mem Sample.arbiter.Body1).Mass := by
    norm_num [Sample.mem, Sample.arbiter, Sample.boxA, Sample.box]
  have hd1 : (Sample.mem Sample.arbiter.Body1).invMass ≠ 0 := by
    norm_num [Sample.mem, Sample.arbiter, Sample.boxA, Sample.box]
  have h2 : (Sample.mem Sample.arbiter.Body2).invMass
      = 1 / (Sample.mem Sample.arbiter.Body2).Mass := by
    norm_num [Sample.mem, Sample.arbiter, Sample.boxB, Sample.box]
  have hd2 : (Sample.mem Sample.arbiter.Body2).invMass ≠ 0 := by
    norm_num [Sample.mem, Sample.arbiter, Sample.boxB, Sample.box]
  exact ⟨h1, hd1, h2, hd2,
    (linear_momentum_conserved Globals.default Sample.arbiter 60 Sample.mem h1 hd1 h2 hd2).2⟩

end MomentumTheorems

section SolverTheorems

variable {α : Type} [LinearOrderedField α]

/-- The velocities of two distinct bodies after an impulse `P` is applied to them. -/
theorem applyToBodies_at (mem : BodyMem α) (b1 b2 : Nat) (r1 r2 P : Vec2 α) (hne : b1 ≠ b2) :
    ((applyToBodies mem b1 b2 r1 r2 P) b1).Velocity
      = (mem b1).Velocity.Sub (MulSV (mem b1).invMass P) ∧
    ((applyToBodies mem b1 b2 r1 r2 P) b1).AngularVelocity
      = (mem b1).AngularVelocity - (mem b1).invI * CrossVV r1 P ∧
    ((applyToBodies mem b1 b2 r1 r2 P) b2).Velocity
      = (mem b2).Velocity.Add (MulSV (mem b2).invMass P) ∧
    ((applyToBodies mem b1 b2 r1 r2 P) b2).AngularVelocity
      = (mem b2).AngularVelocity + (mem b2).invI * CrossVV r2 P := by
  have hne' : ¬ b2 = b1 := fun e => hne e.symm
  simp only [applyToBodies, BodyMem.modify, if_true, hne, hne', if_false, and_self]

/-- The change of the relative velocity of two points of two distinct bodies by an impulse. -/
theorem relVelocity_apply (mem : BodyMem α) (b1 b2 : Nat) (r1 r2 P : Vec2 α) (hne : b1 ≠ b2) :
    relVelocity (applyToBodies mem b1 b2 r1 r2 P) b1 b2 r1 r2
      = ⟨(relVelocity mem b1 b2 r1 r2).X + ((mem b1).invMass + (mem b2).invMass) * P.X
          - (mem b2).invI * CrossVV r2 P * r2.Y - (mem b1).invI * CrossVV r1 P * r1.Y,
         (relVelocity mem b1 b2 r1 r2).Y + ((mem b1).invMass + (mem b2).invMass) * P.Y
          + (mem b2).invI * CrossVV r2 P * r2.X + (mem b1).invI * CrossVV r1 P * r1.X⟩ := by
  obtain ⟨h1, h2, h3, h4⟩ := applyToBodies_at mem b1 b2 r1 r2 P hne
  simp only [relVelocity, h1, h2, h3, h4, Vec2.Add, Vec2.Sub, MulSV, CrossSV, Vec2.mk.injEq]
  constructor <;> ring

theorem MulM_MulV (k M : Mat22 α) (h : k.MulM M = ⟨⟨1, 0⟩, ⟨0, 1⟩⟩) (x : Vec2 α) :
    k.MulV (M.MulV x) = x := by
  simp only [Mat22.MulM, Mat22.MulV, Mat22.mk.injEq, Vec2.mk.injEq] at h
  obtain ⟨⟨e1, e2⟩, e3, e4⟩ := h
  cases x with
  | mk x y =>
    simp only [Mat22.MulV, Vec2.mk.injEq]
    constructor
    · linear_combination x * e1 + y * e3
    · linear_combination x * e2 + y * e4

/-- The change of the relative velocity of the anchor points of a joint between two distinct
bodies by an impulse, through the matrix `K` of `Joint.PreStep`. -/
theorem relVelocity_joint (j : Joint α) (mem : BodyMem α) (hne : j.Body1 ≠ j.Body2)
    (P : Vec2 α) :
    relVelocity (applyToBodies mem j.Body1 j.Body2 j.R1 j.R2 P) j.Body1 j.Body2 j.R1 j.R2
      = ((relVelocity mem j.Body1 j.Body2 j.R1 j.R2).Add
          ((Joint.PreStep.K j mem).MulV P)).Sub (MulSV j.Softness P) := by
  rw [relVelocity_apply _ _ _ _ _ _ hne]
  simp only [Joint.PreStep.K, Mat22.Add, Mat22.MulV, Vec2.Add, Vec2.Sub, MulSV, CrossVV,
    Vec2.mk.injEq]
  constructor <;> ring

/-- What `Joint.PreStep` stores in the joint. -/
theorem Joint_PreStep_fields (m : MathLib α) (g : Globals) (j : Joint α) (inv_dt : α)
    (mem : BodyMem α) (r : Joint α × BodyMem α) (h : j.PreStep m g inv_dt mem = some r) :
    r.1.R1 = (Joint.PreStep.anchored m j mem).R1 ∧
    r.1.R2 = (Joint.PreStep.anchored m j mem).R2 ∧
    r.1.Body1 = j.Body1 ∧ r.1.Body2 = j.Body2 ∧ r.1.Softness = j.Softness := by
  unfold Joint.PreStep at h
  simp only [Option.map_eq_some'] at h
  obtain ⟨M, -, rfl⟩ := h
  unfold Joint.PreStep.anchored
  split_ifs <;> exact ⟨rfl, rfl, rfl, rfl, rfl⟩

/-- C22 (as amended): `Joint.ApplyImpulse` solves the point constraint exactly for a joint
between two distinct bodies: if `R1`, `R2`, `Bias` and `M` were set by `Joint.PreStep` (which
returns, so `det K` is not zero) and the bodies have not moved since (their velocities and the
accumulated impulse `P` may have changed), then after one `ApplyImpulse` the relative velocity
of the anchor points is `v2 + w2 x R2 - v1 - w1 x R1 = Bias - Softness * P`, with `P` the
accumulated impulse after the call; so it equals `Bias` when `Softness = 0`. -/
theorem Joint_ApplyImpulse_solves (m : MathLib α) (g : Globals) (j : Joint α) (inv_dt : α)
    (mem : BodyMem α) (r : Joint α × BodyMem α) (hpre : j.PreStep m g inv_dt mem = some r)
    (hne : j.Body1 ≠ j.Body2) (mem1 : BodyMem α) (hsame : SameRest mem mem1) (P : Vec2 α) :
    (Joint.K m j mem).det ≠ 0 ∧
    relVelocity (Joint.ApplyImpulse { r.1 with P := P } mem1).2 j.Body1 j.Body2 r.1.R1 r.1.R2
      = r.1.Bias.Sub (MulSV j.Softness (Joint.ApplyImpulse { r.1 with P := P } mem1).1.P) ∧
    (j.Softness = 0 →
      relVelocity (Joint.ApplyImpulse { r.1 with P := P } mem1).2 j.Body1 j.Body2
        r.1.R1 r.1.R2 = r.1.Bias) := by
  have hdet : (Joint.K m j mem).det ≠ 0 := by
    intro h0
    rw [(Joint_PreStep_none_iff m g j inv_dt mem).mpr h0] at hpre
    cases hpre
  obtain ⟨e1, e2, e3, e4, e5⟩ := Joint_PreStep_fields m g j inv_dt mem r hpre
  have hKM := Invert_mul_of_symm _ _ (Joint_K_symm m j mem)
    (Joint_PreStep_M m g j inv_dt mem r hpre)
  have f1 := rest_fields _ _ (hsame j.Body1)
  have f2 := rest_fields _ _ (hsame j.Body2)
  have hK : Joint.PreStep.K { r.1 with P := P } mem1 = Joint.K m j mem := by
    simp only [Joint.K, Joint.PreStep.K, e1, e2, e3, e4, e5, f1.2.2.1, f1.2.2.2.1, f2.2.2.1,
      f2.2.2.2.1]
    rfl
  have hne1 : ({ r.1 with P := P } : Joint α).Body1 ≠ ({ r.1 with P := P } : Joint α).Body2 := by
    show r.1.Body1 ≠ r.1.Body2
    rw [e3, e4]; exact hne
  have main : relVelocity (Joint.ApplyImpulse { r.1 with P := P } mem1).2 j.Body1 j.Body2
      r.1.R1 r.1.R2
      = r.1.Bias.Sub (MulSV j.Softness (Joint.ApplyImpulse { r.1 with P := P } mem1).1.P) := by
    have h := relVelocity_joint { r.1 with P := P } mem1 hne1
      (r.1.M.MulV ((r.1.Bias.Sub (relVelocity mem1 r.1.Body1 r.1.Body2 r.1.R1 r.1.R2)).Sub
        (MulSV r.1.Softness P)))
    rw [hK, MulM_MulV _ _ hKM] at h
    have key : ∀ dv imp : Vec2 α,
        (dv.Add ((r.1.Bias.Sub dv).Sub (MulSV r.1.Softness P))).Sub (MulSV r.1.Softness imp)
          = r.1.Bias.Sub (MulSV r.1.Softness (P.Add imp)) := by
      intro dv imp
      simp only [Vec2.Add, Vec2.Sub, MulSV, Vec2.mk.injEq]
      constructor <;> ring
    rw [← e3, ← e4, ← e5]
    exact h.trans (key _ _)
  refine ⟨hdet, main, ?_⟩
  intro hs
  rw [main, hs]
  simp [Vec2.Sub, MulSV]

theorem Joint_ApplyImpulse_solves_witness :
    ∃ r, (Sample.ground.joint 0).PreStep Sample.math Globals.default 60 Sample.mem = some r ∧
      (Sample.ground.joint 0).Body1 ≠ (Sample.ground.joint 0).Body2 ∧
      SameRest Sample.mem r.2 ∧
      relVelocity (Joint.ApplyImpulse { r.1 with P := r.1.P } r.2).2
          (Sample.ground.joint 0).Body1 (Sample.ground.joint 0).Body2 r.1.R1 r.1.R2
        = r.1.Bias.Sub (MulSV (Sample.ground.joint 0).Softness
            (Joint.ApplyImpulse { r.1 with P := r.1.P } r.2).1.P) := by
  have hd : (Joint.K Sample.math (Sample.ground.joint 0) Sample.mem).det ≠ 0 := by
    norm_num [Joint.K, Joint.PreStep.K, Joint.PreStep.anchored, Mat22.Add, Vec2.Add, Mat22.det,
      Sample.ground, Sample.mem, Sample.boxA, Sample.boxB, Sample.box, Sample.math,
      Mat22ByAngle, Mat22.MulV]
  have hne : (Sample.ground.joint 0).Body1 ≠ (Sample.ground.joint 0).Body2 := by
    simp [Sample.ground]
  cases hp : (Sample.ground.joint 0).PreStep Sample.math Globals.default 60 Sample.mem with
  | none =>
    exact absurd ((Joint_PreStep_none_iff _ _ _ _ _).mp hp) hd
  | some r =>
    have hs := (Joint_PreStep_sameRest Sample.mem Sample.math Globals.default _ 60 Sample.mem r
      hp (fun _ => rfl)).1
    exact ⟨r, rfl, hne, hs,
      (Joint_ApplyImpulse_solves Sample.math Globals.default _ 60 Sample.mem r hp hne r.2 hs
        r.1.P).2.1⟩

/-- C22, counterexample: a joint from the body at address `1` (at `(1, 0)`, unrotated, unit
inverse mass and inertia, at rest) to itself with local anchors `(0, 0)` and `(1, 0)`:
`PreStep(60)` returns (`K = diag(2, 3)`) with `Bias = (-12, 0)`, and after `ApplyImpulse` the
relative velocity of the anchor points is `(0, 0)`, not `Bias - Softness * P = (-12, 0)`: the
two impulses on the one body cancel. -/
theorem Joint_ApplyImpulse_self_joint :
    ∃ r, Sample.selfJoint.PreStep Sample.math Globals.default 60 Sample.mem = some r ∧
      (Joint.K Sample.math Sample.selfJoint Sample.mem).det ≠ 0 ∧
      relVelocity (r.1.ApplyImpulse r.2).2 Sample.selfJoint.Body1 Sample.selfJoint.Body2
        r.1.R1 r.1.R2 = ⟨0, 0⟩ ∧
      r.1.Bias.Sub (MulSV Sample.selfJoint.Softness (r.1.ApplyImpulse r.2).1.P) = ⟨-12, 0⟩ ∧
      relVelocity (r.1.ApplyImpulse r.2).2 Sample.selfJoint.Body1 Sample.selfJoint.Body2
          r.1.R1 r.1.R2
        ≠ r.1.Bias.Sub (MulSV Sample.selfJoint.Softness (r.1.ApplyImpulse r.2).1.P) := by
  simp [Joint.PreStep, Joint.PreStep.K, Mat22.Add, Vec2.Add, Mat22.Invert,
      Sample.selfJoint, Sample.mem, Sample.boxB, Sample.box, Sample.math,
      Mat22ByAngle, Mat22.MulV, Globals.default, Joint.ApplyImpulse, applyToBodies,
      BodyMem.modify, relVelocity, Vec2.Sub, MulSV, CrossSV, CrossVV]
  refine ⟨_, ⟨by norm_num, rfl⟩, ?_, rfl, by norm_num⟩
  norm_num [Joint.K, Joint.PreStep.K, Joint.PreStep.anchored, Mat22.Add, Vec2.Add, Mat22.det,
    Sample.mem, Sample.boxB, Sample.box, Mat22ByAngle, Mat22.MulV]

end SolverTheorems

section NormalMassTheorems

variable {α : Type} [LinearOrderedField α]

/-- The change of the relative normal velocity of two distinct bodies by an impulse `d * n`. -/
theorem normal_gain (mem : BodyMem α) (b1 b2 : Nat) (r1 r2 n : Vec2 α) (d : α)
    (hne : b1 ≠ b2) :
    Dot (relVelocity (applyToBodies mem b1 b2 r1 r2 (MulSV d n)) b1 b2 r1 r2) n
      = Dot (relVelocity mem b1 b2 r1 r2) n
        + d * (((mem b1).invMass + (mem b2).invMass) * Dot n n
          + (mem b1).invI * (CrossVV r1 n) ^ 2 + (mem b2).invI * (CrossVV r2 n) ^ 2) := by
  rw [relVelocity_apply _ _ _ _ _ _ hne]
  simp only [Dot, MulSV, CrossVV]
  ring

/-- A zero impulse leaves the relative velocity as it is. -/
theorem zero_impulse (mem : BodyMem α) (b1 b2 : Nat) (r1 r2 t : Vec2 α) (hne : b1 ≠ b2) :
    relVelocity (applyToBodies mem b1 b2 r1 r2 (MulSV 0 t)) b1 b2 r1 r2
      = relVelocity mem b1 b2 r1 r2 := by
  rw [relVelocity_apply _ _ _ _ _ _ hne]
  cases h : relVelocity mem b1 b2 r1 r2
  simp only [MulSV, CrossVV, Vec2.mk.injEq]
  constructor <;> ring

/-- For a unit normal `kNormal` is the gain of the relative normal velocity per unit of normal
impulse. -/
theorem kNormal_unit (a : Arbiter α) (mem : BodyMem α) (c : Contact α)
    (hn : Dot c.Normal c.Normal = 1) :
    Arbiter.PreStep.kNormal a mem c
      = ((mem a.Body1).invMass + (mem a.Body2).invMass) * Dot c.Normal c.Normal
        + (mem a.Body1).invI * (CrossVV (c.Position.Sub (mem a.Body1).Position) c.Normal) ^ 2
        + (mem a.Body2).invI
          * (CrossVV (c.Position.Sub (mem a.Body2).Position) c.Normal) ^ 2 := by
  simp only [Arbiter.PreStep.kNormal, Dot, CrossVV] at hn ⊢
  linear_combination
    (-((mem a.Body1).invMass + (mem a.Body2).invMass
      + (mem a.Body1).invI
        * ((c.Position.Sub (mem a.Body1).Position).X * (c.Position.Sub (mem a.Body1).Position).X
          + (c.Position.Sub (mem a.Body1).Position).Y
            * (c.Position.Sub (mem a.Body1).Position).Y)
      + (mem a.Body2).invI
        * ((c.Position.Sub (mem a.Body2).Position).X * (c.Position.Sub (mem a.Body2).Position).X
          + (c.Position.Sub (mem a.Body2).Position).Y
            * (c.Position.Sub (mem a.Body2).Position).Y))) * hn

/-- One contact of `Arbiter.ApplyImpulse` without friction, between two distinct bodies, with
the normal mass `1/kNormal` and an unclamped accumulator: the relative normal velocity becomes
`Bias`. -/
theorem ApplyImpulse_contact_normal (g : Globals) (hacc : g.accumulateImpulses = true)
    (a : Arbiter α) (hfr : a.Friction = 0) (hne : a.Body1 ≠ a.Body2) (mem : BodyMem α)
    (c : Contact α) (hpt : c.Pt = 0) (hn : Dot c.Normal c.Normal = 1)
    (hk : Arbiter.PreStep.kNormal a mem c ≠ 0)
    (hM : c.MassNormal = 1 / Arbiter.PreStep.kNormal a mem c)
    (hclamp : 0 ≤ c.Pn + c.MassNormal
      * (-Dot (relVelocity mem a.Body1 a.Body2 (c.Position.Sub (mem a.Body1).Position)
          (c.Position.Sub (mem a.Body2).Position)) c.Normal + c.Bias)) :
    Dot (relVelocity (Arbiter.ApplyImpulse.contact g a mem c).2 a.Body1 a.Body2
        (c.Position.Sub (mem a.Body1).Position) (c.Position.Sub (mem a.Body2).Position))
      c.Normal = c.Bias := by
  have e : (Arbiter.ApplyImpulse.contact g a mem c).2
      = applyToBodies
          (applyToBodies mem a.Body1 a.Body2 (c.Position.Sub (mem a.Body1).Position)
            (c.Position.Sub (mem a.Body2).Position)
            (MulSV (c.MassNormal
              * (-Dot (relVelocity mem a.Body1 a.Body2 (c.Position.Sub (mem a.Body1).Position)
                  (c.Position.Sub (mem a.Body2).Position)) c.Normal + c.Bias)) c.Normal))
          a.Body1 a.Body2 (c.Position.Sub (mem a.Body1).Position)
          (c.Position.Sub (mem a.Body2).Position) (MulSV 0 (CrossVS c.Normal 1)) := by
    unfold Arbiter.ApplyImpulse.contact
    simp only [hacc, if_true, hfr, hpt, zero_add, Clamp_zero, sub_zero, max_eq_left hclamp,
      add_sub_cancel_left]
  rw [e, zero_impulse _ _ _ _ _ _ hne, normal_gain _ _ _ _ _ _ _ hne,
    ← kNormal_unit a mem c hn, hM]
  field_simp

/-- C23 (as amended): the normal effective mass is the right one for an arbiter between two
distinct bodies: with a single contact with unit normal, `Friction = 0` and `Pt = 0`,
`accumulateImpulses` on, `MassNormal` and `Bias` as set by `Arbiter.PreStep` at the current
body positions with `kNormal` not zero, if the normal accumulator is not clamped
(`Pn + dPn >= 0`) then after `Arbiter.ApplyImpulse` the relative normal velocity at the
contact, `Dot(v2 + w2 x r2 - v1 - w1 x r1, n)`, equals `Bias`. -/
theorem normal_mass_correct (g : Globals) (hacc : g.accumulateImpulses = true)
    (a : Arbiter α) (c : Contact α) (inv_dt : α) (mem mem1 : BodyMem α)
    (hcs : a.Contacts = [c]) (hne : a.Body1 ≠ a.Body2) (hn : Dot c.Normal c.Normal = 1)
    (hfr : a.Friction = 0) (hpt : c.Pt = 0) (hk : Arbiter.PreStep.kNormal a mem c ≠ 0)
    (hsame : SameRest mem mem1) :
    ∃ c1, (a.PreStep g inv_dt mem).1.Contacts = [c1] ∧
      c1.MassNormal = 1 / Arbiter.PreStep.kNormal a mem c ∧
      c1.Bias = -(if g.positionCorrection = true then 2 / 10 else 0) * inv_dt
        * min 0 (c.Separation + 1 / 100) ∧
      c1.Pn = c.Pn ∧
      (0 ≤ c1.Pn + c1.MassNormal
          * (-Dot (relVelocity mem1 a.Body1 a.Body2 (c.Position.Sub (mem a.Body1).Position)
              (c.Position.Sub (mem a.Body2).Position)) c.Normal + c1.Bias) →
        Dot (relVelocity ((a.PreStep g inv_dt mem).1.ApplyImpulse g mem1).2 a.Body1 a.Body2
            (c.Position.Sub (mem a.Body1).Position) (c.Position.Sub (mem a.Body2).Position))
          c.Normal = c1.Bias) := by
  have f1 := rest_fields _ _ (hsame a.Body1)
  have f2 := rest_fields _ _ (hsame a.Body2)
  have hc1 : (a.PreStep g inv_dt mem).1.Contacts
      = [(Arbiter.PreStep.contact g a inv_dt (1 / 100)
          (if g.positionCorrection = true then 2 / 10 else 0) mem c).1] := by
    simp only [Arbiter.PreStep, hcs, forContacts]
  have hfields : ∀ kp kb : α,
      (Arbiter.PreStep.contact g a inv_dt kp kb mem c).1.Position = c.Position ∧
      (Arbiter.PreStep.contact g a inv_dt kp kb mem c).1.Normal = c.Normal ∧
      (Arbiter.PreStep.contact g a inv_dt kp kb mem c).1.Pn = c.Pn ∧
      (Arbiter.PreStep.contact g a inv_dt kp kb mem c).1.Pt = c.Pt ∧
      (Arbiter.PreStep.contact g a inv_dt kp kb mem c).1.Bias
        = -kb * inv_dt * min 0 (c.Separation + kp) := by
    intro kp kb
    unfold Arbiter.PreStep.contact
    simp only [hacc, if_true, and_self]
  obtain ⟨p1, p2, p3, p4, p5⟩ := hfields (1 / 100)
    (if g.positionCorrection = true then 2 / 10 else 0)
  have hmass := (PreStep_contact_masses g a inv_dt (1 / 100)
    (if g.positionCorrection = true then 2 / 10 else 0) mem c).1
  refine ⟨_, hc1, hmass, p5, p3, ?_⟩
  intro hclamp
  have hk1 : ∀ x : Contact α, x.Position = c.Position → x.Normal = c.Normal →
      Arbiter.PreStep.kNormal { a with Contacts := [x] } mem1 x
        = Arbiter.PreStep.kNormal a mem c := by
    intro x hx1 hx2
    simp only [Arbiter.PreStep.kNormal, hx1, hx2, f1.1, f1.2.2.1, f1.2.2.2.1, f2.1, f2.2.2.1,
      f2.2.2.2.1]
  have happ : ((a.PreStep g inv_dt mem).1.ApplyImpulse g mem1).2
      = (Arbiter.ApplyImpulse.contact g
          { a with Contacts := [(Arbiter.PreStep.contact g a inv_dt (1 / 100)
            (if g.positionCorrection = true then 2 / 10 else 0) mem c).1] } mem1
          (Arbiter.PreStep.contact g a inv_dt (1 / 100)
            (if g.positionCorrection = true then 2 / 10 else 0) mem c).1).2 := by
    simp only [Arbiter.ApplyImpulse, Arbiter.PreStep, hcs, forContacts]
  rw [happ]
  have h := ApplyImpulse_contact_normal g hacc
    { a with Contacts := [(Arbiter.PreStep.contact g a inv_dt (1 / 100)
      (if g.positionCorrection = true then 2 / 10 else 0) mem c).1] } hfr hne mem1
    (Arbiter.PreStep.contact g a inv_dt (1 / 100)
      (if g.positionCorrection = true then 2 / 10 else 0) mem c).1
    (p4.trans hpt) (by rw [p2]; exact hn)
    (by rw [hk1 _ p1 p2]; exact hk) (by rw [hk1 _ p1 p2]; exact hmass)
  simp only [p1, p2, f1.1, f2.1] at h
  exact h hclamp

theorem normal_mass_correct_witness :
    ∃ c1, (Sample.single.PreStep Globals.default 60 Sample.mem).1.Contacts = [c1] ∧
      Sample.single.Body1 ≠ Sample.single.Body2 ∧
      Dot Sample.contact1.Normal Sample.contact1.Normal = 1 ∧
      Arbiter.PreStep.kNormal Sample.single Sample.mem Sample.contact1 ≠ 0 ∧
      0 ≤ c1.Pn + c1.MassNormal
        * (-Dot (relVelocity Sample.mem Sample.single.Body1 Sample.single.Body2
            (Sample.contact1.Position.Sub (Sample.mem Sample.single.Body1).Position)
            (Sample.contact1.Position.Sub (Sample.mem Sample.single.Body2).Position))
            Sample.contact1.Normal + c1.Bias) ∧
      Dot (relVelocity ((Sample.single.PreStep Globals.default 60 Sample.mem).1.ApplyImpulse
            Globals.default Sample.mem).2 Sample.single.Body1 Sample.single.Body2
          (Sample.contact1.Position.Sub (Sample.mem Sample.single.Body1).Position)
          (Sample.contact1.Position.Sub (Sample.mem Sample.single.Body2).Position))
        Sample.contact1.Normal = c1.Bias := by
  have hne : Sample.single.Body1 ≠ Sample.single.Body2 := by simp [Sample.single]
  have hn : Dot Sample.contact1.Normal Sample.contact1.Normal = 1 := by
    norm_num [Dot, Sample.contact1]
  have hk : Arbiter.PreStep.kNormal Sample.single Sample.mem Sample.contact1 = 4 := by
    norm_num [Arbiter.PreStep.kNormal, Sample.single, Sample.mem, Sample.contact1,
      Sample.boxA, Sample.boxB, Sample.box, Dot, Vec2.Sub]
  have hk0 : Arbiter.PreStep.kNormal Sample.single Sample.mem Sample.contact1 ≠ 0 := by
    rw [hk]; norm_num
  obtain ⟨c1, h1, h2, h3, h4, h5⟩ := normal_mass_correct Globals.default rfl Sample.single
    Sample.contact1 60 Sample.mem Sample.mem rfl hne hn rfl rfl hk0 (fun _ => rfl)
  have hclamp : 0 ≤ c1.Pn + c1.MassNormal
      * (-Dot (relVelocity Sample.mem Sample.single.Body1 Sample.single.Body2
          (Sample.contact1.Position.Sub (Sample.mem Sample.single.Body1).Position)
          (Sample.contact1.Position.Sub (Sample.mem Sample.single.Body2).Position))
          Sample.contact1.Normal + c1.Bias) := by
    rw [h4, h2, h3, hk]
    norm_num [relVelocity, Sample.single, Sample.mem, Sample.contact1, Sample.boxA,
      Sample.boxB, Sample.box, Dot, Vec2.Sub, Vec2.Add, CrossSV, Globals.default,
      Contact.zero]
  exact ⟨c1, h1, hne, hn, hk0, hclamp, h5 hclamp⟩

/-- C23, counterexample: the frictionless arbiter of the body at address `0` with itself
(`Body1 = Body2`; unit inverse mass and inertia, at rest at the origin) with the single contact
at `(1, 1)`, normal `(1, 0)`, separation `-1`, `Pn = Pt = 0`: `PreStep(60)` sets
`MassNormal = 1/4` and `Bias = 297/25`, the accumulator is not clamped, and after
`ApplyImpulse` the relative normal velocity is `0`, not `Bias`: the two impulses on the one body
cancel. -/
theorem normal_mass_self_arbiter :
    ∃ c1, (Sample.selfArbiter.PreStep Globals.default 60 Sample.mem).1.Contacts = [c1] ∧
      Dot Sample.contact1.Normal Sample.contact1.Normal = 1 ∧
      Sample.selfArbiter.Friction = 0 ∧ Sample.contact1.Pt = 0 ∧
      Arbiter.PreStep.kNormal Sample.selfArbiter Sample.mem Sample.contact1 = 4 ∧
      c1.MassNormal = 1 / 4 ∧ c1.Bias = 297 / 25 ∧
      0 ≤ c1.Pn + c1.MassNormal
        * (-Dot (relVelocity (Sample.selfArbiter.PreStep Globals.default 60 Sample.mem).2
            Sample.selfArbiter.Body1 Sample.selfArbiter.Body2
            (Sample.contact1.Position.Sub (Sample.mem Sample.selfArbiter.Body1).Position)
            (Sample.contact1.Position.Sub (Sample.mem Sample.selfArbiter.Body2).Position))
            Sample.contact1.Normal + c1.Bias) ∧
      Dot (relVelocity ((Sample.selfArbiter.PreStep Globals.default 60 Sample.mem).1.ApplyImpulse
            Globals.default (Sample.selfArbiter.PreStep Globals.default 60 Sample.mem).2).2
          Sample.selfArbiter.Body1 Sample.selfArbiter.Body2
          (Sample.contact1.Position.Sub (Sample.mem Sample.selfArbiter.Body1).Position)
          (Sample.contact1.Position.Sub (Sample.mem Sample.selfArbiter.Body2).Position))
        Sample.contact1.Normal = 0 ∧
      Dot (relVelocity ((Sample.selfArbiter.PreStep Globals.default 60 Sample.mem).1.ApplyImpulse
            Globals.default (Sample.selfArbiter.PreStep Globals.default 60 Sample.mem).2).2
          Sample.selfArbiter.Body1 Sample.selfArbiter.Body2
          (Sample.contact1.Position.Sub (Sample.mem Sample.selfArbiter.Body1).Position)
          (Sample.contact1.Position.Sub (Sample.mem Sample.selfArbiter.Body2).Position))
        Sample.contact1.Normal ≠ c1.Bias := by
  have hrel : ∀ (mem : BodyMem ℚ) (r : Vec2 ℚ), relVelocity mem 0 0 r r = ⟨0, 0⟩ := by
    intro mem r
    simp [relVelocity, Vec2.Add, Vec2.Sub]
  have hk : Arbiter.PreStep.kNormal Sample.selfArbiter Sample.mem Sample.contact1 = 4 := by
    norm_num [Arbiter.PreStep.kNormal, Sample.selfArbiter, Sample.mem, Sample.contact1,
      Sample.boxA, Sample.box, Dot, Vec2.Sub]
  have hm := (PreStep_contact_masses Globals.default Sample.selfArbiter 60 (1 / 100)
    (if Globals.default.positionCorrection = true then 2 / 10 else 0) Sample.mem
    Sample.contact1).1
  rw [hk] at hm
  have hb : (Arbiter.PreStep.contact Globals.default Sample.selfArbiter 60 (1 / 100)
      (if Globals.default.positionCorrection = true then 2 / 10 else 0) Sample.mem
      Sample.contact1).1.Bias = 297 / 25 := by
    norm_num [Arbiter.PreStep.contact, Globals.default, Sample.contact1, Contact.zero]
  have hp : (Arbiter.PreStep.contact Globals.default Sample.selfArbiter 60 (1 / 100)
      (if Globals.default.positionCorrection = true then 2 / 10 else 0) Sample.mem
      Sample.contact1).1.Pn = 0 := by
    norm_num [Arbiter.PreStep.contact, Globals.default, Sample.contact1, Contact.zero]
  have e0 : Sample.selfArbiter.Body1 = 0 := rfl
  have e1 : Sample.selfArbiter.Body2 = 0 := rfl
  have er : Sample.contact1.Position.Sub (Sample.mem Sample.selfArbiter.Body1).Position
      = Sample.contact1.Position.Sub (Sample.mem Sample.selfArbiter.Body2).Position := rfl
  refine ⟨_, rfl, by norm_num [Dot, Sample.contact1], rfl, rfl, hk, hm, hb, ?_, ?_, ?_⟩
  · rw [e0, e1, hrel, hp, hm, hb]
    norm_num [Dot]
  · rw [e0, e1, hrel]
    norm_num [Dot]
  · rw [e0, e1, hrel, hb]
    norm_num [Dot]

end NormalMassTheorems

section RestingTheorems

variable {α : Type} [LinearOrderedField α]

/-- The function `Collide` in terms of the quantities named for two bodies. -/
theorem Collide_eq (m : MathLib α) (A B : Body α) :
    Collide m A B
      = if (Collide.faceA m A B).X > 0 ∨ (Collide.faceA m A B).Y > 0 then some []
        else if (Collide.faceB m A B).X > 0 ∨ (Collide.faceB m A B).Y > 0 then some []
        else
          (ClipSegmentToLine (ClipVertex.zero, ClipVertex.zero)
            (Collide.setup m A B).incidentEdge (Collide.setup m A B).sideNormal.Negative
            (Collide.setup m A B).negSide (Collide.setup m A B).negEdge).bind fun r1 =>
          if r1.2 < 2 then some []
          else
            (ClipSegmentToLine (ClipVertex.zero, ClipVertex.zero) r1.1
              (Collide.setup m A B).sideNormal (Collide.setup m A B).posSide
              (Collide.setup m A B).posEdge).bind fun r2 =>
            if r2.2 < 2 then some []
            else
              some ([r2.1.1, r2.1.2].foldl
                (Collide.emit (Collide.best m A B).axis (Collide.best m A B).normal
                  (Collide.setup m A B).frontNormal (Collide.setup m A B).front) []) := by
  rfl

/-- Both ends of a segment behind the clip line: the segment is kept as it is. -/
theorem clip_keep_both (vOut vIn : ClipPair α) (normal : Vec2 α) (offset : α)
    (clipEdge : EdgeNumbers) (h0 : Dot normal vIn.1.v - offset ≤ 0)
    (h1 : Dot normal vIn.2.v - offset ≤ 0) :
    ClipSegmentToLine vOut vIn normal offset clipEdge = some ((vIn.1, vIn.2), 2) := by
  have hp : ¬ ((Dot normal vIn.1.v - offset) * (Dot normal vIn.2.v - offset) < 0) :=
    not_lt.mpr (mul_nonneg_of_nonpos_of_nonpos h0 h1)
  simp [ClipSegmentToLine, h0, h1, hp, ClipPair.set]

theorem resting_faces (m : MathLib α) (hc : m.Cos 0 = 1) (hs : m.Sin 0 = 0) (A B : Body α)
    (x p : α) (hA : A.Position = ⟨0, -10⟩ ∧ A.Rotation = 0 ∧ A.Width = ⟨100, 20⟩)
    (hB : B.Position = ⟨x, 1 / 2 - p⟩ ∧ B.Rotation = 0 ∧ B.Width = ⟨1, 1⟩)
    (hp1 : p ≤ 1 / 2) :
    Collide.faceA m A B = ⟨|x| - 101 / 2, -p⟩ ∧ Collide.faceB m A B = ⟨|x| - 101 / 2, -p⟩ := by
  constructor
  · simp [Collide.faceA, hA.1, hA.2.1, hA.2.2, hB.1, hB.2.1, hB.2.2, hc, hs, Mat22ByAngle,
      Mat22.Transpose, Mat22.MulV, Mat22.MulM, Mat22.Abs, Vec2.Abs, Vec2.Sub, MulSV]
    constructor
    · ring
    · rw [abs_of_nonneg]
      · ring
      · linarith
  · simp [Collide.faceB, hA.1, hA.2.1, hA.2.2, hB.1, hB.2.1, hB.2.2, hc, hs, Mat22ByAngle,
      Mat22.Transpose, Mat22.MulV, Mat22.MulM, Mat22.Abs, Vec2.Abs, Vec2.Sub, MulSV]
    constructor
    · ring
    · rw [abs_of_nonneg]
      · ring
      · linarith

theorem resting_best (m : MathLib α) (hc : m.Cos 0 = 1) (hs : m.Sin 0 = 0) (A B : Body α)
    (x p : α) (hA : A.Position = ⟨0, -10⟩ ∧ A.Rotation = 0 ∧ A.Width = ⟨100, 20⟩)
    (hB : B.Position = ⟨x, 1 / 2 - p⟩ ∧ B.Rotation = 0 ∧ B.Width = ⟨1, 1⟩)
    (hx : |x| ≤ 49) (hp0 : 0 ≤ p) (hp1 : p ≤ 1 / 2) :
    Collide.best m A B = ⟨FACE_A_Y, -p, ⟨0, 1⟩⟩ := by
  obtain ⟨hfA, hfB⟩ := resting_faces m hc hs A B x p hA hB hp1
  unfold Collide.best
  rw [hfA, hfB]
  simp only [Collide.bestAxis, hA.1, hA.2.1, hA.2.2, hB.1, hB.2.1, hB.2.2, hc, hs, Mat22ByAngle,
    Mat22.Transpose, Mat22.MulV, Vec2.Sub, MulSV]
  have h1 : -p > 95 / 100 * (|x| - 101 / 2) + 1 / 100 * (1 / 2 * 20) := by
    show 95 / 100 * (|x| - 101 / 2) + 1 / 100 * (1 / 2 * 20) < -p
    linarith
  have h2 : ¬ (|x| - 101 / 2 > 95 / 100 * -p + 1 / 100 * (1 / 2 * 1)) := by
    rw [gt_iff_lt, not_lt]
    linarith
  have h3 : ¬ (-p > 95 / 100 * -p + 1 / 100 * (1 / 2 * 1)) := by
    rw [gt_iff_lt, not_lt]
    linarith
  have h4 : 0 * (x - 0) + 1 * (1 / 2 - p - -10) > 0 := by
    show 0 < 0 * (x - 0) + 1 * (1 / 2 - p - -10)
    linarith
  simp only [h1, h2, h3, h4, if_true, if_false, neg_zero]

theorem resting_setup (m : MathLib α) (hc : m.Cos 0 = 1) (hs : m.Sin 0 = 0) (A B : Body α)
    (x p : α) (hA : A.Position = ⟨0, -10⟩ ∧ A.Rotation = 0 ∧ A.Width = ⟨100, 20⟩)
    (hB : B.Position = ⟨x, 1 / 2 - p⟩ ∧ B.Rotation = 0 ∧ B.Width = ⟨1, 1⟩)
    (hx : |x| ≤ 49) (hp0 : 0 ≤ p) (hp1 : p ≤ 1 / 2) :
    Collide.setup m A B
      = { frontNormal := ⟨0, 1⟩, sideNormal := ⟨1, 0⟩,
          incidentEdge := (⟨⟨x - 1 / 2, -p⟩, ⟨NO_EDGE, NO_EDGE, EDGE2, EDGE3⟩⟩,
            ⟨⟨x + 1 / 2, -p⟩, ⟨NO_EDGE, NO_EDGE, EDGE3, EDGE4⟩⟩),
          front := 0, negSide := 50, posSide := 50, negEdge := EDGE2, posEdge := EDGE4 } := by
  unfold Collide.setup
  rw [resting_best m hc hs A B x p hA hB hx hp0 hp1]
  have h10 : ¬ ((1 : α) < 0) := not_lt.mpr zero_le_one
  simp [h10, Collide.clipSetup, FACE_A_Y, hA.1, hA.2.1, hA.2.2, hB.1, hB.2.1, hB.2.2, hc, hs,
    Mat22ByAngle, Mat22.Transpose, Mat22.MulV, Vec2.Sub, Vec2.Add, Vec2.Negative, Vec2.Abs,
    MulSV, Dot, ComputeIncidentEdge, ClipVertex.incident, ClipVertex.zero, FeaturePair.zero,
    NO_EDGE]
  exact ⟨⟨by ring, by ring⟩, by norm_num, by norm_num⟩

/-- C21: feature stability for a resting box.  For unrotated `A` with `Width (100, 20)` at
`(0, -10)` and unrotated `B` with `Width (1, 1)` at `(x, 0.5 - p)`, for every `|x| <= 49` and
every penetration `0 <= p <= 0.5`, `Collide(A, B)` selects `FACE_A_Y` and returns exactly two
contacts, at positions `(x - 0.5, 0)` and `(x + 0.5, 0)`, both with `Normal (0, 1)` and
`Separation -p`, with features `(NO_EDGE, NO_EDGE, EDGE2, EDGE3)` and
`(NO_EDGE, NO_EDGE, EDGE3, EDGE4)`; the two feature values are distinct and do not depend on
`x` or `p`. -/
theorem resting_box_features (m : MathLib α) (hc : m.Cos 0 = 1) (hs : m.Sin 0 = 0)
    (A B : Body α) (x p : α)
    (hA : A.Position = ⟨0, -10⟩ ∧ A.Rotation = 0 ∧ A.Width = ⟨100, 20⟩)
    (hB : B.Position = ⟨x, 1 / 2 - p⟩ ∧ B.Rotation = 0 ∧ B.Width = ⟨1, 1⟩)
    (hx : |x| ≤ 49) (hp0 : 0 ≤ p) (hp1 : p ≤ 1 / 2) :
    (Collide.best m A B).axis = FACE_A_Y ∧
    Collide m A B
      = some [{ (Contact.zero : Contact α) with
                Position := ⟨x - 1 / 2, 0⟩, Normal := ⟨0, 1⟩, Separation := -p,
                Feature := ⟨NO_EDGE, NO_EDGE, EDGE2, EDGE3⟩ },
              { (Contact.zero : Contact α) with
                Position := ⟨x + 1 / 2, 0⟩, Normal := ⟨0, 1⟩, Separation := -p,
                Feature := ⟨NO_EDGE, NO_EDGE, EDGE3, EDGE4⟩ }] ∧
    (⟨NO_EDGE, NO_EDGE, EDGE2, EDGE3⟩ : FeaturePair).Value
      ≠ (⟨NO_EDGE, NO_EDGE, EDGE3, EDGE4⟩ : FeaturePair).Value := by
  obtain ⟨hfA, hfB⟩ := resting_faces m hc hs A B x p hA hB hp1
  have hbest := resting_best m hc hs A B x p hA hB hx hp0 hp1
  have hsetup := resting_setup m hc hs A B x p hA hB hx hp0 hp1
  obtain ⟨hx1, hx2⟩ := abs_le.mp hx
  refine ⟨by rw [hbest], ?_, by decide⟩
  have hf : ¬ (|x| - 101 / 2 > 0 ∨ -p > 0) := by
    rintro (h | h)
    · have : 0 < |x| - 101 / 2 := h
      linarith
    · have : 0 < -p := h
      linarith
  have c1 : ClipSegmentToLine (ClipVertex.zero, ClipVertex.zero)
      ((⟨⟨x - 1 / 2, -p⟩, ⟨NO_EDGE, NO_EDGE, EDGE2, EDGE3⟩⟩,
        ⟨⟨x + 1 / 2, -p⟩, ⟨NO_EDGE, NO_EDGE, EDGE3, EDGE4⟩⟩) : ClipPair α)
      (⟨1, 0⟩ : Vec2 α).Negative 50 EDGE2
      = some ((⟨⟨x - 1 / 2, -p⟩, ⟨NO_EDGE, NO_EDGE, EDGE2, EDGE3⟩⟩,
        ⟨⟨x + 1 / 2, -p⟩, ⟨NO_EDGE, NO_EDGE, EDGE3, EDGE4⟩⟩), 2) := by
    apply clip_keep_both
    · simp only [Dot, Vec2.Negative]; linarith
    · simp only [Dot, Vec2.Negative]; linarith
  have c2 : ClipSegmentToLine (ClipVertex.zero, ClipVertex.zero)
      ((⟨⟨x - 1 / 2, -p⟩, ⟨NO_EDGE, NO_EDGE, EDGE2, EDGE3⟩⟩,
        ⟨⟨x + 1 / 2, -p⟩, ⟨NO_EDGE, NO_EDGE, EDGE3, EDGE4⟩⟩) : ClipPair α)
      (⟨1, 0⟩ : Vec2 α) 50 EDGE4
      = some ((⟨⟨x - 1 / 2, -p⟩, ⟨NO_EDGE, NO_EDGE, EDGE2, EDGE3⟩⟩,
        ⟨⟨x + 1 / 2, -p⟩, ⟨NO_EDGE, NO_EDGE, EDGE3, EDGE4⟩⟩), 2) := by
    apply clip_keep_both
    · simp only [Dot]; linarith
    · simp only [Dot]; linarith
  rw [Collide_eq, hfA, hfB, hsetup, hbest]
  simp only [hf, if_false, c1, c2, Option.some_bind, lt_irrefl]
  have hsep : ∀ y : α, Dot (⟨0, 1⟩ : Vec2 α) ⟨y, -p⟩ - 0 = -p := by
    intro y; simp only [Dot]; ring
  have hle : -p ≤ 0 := by linarith
  have hax : ¬ (FACE_A_Y = FACE_B_X ∨ FACE_A_Y = FACE_B_Y) := by decide
  simp only [List.foldl, Collide.emit, hsep, hle, hax, if_true, if_false, List.nil_append,
    List.cons_append, Vec2.Sub, MulSV, Contact.zero]
  simp

theorem resting_box_features_witness :
    Sample.math.Cos 0 = 1 ∧ Sample.math.Sin 0 = 0 ∧
    |(-1 / 2 : ℚ)| ≤ 49 ∧
    (Collide.best Sample.math Sample.groundBox Sample.resting).axis = FACE_A_Y ∧
    Collide Sample.math Sample.groundBox Sample.resting
      = some [{ (Contact.zero : Contact ℚ) with
                Position := ⟨-1 / 2 - 1 / 2, 0⟩, Normal := ⟨0, 1⟩, Separation := -(1 / 4),
                Feature := ⟨NO_EDGE, NO_EDGE, EDGE2, EDGE3⟩ },
              { (Contact.zero : Contact ℚ) with
                Position := ⟨-1 / 2 + 1 / 2, 0⟩, Normal := ⟨0, 1⟩, Separation := -(1 / 4),
                Feature := ⟨NO_EDGE, NO_EDGE, EDGE3, EDGE4⟩ }] := by
  have hc : Sample.math.Cos 0 = 1 := by norm_num [Sample.math]
  have hs : Sample.math.Sin 0 = 0 := by norm_num [Sample.math]
  have hx : |(-1 / 2 : ℚ)| ≤ 49 := by
    rw [abs_le]; constructor <;> norm_num
  have h := resting_box_features Sample.math hc hs Sample.groundBox Sample.resting
    (-1 / 2) (1 / 4) ⟨rfl, rfl, rfl⟩
    ⟨by norm_num [Sample.resting, Sample.box], rfl, rfl⟩ hx (by norm_num) (by norm_num)
  exact ⟨hc, hs, hx, h.1, h.2.1⟩

end RestingTheorems

end Box2dLite
